import Mathlib

/-!
# Convenient-OCR: the document-to-text conversion pipeline

A shallow embedding of the conversion core of the repository
(`src/fileprocessor.cpp`, `src/tesseractocrengine.cpp`, `src/ocrengine.h`), and of the
language tables of `src/mainwindow.cpp`.

Modelling conventions.

* A `QString` is the list of its characters; a `QStringList` is a list of those.
* C++ `int` values that are sizes, indices, percentages or elapsed milliseconds are
  natural numbers: every one of them is non-negative, so the truncating division of
  C++ is `Nat` division.  The products `i * 100` stay in `int` range for batches
  of up to 21474836 pages; signed overflow beyond that is undefined behaviour of the
  program and is outside this model.
* The external world (the child process, the files it writes, the clock) is an explicit
  argument of every operation that consults it; the signals an operation emits and the
  process and file operations it performs are returned as a trace, in program order.
* Arithmetic on `float` is taken as a parameter (`FloatOps`), so that nothing is
  assumed about rounding.
-/

namespace ConvenientOCR

/-! ## Strings -/

/-- A `QString`, as its sequence of characters. -/
abbrev QString := List Char

/-- The `QChar::isSpace` test: the ASCII blanks `\t \n \v \f \r` and the space, the
next-line and no-break-space controls, and the Unicode separator categories Zs, Zl, Zp. -/
def isSpace (c : Char) : Bool :=
  let n := c.toNat
  n == 0x20 || (0x09 ≤ n && n ≤ 0x0d) || n == 0x85 || n == 0xa0 || n == 0x1680 ||
    (0x2000 ≤ n && n ≤ 0x200a) || n == 0x2028 || n == 0x2029 || n == 0x202f ||
    n == 0x205f || n == 0x3000

/-- The `QString::trimmed` operation: white space removed from both ends. -/
def trimmed (s : QString) : QString :=
  ((s.dropWhile isSpace).reverse.dropWhile isSpace).reverse

/-- The `QString::number(int)` rendering of a non-negative value: its decimal digits. -/
def number (n : Nat) : QString := Nat.toDigits 10 n

/-- The `QString::startsWith` test. -/
def startsWith (s pre : QString) : Bool := pre.isPrefixOf s

/-- The `QStringList::join` operation. -/
def join (parts : List QString) (sep : QString) : QString := sep.intercalate parts

/-- The `QString::split(sep)` operation with the default `Qt::KeepEmptyParts`. -/
def split (s : QString) (sep : Char) : List QString := s.splitOn sep

/-- The `QString::split(sep, Qt::SkipEmptyParts)` operation. -/
def splitSkipEmpty (s : QString) (sep : Char) : List QString :=
  (s.splitOn sep).filter (fun part => !part.isEmpty)

/-! ### `QString::arg` -/

/-- One lexical item of a format string: a plain character, or a place marker
(`%N` or `%LN`, `N` one or two decimal digits) with its number and its source text. -/
inductive ArgToken where
  | lit (c : Char)
  | marker (num : Nat) (src : QString)
deriving DecidableEq, Repr

/-- Value of an ASCII decimal digit. -/
def digitValue (c : Char) : Nat := c.toNat - 48

/-- One or two ASCII digits at the head of a string: their value and their text. -/
def digitsAt (s : QString) : Option (Nat × QString) :=
  match s with
  | [] => none
  | [d] => if d.isDigit then some (digitValue d, [d]) else none
  | d :: e :: _ =>
    if d.isDigit then
      if e.isDigit then some (10 * digitValue d + digitValue e, [d, e])
      else some (digitValue d, [d])
    else none

/-- A place marker at the head of a string: a percent sign, an optional `L`, then one
digit and, if the next character is a digit too, that one as well. -/
def markerAt (s : QString) : Option (Nat × QString) :=
  match s with
  | [] => none
  | c :: rest =>
    if c = '%' then
      match rest with
      | [] => none
      | l :: rest1 =>
        if l = 'L' then (digitsAt rest1).map (fun p => (p.1, c :: l :: p.2))
        else (digitsAt rest).map (fun p => (p.1, c :: p.2))
    else none

/-- Lexing of a format string into plain characters and place markers, as
`QString::arg` scans it; `skip` is the number of characters still to pass over
because they belong to the marker just read.  A percent sign that starts no marker is
a plain character. -/
def argTokensAux : Nat → QString → List ArgToken
  | _, [] => []
  | skip + 1, _ :: rest => argTokensAux skip rest
  | 0, c :: rest =>
    match markerAt (c :: rest) with
    | some p => ArgToken.marker p.1 p.2 :: argTokensAux (p.2.length - 1) rest
    | none => ArgToken.lit c :: argTokensAux 0 rest

/-- The tokens of a whole format string. -/
def argTokens (fmt : QString) : List ArgToken := argTokensAux 0 fmt

/-- The lowest place-marker number among the tokens, if there is a marker at all. -/
def lowestMarker : List ArgToken → Option Nat
  | [] => none
  | ArgToken.lit _ :: ts => lowestMarker ts
  | ArgToken.marker n _ :: ts =>
    match lowestMarker ts with
    | none => some n
    | some m => some (min n m)

/-- Text of the tokens once every marker numbered `k` is replaced by `a`. -/
def renderTokens (k : Nat) (a : QString) : List ArgToken → QString
  | [] => []
  | ArgToken.lit c :: ts => c :: renderTokens k a ts
  | ArgToken.marker n src :: ts =>
    (if n = k then a else src) ++ renderTokens k a ts

/-- The `QString::arg(const QString &)` operation: every occurrence of the
lowest-numbered place marker is replaced by `a`; a string without a marker is
returned as it is. -/
def arg (fmt a : QString) : QString :=
  match lowestMarker (argTokens fmt) with
  | none => fmt
  | some k => renderTokens k a (argTokens fmt)

/-- The `QString::arg(int)` operation for a non-negative value. -/
def argInt (fmt : QString) (n : Nat) : QString := arg fmt (number n)

/-! ## PdfRasterizer: `FileProcessor::convertPDFToImagesWithPoppler` -/

/-- Largest value of a C++ `int`. -/
def INT_MAX : Nat := 2147483647

/-- Decimal value of a digit string. -/
def decimalValue (ds : QString) : Nat := ds.foldl (fun acc c => 10 * acc + digitValue c) 0

/-- The `QString::toInt` conversion of a string of ASCII decimal digits, the only
strings the page-number comparator hands to it: the decimal value, or `0` when the
conversion fails (empty string, a character that is not a digit, a value that does
not fit an `int`). -/
def toInt (s : QString) : Nat :=
  if s ≠ [] ∧ s.all Char.isDigit ∧ decimalValue s ≤ INT_MAX then decimalValue s else 0

/-- A match of the pattern `page-(\d+)\.png` that starts at the head of `s`: the
captured digits.  The digit run is greedy, and since the character that must follow
it is a dot, no shorter run can match. -/
def matchPageRegexAt (s : QString) : Option QString :=
  if "page-".toList.isPrefixOf s then
    let rest := s.drop 5
    let ds := rest.takeWhile Char.isDigit
    if ds ≠ [] ∧ ".png".toList.isPrefixOf (rest.dropWhile Char.isDigit) then some ds else none
  else none

/-- The call `pageRegex.match(s)` for `page-(\d+)\.png`: the capture group of the
leftmost match anywhere in `s`, or `none` when `hasMatch()` is false. -/
def matchPageRegex : QString → Option QString
  | [] => none
  | c :: cs =>
    match matchPageRegexAt (c :: cs) with
    | some ds => some ds
    | none => matchPageRegex cs

/-- The page number the comparator reads off a file name: `0` unless the pattern
matches, else `captured(1).toInt()`. -/
def pageNumber (name : QString) : Nat :=
  match matchPageRegex name with
  | some ds => toInt ds
  | none => 0

/-- The lambda `pageNumberComparator`. -/
def pageNumberComparator (a b : QString) : Bool :=
  decide (pageNumber a < pageNumber b)

/-- The call `std::sort(first, last, comp)`.  The standard fixes the result up to the
order of elements that `comp` does not separate; the model is insertion sort, which
keeps such elements in their input order. -/
def stdSort {α : Type} (comp : α → α → Bool) (l : List α) : List α :=
  l.insertionSort (fun a b => comp b a = false)

/-- What the file processor signals and does to its child process and to files.  The
signal `processingCompleted` carries the result that the operation also returns. -/
inductive FPEffect where
  | progressUpdated (percentage current total : Nat)
  | processStart (program : QString) (arguments : List QString)
  | processTerminate
  | processKill
  | mkpath (dir : QString)
  | removeRecursively (dir : QString)
  | fileRemove (path : QString)
  | errorOccurred (errorMessage : QString)
  | processingCompleted
deriving DecidableEq, Repr

/-- Behaviour of the rasterizer process and of the output directory during one call
of `convertPDFToImagesWithPoppler`. -/
structure PopplerRun where
  /-- result of `waitForStarted(10000)` -/
  started : Bool
  /-- whether `state()` is `Running` once `k` calls of `waitForFinished(2000)` are over -/
  stillRunning : Nat → Bool
  /-- result of `waitForFinished(5000)` after `terminate()` -/
  exitsOnTerminate : Bool
  /-- whether `exitStatus()` is `NormalExit` -/
  exitNormal : Bool
  /-- value of `exitCode()` -/
  exitCode : Int
  /-- result of `entryList` for the filter `page-*.png` -/
  pageFiles : List QString
  /-- result of `entryList` for the filter `*.png` -/
  pngFiles : List QString
  /-- size of the file at a path, `none` when there is no such file -/
  fileSize : QString → Option Nat

/-- The polling loop of the rasterizer: `fuel` bounds the number of rounds left,
`waits` counts the rounds done, `elapsedTime` is the loop variable. -/
def popplerWaitLoop (stillRunning : Nat → Bool) : Nat → Nat → Nat → List FPEffect × Nat
  | 0, waits, _ => ([], waits)
  | fuel + 1, waits, elapsedTime =>
    if stillRunning waits && decide (elapsedTime < 60000) then
      let elapsedTime1 := elapsedTime + 2000
      let estimatedProgress := 20 + (15 * elapsedTime1) / 60000
      let r := popplerWaitLoop stillRunning fuel (waits + 1) elapsedTime1
      (FPEffect.progressUpdated estimatedProgress 0 0 :: r.1, r.2)
    else ([], waits)

/-- The call `dir.absoluteFilePath(file)` for the output directory. -/
def absoluteFilePath (outputDir file : QString) : QString := outputDir ++ '/' :: file

/-- The validation loop: the files that exist with a size above zero, as full paths. -/
def validFiles (fileSize : QString → Option Nat) (outputDir : QString) :
    List QString → List QString
  | [] => []
  | file :: files =>
    let fullPath := absoluteFilePath outputDir file
    match fileSize fullPath with
    | some size =>
      if 0 < size then fullPath :: validFiles fileSize outputDir files
      else validFiles fileSize outputDir files
    | none => validFiles fileSize outputDir files

/-- The operation `FileProcessor::convertPDFToImagesWithPoppler`.  Returns the image
files, the new value of `m_tempFiles`, and the trace. -/
def convertPDFToImagesWithPoppler (m_popplerPath : QString) (m_tempFiles : List QString)
    (w : PopplerRun) (pdfPath outputDir : QString) :
    List QString × List QString × List FPEffect :=
  let outputPrefix := outputDir ++ "/page".toList
  let arguments := ["-png".toList, "-r".toList, "200".toList, "-aa".toList, "yes".toList,
    "-aaVector".toList, "yes".toList, pdfPath, outputPrefix]
  let t0 := [FPEffect.progressUpdated 15 0 0, FPEffect.processStart m_popplerPath arguments]
  if w.started then
    let loop := popplerWaitLoop w.stillRunning 30 0 0
    let t1 := t0 ++ [FPEffect.progressUpdated 20 0 0] ++ loop.1
    let t2 :=
      if w.stillRunning loop.2 then
        t1 ++ [FPEffect.processTerminate] ++
          (if w.exitsOnTerminate then [] else [FPEffect.processKill])
      else t1
    if !w.exitNormal || w.exitCode != 0 then
      ([], m_tempFiles, t2)
    else
      let files := if w.pageFiles.isEmpty then w.pngFiles else w.pageFiles
      let sorted := stdSort pageNumberComparator files
      let imageFiles := validFiles w.fileSize outputDir sorted
      (imageFiles, m_tempFiles ++ imageFiles, t2 ++ [FPEffect.progressUpdated 35 0 0])
  else
    ([], m_tempFiles, t0)

/-! ## RecognitionEngine: `TesseractOCREngine` -/

/-- The `float` operations the engine uses, and the `QString::toFloat` conversion
(`none` when its `ok` flag is false).  In the program these are IEEE single-precision
operations; the model assumes nothing about them. -/
structure FloatOps (F : Type) where
  /-- the literal `0.0f` -/
  zero : F
  /-- the literal `0.8f` -/
  fallback : F
  /-- the literal `100.0f` -/
  hundred : F
  /-- conversion of an `int` -/
  ofInt : Nat → F
  add : F → F → F
  mul : F → F → F
  div : F → F → F
  /-- the test `conf >= 0` -/
  nonNegative : F → Bool
  /-- the conversion `QString::toFloat(&ok)` -/
  toFloat : QString → Option F

/-- A `QImage`: its size and its pixel data.  It is null when it has no pixels, which
is when a side is zero. -/
structure QImage where
  width : Nat
  height : Nat
  pixels : List Nat
deriving DecidableEq, Repr

/-- The `QImage::isNull` test. -/
def QImage.isNull (image : QImage) : Bool := image.width == 0 || image.height == 0

/-- The struct `OCREngine::OCRResult`. -/
structure OCRResult (F : Type) where
  text : QString
  confidence : F
  success : Bool
  errorMessage : QString

/-- The default constructor of `OCRResult`. -/
def OCRResult.new {F : Type} (ops : FloatOps F) : OCRResult F :=
  { text := [], confidence := ops.zero, success := false, errorMessage := [] }

/-- The struct `OCREngine::BatchOCRResult`. -/
structure BatchOCRResult (F : Type) where
  texts : List QString
  pageNames : List QString
  confidences : List F
  combinedText : QString
  success : Bool
  errorMessage : QString
  processedPages : Nat
  totalPages : Nat

/-- The default constructor of `BatchOCRResult`. -/
def BatchOCRResult.new (F : Type) : BatchOCRResult F :=
  { texts := [], pageNames := [], confidences := [], combinedText := [], success := false,
    errorMessage := [], processedPages := 0, totalPages := 0 }

/-- The member variables of `TesseractOCREngine` that the recognition path reads or
writes. -/
structure Engine where
  m_initialized : Bool
  m_lastError : QString
  m_tesseractPath : QString
  m_tessDataPath : QString
  m_ocrEngineMode : Nat
  m_pageSegmentationMode : Nat
  m_tempFiles : List QString

/-- What the engine signals and does to its child processes and to files.  The signals
`batchOcrCompleted` and `ocrCompleted` carry the result that the operation also
returns. -/
inductive OCREffect where
  | progressUpdated (progress : Nat)
  | batchProgressUpdated (progress currentPage totalPages currentPageProgress : Nat)
  | errorOccurred (errorMessage : QString)
  | batchOcrCompleted
  | imageSave (path : QString)
  | processEnvironment (workingDirectory : QString)
  | processStart (program : QString) (arguments : List QString)
  | processTerminate
  | fileRemove (path : QString)
  | processWorkingDirectory (dir : QString)
  | ocrCompleted
deriving DecidableEq, Repr

/-- Outcome of one of the two `--version` probe processes. -/
structure ProbeRun where
  /-- result of `waitForFinished(5000)` -/
  finished : Bool
  exitCode : Int
  standardOutput : QString

/-- Behaviour of the recognition process and of the files around it during the
recognition of one page. -/
structure TesseractRun where
  /-- value of `currentMSecsSinceEpoch()` when the image is saved -/
  saveTime : Nat
  /-- result of `image.save(tempFilePath, "PNG")` -/
  saveOk : Bool
  /-- value of `currentMSecsSinceEpoch()` when the output base name is built -/
  outputTime : Nat
  /-- result of `waitForStarted(5000)` -/
  started : Bool
  /-- value of `errorString()` -/
  errorString : QString
  /-- whether `state()` is `Running` once `k` calls of `waitForFinished(500)` are over -/
  stillRunning : Nat → Bool
  /-- whether `exitStatus()` is `NormalExit` -/
  exitNormal : Bool
  exitCode : Int
  standardError : QString
  /-- content of the `.txt` output file, `none` when it cannot be opened -/
  outputText : Option QString
  /-- content of the `.tsv` output file, `none` when it cannot be opened -/
  outputTsv : Option QString

/-- The surroundings of the engine during one operation. -/
structure World where
  /-- the probe run by `checkTesseractInstallation` -/
  installProbe : ProbeRun
  /-- the probe run by `getTesseractVersion` -/
  versionProbe : ProbeRun
  /-- the writable temporary location -/
  tempDir : QString
  /-- the directory of the recognition executable -/
  tesseractDir : QString
  /-- whether that directory exists -/
  tesseractDirExists : Bool := true
  /-- the recognition run of the page with a given index -/
  page : Nat → TesseractRun

/-- The `QString::contains` test. -/
def contains : QString → QString → Bool
  | [], sub => sub.isEmpty
  | c :: cs, sub => sub.isPrefixOf (c :: cs) || contains cs sub

/-- Whether the configured executable is a bundled one. -/
def isBundled (e : Engine) : Bool :=
  contains e.m_tesseractPath "tesseract".toList &&
    contains e.m_tesseractPath "tesseract.exe".toList

/-- The environment set-up for a bundled executable. -/
def bundledSetup (e : Engine) (w : World) : List OCREffect :=
  if isBundled e then [OCREffect.processEnvironment w.tesseractDir] else []

/-- The operation `TesseractOCREngine::checkTesseractInstallation`. -/
def checkTesseractInstallation (e : Engine) (w : World) : Bool × List OCREffect :=
  (w.installProbe.finished && w.installProbe.exitCode == 0,
    bundledSetup e w ++ [OCREffect.processStart e.m_tesseractPath ["--version".toList]])

/-- The operation `TesseractOCREngine::getTesseractVersion`. -/
def getTesseractVersion (e : Engine) (w : World) : QString × List OCREffect :=
  let t := bundledSetup e w ++ [OCREffect.processStart e.m_tesseractPath ["--version".toList]]
  if w.versionProbe.finished then
    match split w.versionProbe.standardOutput '\n' with
    | first :: _ => (trimmed first, t)
    | [] => ([], t)
  else ([], t)

/-- The operation `TesseractOCREngine::initialize`. -/
def initializeEngine (e : Engine) (w : World) : Bool × Engine × List OCREffect :=
  if e.m_initialized then (true, e, [])
  else
    let c := checkTesseractInstallation e w
    if !c.1 then
      let msg := "Tesseract OCR 未安装或无法找到可执行文件".toList
      (false, { e with m_lastError := msg }, c.2 ++ [OCREffect.errorOccurred msg])
    else
      let v := getTesseractVersion e w
      if v.1.isEmpty then
        let msg := "无法获取Tesseract版本信息".toList
        (false, { e with m_lastError := msg }, c.2 ++ v.2 ++ [OCREffect.errorOccurred msg])
      else
        (true, { e with m_initialized := true }, c.2 ++ v.2)

/-- The operation `TesseractOCREngine::cleanupTempFiles`. -/
def cleanupTempFiles (e : Engine) : Engine × List OCREffect :=
  ({ e with m_tempFiles := [] }, e.m_tempFiles.map OCREffect.fileRemove)

/-- The operation `TesseractOCREngine::saveImageToTempFile`: the path, empty on
failure. -/
def saveImageToTempFile (e : Engine) (w : World) (run : TesseractRun) :
    QString × Engine × List OCREffect :=
  let tempFilePath := w.tempDir ++ "/ocr_temp_".toList ++ number run.saveTime ++ ".png".toList
  if run.saveOk then
    (tempFilePath, { e with m_tempFiles := e.m_tempFiles ++ [tempFilePath] },
      [OCREffect.imageSave tempFilePath])
  else ([], e, [OCREffect.imageSave tempFilePath])

/-- The operation `TesseractOCREngine::readOCRResultFromFile`. -/
def readOCRResultFromFile (content : Option QString) : QString :=
  match content with
  | none => []
  | some text => text

/-- The body of the row loop of `parseConfidenceFromTSV`, on the pair
`(totalConfidence, wordCount)`. -/
def tsvRow {F : Type} (ops : FloatOps F) (acc : F × Nat) (line : QString) : F × Nat :=
  let columns := split line '\t'
  if 11 ≤ columns.length then
    match ops.toFloat (columns.getD 10 []) with
    | some conf =>
      if ops.nonNegative conf && decide (11 < columns.length) &&
          !(trimmed (columns.getD 11 [])).isEmpty then
        (ops.add acc.1 conf, acc.2 + 1)
      else acc
    | none => acc
  else acc

/-- The operation `TesseractOCREngine::parseConfidenceFromTSV`, on the content of the
file (`none` when it cannot be opened). -/
def parseConfidenceFromTSV {F : Type} (ops : FloatOps F) (tsv : Option QString) : F :=
  match tsv with
  | none => ops.fallback
  | some content =>
    let lines := splitSkipEmpty content '\n'
    if lines.length ≤ 1 then ops.fallback
    else
      let r := (lines.drop 1).foldl (tsvRow ops) (ops.zero, 0)
      if 0 < r.2 then ops.div r.1 (ops.mul (ops.ofInt r.2) ops.hundred)
      else ops.fallback

/-- The polling loop of the batch single-page recognition: `fuel` bounds the number of
rounds left, `waits` counts the rounds done, `elapsedTime` is the loop variable. -/
def tesseractWaitLoop (stillRunning : Nat → Bool) (pageIndex totalPages : Nat) :
    Nat → Nat → Nat → List OCREffect × Nat
  | 0, waits, _ => ([], waits)
  | fuel + 1, waits, elapsedTime =>
    if stillRunning waits && decide (elapsedTime < 30000) then
      let elapsedTime1 := elapsedTime + 500
      let pageProgress := 20 + (55 * elapsedTime1) / 30000
      let currentProgress := (pageIndex * 100 + pageProgress) / totalPages
      let r := tesseractWaitLoop stillRunning pageIndex totalPages fuel (waits + 1) elapsedTime1
      (OCREffect.batchProgressUpdated currentProgress (pageIndex + 1) totalPages pageProgress
        :: r.1, r.2)
    else ([], waits)

/-- The operation `TesseractOCREngine::performSinglePageOCRWithBatchProgress`. -/
def performSinglePageOCRWithBatchProgress {F : Type} (ops : FloatOps F) (e : Engine)
    (w : World) (run : TesseractRun) (image : QImage) (language : QString)
    (pageIndex totalPages : Nat) : OCRResult F × Engine × List OCREffect :=
  let result := OCRResult.new ops
  let init := if e.m_initialized then (true, e, []) else initializeEngine e w
  if !init.1 then
    ({ result with success := false, errorMessage := init.2.1.m_lastError }, init.2.1, init.2.2)
  else if image.isNull then
    ({ result with success := false, errorMessage := "输入图像为空".toList }, init.2.1, init.2.2)
  else
    let saved := saveImageToTempFile init.2.1 w run
    let tempImagePath := saved.1
    let e1 := saved.2.1
    let t1 := init.2.2 ++ saved.2.2
    if tempImagePath.isEmpty then
      ({ result with success := false, errorMessage := "无法保存临时图像文件".toList }, e1, t1)
    else
      let outputBaseName := w.tempDir ++ "/ocr_result_".toList ++ number run.outputTime
      let outputPath := outputBaseName ++ ".txt".toList
      let tsvOutputPath := outputBaseName ++ ".tsv".toList
      let arguments := [tempImagePath, outputBaseName, "-l".toList, language,
          "--oem".toList, number e1.m_ocrEngineMode,
          "--psm".toList, number e1.m_pageSegmentationMode, "txt".toList, "tsv".toList] ++
        (if !e1.m_tessDataPath.isEmpty then ["--tessdata-dir".toList, e1.m_tessDataPath]
          else [])
      let t2 := t1 ++ bundledSetup e1 w ++
        [OCREffect.batchProgressUpdated ((pageIndex * 100 + 10) / totalPages) (pageIndex + 1)
            totalPages 10,
          OCREffect.processStart e1.m_tesseractPath arguments]
      if !run.started then
        let c := cleanupTempFiles e1
        ({ result with success := false,
                       errorMessage := "无法启动Tesseract进程: ".toList ++ run.errorString },
          c.1, t2 ++ c.2)
      else
        let loop := tesseractWaitLoop run.stillRunning pageIndex totalPages 60 0 0
        let t3 := t2 ++
          [OCREffect.batchProgressUpdated ((pageIndex * 100 + 20) / totalPages) (pageIndex + 1)
            totalPages 20] ++ loop.1
        if run.stillRunning loop.2 then
          let c := cleanupTempFiles e1
          ({ result with success := false, errorMessage := "Tesseract处理超时".toList },
            c.1, t3 ++ [OCREffect.processTerminate] ++ c.2)
        else
          let t4 := t3 ++
            [OCREffect.batchProgressUpdated ((pageIndex * 100 + 80) / totalPages)
              (pageIndex + 1) totalPages 80]
          if !run.exitNormal || run.exitCode != 0 then
            let c := cleanupTempFiles e1
            ({ result with success := false,
                           errorMessage := "Tesseract执行失败: ".toList ++ run.standardError },
              c.1, t4 ++ c.2)
          else
            let ocrText := readOCRResultFromFile run.outputText
            if ocrText.isEmpty then
              let c := cleanupTempFiles e1
              ({ result with success := false, errorMessage := "无法读取OCR结果文件".toList },
                c.1, t4 ++ c.2)
            else
              let confidence := parseConfidenceFromTSV ops run.outputTsv
              let t5 := t4 ++
                [OCREffect.fileRemove tempImagePath, OCREffect.fileRemove outputPath,
                  OCREffect.fileRemove tsvOutputPath,
                  OCREffect.batchProgressUpdated ((pageIndex * 100 + 100) / totalPages)
                    (pageIndex + 1) totalPages 100]
              ({ result with success := true, text := trimmed ocrText,
                             confidence := confidence }, e1, t5)

/-! ## BatchCoordinator: `TesseractOCREngine::performBatchOCR` -/

/-- The text that marks a failed page in the list of page texts. -/
def errorMarker : QString := "错误:".toList

/-- The loop that completes the page names: while there are fewer names than images, a
generated one is appended.  `fuel` bounds the number of rounds. -/
def padPageNames (imageCount : Nat) : Nat → List QString → List QString
  | 0, actualPageNames => actualPageNames
  | fuel + 1, actualPageNames =>
    if actualPageNames.length < imageCount then
      padPageNames imageCount fuel
        (actualPageNames ++ [argInt "页面 %1".toList (actualPageNames.length + 1)])
    else actualPageNames

/-- The variables of the page loop. -/
structure BatchLoop (F : Type) where
  engine : Engine
  allTexts : List QString
  allConfidences : List F
  processedPages : Nat
  trace : List OCREffect

/-- The body of the page loop for the image at index `i` of `imageCount`. -/
def batchPage {F : Type} (ops : FloatOps F) (w : World) (language : QString)
    (imageCount : Nat) (st : BatchLoop F) (i : Nat) (image : QImage) : BatchLoop F :=
  if image.isNull then
    { st with
      allTexts := st.allTexts ++ [argInt "错误: 第%1页图像无效".toList (i + 1)]
      allConfidences := st.allConfidences ++ [ops.zero]
      trace := st.trace ++
        [OCREffect.batchProgressUpdated (((i + 1) * 100) / imageCount) (i + 1) imageCount 100] }
  else
    let singleResult :=
      performSinglePageOCRWithBatchProgress ops st.engine w (w.page i) image language i imageCount
    let t := st.trace ++
      [OCREffect.batchProgressUpdated ((i * 100) / imageCount) (i + 1) imageCount 0] ++
      singleResult.2.2 ++
      [OCREffect.batchProgressUpdated (((i + 1) * 100) / imageCount) (i + 1) imageCount 100]
    if singleResult.1.success then
      { engine := singleResult.2.1
        allTexts := st.allTexts ++ [singleResult.1.text]
        allConfidences := st.allConfidences ++ [singleResult.1.confidence]
        processedPages := st.processedPages + 1
        trace := t }
    else
      { engine := singleResult.2.1
        allTexts := st.allTexts ++ [arg "错误: %1".toList singleResult.1.errorMessage]
        allConfidences := st.allConfidences ++ [ops.zero]
        processedPages := st.processedPages
        trace := t }

/-- The page loop, over the images from index `i` on. -/
def batchLoop {F : Type} (ops : FloatOps F) (w : World) (language : QString)
    (imageCount : Nat) : List QImage → Nat → BatchLoop F → BatchLoop F
  | [], _, st => st
  | image :: images, i, st =>
    batchLoop ops w language imageCount images (i + 1)
      (batchPage ops w language imageCount st i image)

/-- The body of the loop that collects the parts of the combined text. -/
def combineStep (actualPageNames allTexts : List QString) (combinedParts : List QString)
    (i : Nat) : List QString :=
  let text := allTexts.getD i []
  if !text.isEmpty && !startsWith text errorMarker then
    combinedParts ++ [arg (arg "=== %1 ===\n%2".toList (actualPageNames.getD i [])) text]
  else combinedParts

/-- The loop that collects the parts of the combined text. -/
def combinedParts (actualPageNames allTexts : List QString) : List QString :=
  (List.range allTexts.length).foldl (combineStep actualPageNames allTexts) []

/-- The operation `TesseractOCREngine::performBatchOCR`.  Returns the result, the engine
afterwards, and the trace. -/
def performBatchOCR {F : Type} (ops : FloatOps F) (e : Engine) (w : World)
    (images : List QImage) (pageNames : List QString) (language : QString) :
    BatchOCRResult F × Engine × List OCREffect :=
  let batchResult := { BatchOCRResult.new F with totalPages := images.length }
  let init := if e.m_initialized then (true, e, []) else initializeEngine e w
  if !init.1 then
    ({ batchResult with success := false, errorMessage := init.2.1.m_lastError },
      init.2.1, init.2.2)
  else if images.isEmpty then
    ({ batchResult with success := false, errorMessage := "输入图像列表为空".toList },
      init.2.1, init.2.2)
  else
    let actualPageNames := padPageNames images.length images.length pageNames
    let st := batchLoop ops w language images.length images 0
      { engine := init.2.1, allTexts := [], allConfidences := [], processedPages := 0,
        trace := init.2.2 }
    let errorMessage :=
      if st.processedPages = 0 then "所有页面处理失败".toList
      else if st.processedPages < images.length then
        argInt (argInt "部分页面处理失败: 成功 %1/%2 页".toList st.processedPages) images.length
      else []
    ({ texts := st.allTexts
       pageNames := actualPageNames
       confidences := st.allConfidences
       combinedText := join (combinedParts actualPageNames st.allTexts) "\n\n".toList
       success := decide (0 < st.processedPages)
       errorMessage := errorMessage
       processedPages := st.processedPages
       totalPages := images.length },
      st.engine, st.trace ++ [OCREffect.batchOcrCompleted])

/-! ## Concrete arithmetic for worked examples -/

/-- Value of a plain decimal numeral `digits` or `digits.digits`. -/
def decimalNumeral (s : QString) : Option ℚ :=
  let whole := s.takeWhile Char.isDigit
  let rest := s.dropWhile Char.isDigit
  if whole = [] then none
  else
    match rest with
    | [] => some (decimalValue whole : ℚ)
    | c :: frac =>
      if c = '.' ∧ frac ≠ [] ∧ frac.all Char.isDigit then
        some ((decimalValue whole : ℚ) + (decimalValue frac : ℚ) / (10 : ℚ) ^ frac.length)
      else none

/-- Exact rational arithmetic, with a conversion that reads the plain decimal numerals
(optionally negated) that the recognition tool writes in its table. -/
def exactOps : FloatOps ℚ where
  zero := 0
  fallback := 4 / 5
  hundred := 100
  ofInt := fun n => (n : ℚ)
  add := fun a b => a + b
  mul := fun a b => a * b
  div := fun a b => a / b
  nonNegative := fun a => decide (0 ≤ a)
  toFloat := fun s =>
    match s with
    | [] => none
    | c :: cs => if c = '-' then (decimalNumeral cs).map (fun q => -q) else decimalNumeral (c :: cs)

/-! ## Worked examples -/

/-- The rasterizer run of the worked example: a clean exit that leaves `page-3.png`,
`page-1.png` and `page-10.png`, listed in that order, each one byte long. -/
def exampleRasterRun : PopplerRun where
  started := true
  stillRunning := fun _ => false
  exitsOnTerminate := true
  exitNormal := true
  exitCode := 0
  pageFiles := ["page-3.png".toList, "page-1.png".toList, "page-10.png".toList]
  pngFiles := ["page-3.png".toList, "page-1.png".toList, "page-10.png".toList]
  fileSize := fun _ => some 1

/-! ## Readings of the confidence rule -/

/-- The confidence a table row contributes, when it is counted: the row has at least
12 tab-separated columns, column 10 converts to a number that is not negative, and
column 11 is not blank (not empty once trimmed). -/
def rowConfidence {F : Type} (ops : FloatOps F) (line : QString) : Option F :=
  let columns := split line '\t'
  if 12 ≤ columns.length then
    match ops.toFloat (columns.getD 10 []) with
    | some conf =>
      if ops.nonNegative conf && !(trimmed (columns.getD 11 [])).isEmpty then some conf
      else none
    | none => none
  else none

/-- The confidences of the counted rows of a table, in row order; the first line is
the header. -/
def countedConfidences {F : Type} (ops : FloatOps F) (content : QString) : List F :=
  ((splitSkipEmpty content '\n').drop 1).filterMap (rowConfidence ops)

/-- The score of a list of counted confidences: their sum over `100 x` their number,
and the fallback when there is none. -/
def meanConfidence {F : Type} (ops : FloatOps F) (counted : List F) : F :=
  match counted with
  | [] => ops.fallback
  | _ :: _ =>
    ops.div (counted.foldl ops.add ops.zero) (ops.mul (ops.ofInt counted.length) ops.hundred)

/-- The rule for counting a row as the specification words it: column 11 is merely
required to be non-empty. -/
def rowConfidenceAsSpecified {F : Type} (ops : FloatOps F) (line : QString) : Option F :=
  let columns := split line '\t'
  if 12 ≤ columns.length then
    match ops.toFloat (columns.getD 10 []) with
    | some conf =>
      if ops.nonNegative conf && !(columns.getD 11 []).isEmpty then some conf else none
    | none => none
  else none

/-- The confidence as the specification words it. -/
def confidenceAsSpecified {F : Type} (ops : FloatOps F) (content : QString) : F :=
  meanConfidence ops
    (((splitSkipEmpty content '\n').drop 1).filterMap (rowConfidenceAsSpecified ops))

/-- The header line of the table the recognition tool writes. -/
def tsvHeader : QString :=
  "level\tpage_num\tblock_num\tpar_num\tline_num\tword_num\tleft\ttop\twidth\theight\tconf\ttext".toList

/-- A table with two word rows, of confidences 90 and 70. -/
def exampleTsv : QString :=
  tsvHeader ++ "\n5\t1\t1\t1\t1\t1\t10\t10\t50\t20\t90\tHello".toList ++
    "\n5\t1\t1\t1\t1\t2\t70\t10\t50\t20\t70\tworld\n".toList

/-- A table whose only word row has confidence 90 and a single space as its text. -/
def blankWordTsv : QString :=
  tsvHeader ++ "\n5\t1\t1\t1\t1\t1\t10\t10\t50\t20\t90\t \n".toList

/-! ## Closed forms used in the proofs -/

/-- Whether the recognition process of a run is still running when the polling loop
ends, which is the timeout case. -/
def timedOut (run : TesseractRun) : Bool :=
  run.stillRunning (tesseractWaitLoop run.stillRunning 0 1 60 0 0).2

/-- The result of the batch single-page recognition on an initialised engine, as a
function of the image and of the run alone. -/
def recognitionOutcome {F : Type} (ops : FloatOps F) (run : TesseractRun) (image : QImage) :
    OCRResult F :=
  let result := OCRResult.new ops
  if image.isNull then
    { result with success := false, errorMessage := "输入图像为空".toList }
  else if !run.saveOk then
    { result with success := false, errorMessage := "无法保存临时图像文件".toList }
  else if !run.started then
    { result with success := false,
                  errorMessage := "无法启动Tesseract进程: ".toList ++ run.errorString }
  else if timedOut run then
    { result with success := false, errorMessage := "Tesseract处理超时".toList }
  else if !run.exitNormal || run.exitCode != 0 then
    { result with success := false,
                  errorMessage := "Tesseract执行失败: ".toList ++ run.standardError }
  else if (readOCRResultFromFile run.outputText).isEmpty then
    { result with success := false, errorMessage := "无法读取OCR结果文件".toList }
  else
    { result with success := true, text := trimmed (readOCRResultFromFile run.outputText),
                  confidence := parseConfidenceFromTSV ops run.outputTsv }

/-- The arguments of one `batchProgressUpdated` signal. -/
structure BatchProgress where
  progress : Nat
  currentPage : Nat
  totalPages : Nat
  currentPageProgress : Nat
deriving DecidableEq, Repr

/-- The `batchProgressUpdated` signals of a trace, in emission order. -/
def batchSignals : List OCREffect → List BatchProgress
  | [] => []
  | OCREffect.batchProgressUpdated progress currentPage totalPages currentPageProgress :: t =>
    ⟨progress, currentPage, totalPages, currentPageProgress⟩ :: batchSignals t
  | _ :: t => batchSignals t

/-- The signal of page index `i` of `n` at local progress `l`: the overall progress is
`(i * 100 + l) / n`. -/
def signalAt (i n l : Nat) : BatchProgress := ⟨(i * 100 + l) / n, i + 1, n, l⟩

/-- The local progress values that the polling loop reports. -/
def waitLocals (stillRunning : Nat → Bool) : Nat → Nat → Nat → List Nat
  | 0, _, _ => []
  | fuel + 1, waits, elapsedTime =>
    if stillRunning waits && decide (elapsedTime < 30000) then
      (20 + (55 * (elapsedTime + 500)) / 30000) ::
        waitLocals stillRunning fuel (waits + 1) (elapsedTime + 500)
    else []

/-- The local progress values that the single-page recognition reports on an
initialised engine. -/
def pageLocals (run : TesseractRun) (image : QImage) : List Nat :=
  if image.isNull || !run.saveOk then []
  else if !run.started then [10]
  else if timedOut run then 10 :: 20 :: waitLocals run.stillRunning 60 0 0
  else if (!run.exitNormal || run.exitCode != 0) ||
      (readOCRResultFromFile run.outputText).isEmpty then
    10 :: 20 :: (waitLocals run.stillRunning 60 0 0 ++ [80])
  else 10 :: 20 :: (waitLocals run.stillRunning 60 0 0 ++ [80, 100])

/-- The local progress values that the page loop reports for one page. -/
def batchLocals (run : TesseractRun) (image : QImage) : List Nat :=
  if image.isNull then [100] else 0 :: (pageLocals run image ++ [100])

/-- The overall progress values carried by the `batchProgressUpdated` signals of a
trace, in emission order. -/
def overallProgress (trace : List OCREffect) : List Nat :=
  (batchSignals trace).map BatchProgress.progress

/-- Whether the page loop counts a page as processed: its image is not null and its
recognition succeeds. -/
def pageSucceeds {F : Type} (ops : FloatOps F) (run : TesseractRun) (image : QImage) : Bool :=
  !image.isNull && (recognitionOutcome ops run image).success

/-- The text the page loop records for the page with index `i`. -/
def entryText {F : Type} (ops : FloatOps F) (run : TesseractRun) (image : QImage)
    (i : Nat) : QString :=
  if image.isNull then argInt "错误: 第%1页图像无效".toList (i + 1)
  else if (recognitionOutcome ops run image).success then (recognitionOutcome ops run image).text
  else arg "错误: %1".toList (recognitionOutcome ops run image).errorMessage

/-- The confidence the page loop records for a page. -/
def entryConfidence {F : Type} (ops : FloatOps F) (run : TesseractRun) (image : QImage) : F :=
  if pageSucceeds ops run image then (recognitionOutcome ops run image).confidence
  else ops.zero

/-! ## A worked batch: three pages, the second of which fails -/

/-- An initialised engine with the default settings. -/
def exampleEngine : Engine where
  m_initialized := true
  m_lastError := []
  m_tesseractPath := "tesseract".toList
  m_tessDataPath := []
  m_ocrEngineMode := 3
  m_pageSegmentationMode := 3
  m_tempFiles := []

/-- A recognition run that exits cleanly at once and leaves the given text and the
example table. -/
def cleanRun (text : QString) : TesseractRun where
  saveTime := 1700000000000
  saveOk := true
  outputTime := 1700000000001
  started := true
  errorString := []
  stillRunning := fun _ => false
  exitNormal := true
  exitCode := 0
  standardError := []
  outputText := some text
  outputTsv := some exampleTsv

/-- A recognition run that exits with code 1. -/
def failingRun : TesseractRun :=
  { cleanRun [] with exitCode := 1, standardError := "read error".toList, outputText := none,
                     outputTsv := none }

/-- A world in which the recognition of the second page fails and every other page
yields the text `text`. -/
def exampleWorld : World where
  installProbe := { finished := true, exitCode := 0, standardOutput := "tesseract 5.3.0\n".toList }
  versionProbe := { finished := true, exitCode := 0, standardOutput := "tesseract 5.3.0\n".toList }
  tempDir := "/tmp".toList
  tesseractDir := "/usr/bin".toList
  page := fun i => if i = 1 then failingRun else cleanRun "text\n".toList

/-- A one-pixel image. -/
def exampleImage : QImage := { width := 1, height := 1, pixels := [0] }

/-- Three pages. -/
def threePages : List QImage := [exampleImage, exampleImage, exampleImage]

/-- A null image. -/
def nullImage : QImage := { width := 0, height := 0, pixels := [] }

/-- An engine that has not been initialised. -/
def freshEngine : Engine := { exampleEngine with m_initialized := false }

/-- A world in which the recognition tool cannot be run: the installation probe does
not finish. -/
def toolMissingWorld : World :=
  { exampleWorld with installProbe := { finished := false, exitCode := 0, standardOutput := [] } }

/-! ## Readings of the combined text -/

/-- The block of a page in the combined text: a header with the page name, a newline,
the page text. -/
def pageBlock (p : QString × QString) : QString :=
  "=== ".toList ++ p.1 ++ " ===\n".toList ++ p.2

/-- The combined text of the pages whose text is not empty and does not begin with the
error marker: their blocks in page order, joined by a blank line. -/
def combinedBlocks (pageNames texts : List QString) : QString :=
  join (((pageNames.zip texts).filter
    (fun p => !p.2.isEmpty && !startsWith p.2 errorMarker)).map pageBlock) "\n\n".toList

/-- The combined text as the specification words it: the blocks of exactly the pages
whose text does not begin with the error marker. -/
def combinedTextAsSpecified (pageNames texts : List QString) : QString :=
  join (((pageNames.zip texts).filter
    (fun p => !startsWith p.2 errorMarker)).map pageBlock) "\n\n".toList

/-- A world in which the recognition of every page succeeds with an output file that
holds a single form feed, as for a page without text. -/
def blankPageWorld : World :=
  { exampleWorld with page := fun _ => cleanRun "\x0c".toList }

/-! ## FormatClassifier: `FileProcessor::getFileType` -/

/-- The enumeration `FileProcessor::FileType`. -/
inductive FileType where
  | IMAGE_PNG
  | IMAGE_JPG
  | IMAGE_JPEG
  | IMAGE_BMP
  | IMAGE_GIF
  | IMAGE_TIFF
  | IMAGE_WEBP
  | DOCUMENT_PDF
  | UNKNOWN
deriving DecidableEq, Repr

/-- The static list `FileProcessor::s_imageExtensions`. -/
def s_imageExtensions : List QString :=
  ["png".toList, "jpg".toList, "jpeg".toList, "bmp".toList, "gif".toList, "tiff".toList,
    "tif".toList, "webp".toList]

/-- The static list `FileProcessor::s_documentExtensions`. -/
def s_documentExtensions : List QString := ["pdf".toList]

/-- The part of a string after the last occurrence of a character; the whole string
when the character does not occur. -/
def afterLast (c : Char) (s : QString) : QString :=
  (s.reverse.takeWhile (fun d => d != c)).reverse

/-- The call `QFileInfo(path).fileName()`: the path without its directory.  The
separator is the slash, to which the native separators are converted when the
`QFileInfo` is built. -/
def fileName (filePath : QString) : QString := afterLast '/' filePath

/-- The call `QFileInfo(path).suffix()`: the characters of the file name after its
last dot, and the empty string when the file name has no dot. -/
def suffix (filePath : QString) : QString :=
  if (fileName filePath).contains '.' then afterLast '.' (fileName filePath) else []

/-- Lower-casing of the ASCII letters, the instance of `QString::toLower` used in the
worked examples. -/
def asciiLower (s : QString) : QString := s.map Char.toLower

/-- The operation `FileProcessor::getFileType`.  The lower-casing `QString::toLower`
is an argument. -/
def getFileType (toLower : QString → QString) (filePath : QString) : FileType :=
  let extension := toLower (suffix filePath)
  if extension = "png".toList then FileType.IMAGE_PNG
  else if extension = "jpg".toList then FileType.IMAGE_JPG
  else if extension = "jpeg".toList then FileType.IMAGE_JPEG
  else if extension = "bmp".toList then FileType.IMAGE_BMP
  else if extension = "gif".toList then FileType.IMAGE_GIF
  else if extension = "tiff".toList ∨ extension = "tif".toList then FileType.IMAGE_TIFF
  else if extension = "webp".toList then FileType.IMAGE_WEBP
  else if extension = "pdf".toList then FileType.DOCUMENT_PDF
  else FileType.UNKNOWN

/-- The operation `FileProcessor::isFileSupported`. -/
def isFileSupported (toLower : QString → QString) (filePath : QString) : Bool :=
  getFileType toLower filePath != FileType.UNKNOWN

/-- The operation `FileProcessor::getSupportedExtensions`. -/
def getSupportedExtensions : List QString := s_imageExtensions ++ s_documentExtensions

/-! ## ImageNormalizer: `FileProcessor::resizeImage` -/

/-- A `QSize`.  The sizes that occur here are never negative. -/
structure QSize where
  wd : Nat
  ht : Nat
deriving DecidableEq, Repr

/-- The call `QImage::size()`. -/
def QImage.size (image : QImage) : QSize := { wd := image.width, ht := image.height }

/-- The test `QSize::isEmpty`: a side is less than 1. -/
def QSize.isEmpty (s : QSize) : Bool := s.wd == 0 || s.ht == 0

/-- The call `QSize::scaled(s, Qt::KeepAspectRatio)`, which is what
`scale(w, h, Qt::KeepAspectRatio)` assigns: the largest size of the same aspect ratio
inside `s`, with the quotients rounded down. -/
def QSize.scaled (size s : QSize) : QSize :=
  if size.wd = 0 ∨ size.ht = 0 then s
  else
    let rw := s.ht * size.wd / size.ht
    if rw ≤ s.wd then { wd := rw, ht := s.ht }
    else { wd := s.wd, ht := s.wd * size.ht / size.wd }

/-- The default-constructed `QImage`, which is null. -/
def QImage.null : QImage := { width := 0, height := 0, pixels := [] }

/-- The call `QImage::scaled(s, Qt::KeepAspectRatio, Qt::SmoothTransformation)`: a null
image for a null image or an empty size; otherwise the image resampled to the size of
the image scaled into `s`, each side at least 1, and the image itself when that is its
own size.  The resampling filter is an argument. -/
def QImage.scaled (resample : QImage → QSize → List Nat) (image : QImage) (s : QSize) :
    QImage :=
  if image.isNull then QImage.null
  else if s.isEmpty then QImage.null
  else
    let scaledSize := image.size.scaled s
    let newSize : QSize := { wd := max scaledSize.wd 1, ht := max scaledSize.ht 1 }
    if newSize = image.size then image
    else { width := newSize.wd, height := newSize.ht, pixels := resample image newSize }

/-- The width step of `resizeImage`. -/
def widthStep (targetSize : QSize) (maxWidth : Int) : QSize :=
  if 0 < maxWidth ∧ maxWidth < (targetSize.wd : Int) then
    targetSize.scaled { wd := maxWidth.toNat, ht := targetSize.ht }
  else targetSize

/-- The height step of `resizeImage`. -/
def heightStep (targetSize : QSize) (maxHeight : Int) : QSize :=
  if 0 < maxHeight ∧ maxHeight < (targetSize.ht : Int) then
    targetSize.scaled { wd := targetSize.wd, ht := maxHeight.toNat }
  else targetSize

/-- The operation `FileProcessor::resizeImage`. -/
def resizeImage (resample : QImage → QSize → List Nat) (image : QImage)
    (maxWidth maxHeight : Int) : QImage :=
  if image.isNull then image
  else if maxWidth ≤ 0 ∧ maxHeight ≤ 0 then image
  else
    let targetSize := heightStep (widthStep image.size maxWidth) maxHeight
    if targetSize = image.size then image
    else image.scaled resample targetSize

/-- A resampling filter for the worked examples: every pixel is 0. -/
def blankResample (_ : QImage) (s : QSize) : List Nat := List.replicate (s.wd * s.ht) 0

/-- An image of 400 by 300 pixels. -/
def photo : QImage := { width := 400, height := 300, pixels := [] }

/-! ## Files -/

/-- The file system, as the list of the paths of the files that exist. -/
abbrev Files := List QString

/-- The test `QFile::exists`. -/
def fileExists (fs : Files) (path : QString) : Bool := fs.contains path

/-- A file comes into existence. -/
def createFile (fs : Files) (path : QString) : Files :=
  if fs.contains path then fs else path :: fs

/-- The call `QFile::remove(path)`: the file is deleted; nothing happens when there is
no such file.  Deleting a file that exists is taken to succeed. -/
def removeFile (fs : Files) (path : QString) : Files := fs.filter (fun p => p != path)

/-- What an entry of an engine trace does to the files: a `fileRemove` deletes. -/
def OCREffect.onFiles (fs : Files) : OCREffect → Files
  | OCREffect.fileRemove path => removeFile fs path
  | _ => fs

/-- The files after the deletions of an engine trace. -/
def filesAfter (fs : Files) (trace : List OCREffect) : Files :=
  trace.foldl OCREffect.onFiles fs

/-- Whether an entry of a trace starts an external process. -/
def OCREffect.isProcessStart : OCREffect → Bool
  | OCREffect.processStart _ _ => true
  | _ => false

/-! ## RecognitionEngine: `TesseractOCREngine::performOCR` -/

/-- The outcome of one call of `performOCR`: the result, the engine afterwards, the
trace, the files afterwards, and the paths that the call appended to `m_tempFiles`. -/
structure OCRRun (F : Type) where
  result : OCRResult F
  engine : Engine
  trace : List OCREffect
  files : Files
  tracked : List QString

/-- The environment set-up of `performOCR` for a bundled executable: the working
directory is set only if the directory exists. -/
def bundledSetupChecked (e : Engine) (w : World) : List OCREffect :=
  if isBundled e then
    (if w.tesseractDirExists then [OCREffect.processWorkingDirectory w.tesseractDir] else []) ++
      [OCREffect.processEnvironment w.tesseractDir]
  else []

/-- The polling loop of `performOCR`: `fuel` bounds the number of rounds left, `waits`
counts the rounds done, `elapsedTime` is the loop variable. -/
def ocrWaitLoop (stillRunning : Nat → Bool) : Nat → Nat → Nat → List OCREffect × Nat
  | 0, waits, _ => ([], waits)
  | fuel + 1, waits, elapsedTime =>
    if stillRunning waits && decide (elapsedTime < 30000) then
      let elapsedTime1 := elapsedTime + 500
      let currentProgress := 20 + (55 * elapsedTime1) / 30000
      let r := ocrWaitLoop stillRunning fuel (waits + 1) elapsedTime1
      (OCREffect.progressUpdated currentProgress :: r.1, r.2)
    else ([], waits)

/-- The files once the recognition tool has run: its two output files exist as far as
they can be opened afterwards. -/
def toolOutputs (run : TesseractRun) (outputPath tsvOutputPath : QString) (fs : Files) :
    Files :=
  let fs1 := if run.outputText.isSome then createFile fs outputPath else fs
  if run.outputTsv.isSome then createFile fs1 tsvOutputPath else fs1

/-- The operation `TesseractOCREngine::performOCR`, for the run `run` of the
recognition tool and the files `fs` that exist at the call. -/
def performOCR {F : Type} (ops : FloatOps F) (e : Engine) (w : World) (run : TesseractRun)
    (fs : Files) (image : QImage) (language : QString) : OCRRun F :=
  let result := OCRResult.new ops
  let init := if e.m_initialized then (true, e, []) else initializeEngine e w
  if !init.1 then
    { result := { result with success := false, errorMessage := init.2.1.m_lastError }
      engine := init.2.1, trace := init.2.2, files := fs, tracked := [] }
  else if image.isNull then
    { result := { result with success := false, errorMessage := "输入图像为空".toList }
      engine := init.2.1, trace := init.2.2, files := fs, tracked := [] }
  else
    let saved := saveImageToTempFile init.2.1 w run
    let tempImagePath := saved.1
    let e1 := saved.2.1
    let t1 := init.2.2 ++ saved.2.2
    let fs1 := if run.saveOk then createFile fs tempImagePath else fs
    let tracked := if run.saveOk then [tempImagePath] else []
    if tempImagePath.isEmpty then
      { result := { result with success := false, errorMessage := "无法保存临时图像文件".toList }
        engine := e1, trace := t1, files := fs1, tracked := tracked }
    else
      let outputBaseName := w.tempDir ++ "/ocr_result_".toList ++ number run.outputTime
      let outputPath := outputBaseName ++ ".txt".toList
      let tsvOutputPath := outputBaseName ++ ".tsv".toList
      let arguments := [tempImagePath, outputBaseName, "-l".toList, language,
          "--oem".toList, number e1.m_ocrEngineMode,
          "--psm".toList, number e1.m_pageSegmentationMode, "txt".toList, "tsv".toList] ++
        (if !e1.m_tessDataPath.isEmpty then ["--tessdata-dir".toList, e1.m_tessDataPath]
          else [])
      let t2 := t1 ++ bundledSetupChecked e1 w ++
        [OCREffect.progressUpdated 10, OCREffect.processStart e1.m_tesseractPath arguments]
      if !run.started then
        let c := cleanupTempFiles e1
        { result := { result with
            success := false
            errorMessage := "无法启动Tesseract进程: ".toList ++ run.errorString }
          engine := c.1, trace := t2 ++ c.2, files := filesAfter fs1 c.2, tracked := tracked }
      else
        let fs2 := toolOutputs run outputPath tsvOutputPath fs1
        let loop := ocrWaitLoop run.stillRunning 60 0 0
        let t3 := t2 ++ [OCREffect.progressUpdated 20] ++ loop.1
        if run.stillRunning loop.2 then
          let c := cleanupTempFiles e1
          { result := { result with success := false, errorMessage := "Tesseract处理超时".toList }
            engine := c.1, trace := t3 ++ [OCREffect.processTerminate] ++ c.2
            files := filesAfter fs2 c.2, tracked := tracked }
        else
          let t4 := t3 ++ [OCREffect.progressUpdated 80]
          if !run.exitNormal || run.exitCode != 0 then
            let c := cleanupTempFiles e1
            { result := { result with
                success := false
                errorMessage := "Tesseract执行失败: ".toList ++ run.standardError }
              engine := c.1, trace := t4 ++ c.2, files := filesAfter fs2 c.2
              tracked := tracked }
          else
            let ocrText := readOCRResultFromFile run.outputText
            if ocrText.isEmpty then
              let c := cleanupTempFiles e1
              { result := { result with
                  success := false, errorMessage := "无法读取OCR结果文件".toList }
                engine := c.1, trace := t4 ++ c.2, files := filesAfter fs2 c.2
                tracked := tracked }
            else
              let confidence := parseConfidenceFromTSV ops run.outputTsv
              let removals := [OCREffect.fileRemove tempImagePath,
                OCREffect.fileRemove outputPath, OCREffect.fileRemove tsvOutputPath]
              { result := { result with
                  success := true, text := trimmed ocrText, confidence := confidence }
                engine := e1
                trace := t4 ++ removals ++
                  [OCREffect.progressUpdated 100, OCREffect.ocrCompleted]
                files := filesAfter fs2 removals, tracked := tracked }

/-! ### Worked runs of `performOCR` -/

/-- A recognition run that exits cleanly and leaves an empty text file and a table
that holds the header line only. -/
def emptyOutputRun : TesseractRun :=
  { cleanRun [] with outputTsv := some (tsvHeader ++ ['\n']) }

/-- A recognition run that exits cleanly with an output file that holds a single form
feed. -/
def blankPageRun : TesseractRun := cleanRun "\x0c".toList

/-! ## TempResourceTracker and `FileProcessor::processPDFFile` -/

/-- What an entry of a file-processor trace does to the files: a `fileRemove` deletes a
file, a `removeRecursively` every file below the directory. -/
def FPEffect.onFiles (fs : Files) : FPEffect → Files
  | FPEffect.fileRemove path => removeFile fs path
  | FPEffect.removeRecursively dir => fs.filter (fun p => !(dir ++ ['/']).isPrefixOf p)
  | _ => fs

/-- The files after the deletions of a file-processor trace. -/
def filesAfterFP (fs : Files) (trace : List FPEffect) : Files :=
  trace.foldl FPEffect.onFiles fs

/-- The operation `FileProcessor::cleanupTempFiles(filePaths)`: the new value of
`m_tempFiles` and the trace. -/
def FileProcessor.cleanupTempFiles (m_tempFiles filePaths : List QString) :
    List QString × List FPEffect :=
  ([], filePaths.map FPEffect.fileRemove ++ m_tempFiles.map FPEffect.fileRemove)

/-- The struct `FileProcessor::ProcessResult`. -/
structure ProcessResult where
  images : List QImage
  success : Bool
  errorMessage : QString
  pageCount : Nat
  pageNames : List QString

/-- The default constructor of `ProcessResult`. -/
def ProcessResult.new : ProcessResult :=
  { images := [], success := false, errorMessage := [], pageCount := 0, pageNames := [] }

/-- The surroundings of the file processor during one call of `processPDFFile`. -/
structure PdfWorld where
  /-- the probe run by `isPopplerAvailable` -/
  availabilityProbe : ProbeRun
  /-- the writable temporary location -/
  tempDir : QString
  /-- value of `currentMSecsSinceEpoch()` when the output directory is named -/
  now : Nat
  /-- the run of the rasterizer -/
  raster : PopplerRun
  /-- the image that `QImage(path)` loads, null when it cannot be loaded -/
  loadImage : QString → QImage
  /-- the resampling filter of `QImage::scaled` -/
  resample : QImage → QSize → List Nat

/-- The operation `FileProcessor::isPopplerAvailable`. -/
def isPopplerAvailable (m_popplerPath : QString) (w : PdfWorld) : Bool × List FPEffect :=
  (w.availabilityProbe.finished && w.availabilityProbe.exitCode == 0,
    [FPEffect.processStart m_popplerPath ["-h".toList]])

/-- The files once the rasterizer has run: the listed files that exist afterwards have
come into existence. -/
def rasterOutputs (run : PopplerRun) (outputDir : QString) (fs : Files) : Files :=
  if run.started then
    (((run.pageFiles ++ run.pngFiles).map (absoluteFilePath outputDir)).filter
      (fun p => (run.fileSize p).isSome)).foldl createFile fs
  else fs

/-- The loop of `processPDFFile` that loads the page images, from index `i` on, on the
triple of the images, the page names and the trace. -/
def pdfLoadLoop (w : PdfWorld) (maxWidth maxHeight : Int) (count : Nat) :
    List QString → Nat → List QImage × List QString × List FPEffect →
      List QImage × List QString × List FPEffect
  | [], _, acc => acc
  | imageFile :: rest, i, acc =>
    let image := w.loadImage imageFile
    let loaded :=
      if !image.isNull then
        let image1 :=
          if (0 < maxWidth ∨ 0 < maxHeight) ∧
              (maxWidth < (image.width : Int) ∨ maxHeight < (image.height : Int)) then
            resizeImage w.resample image maxWidth maxHeight
          else image
        (acc.1 ++ [image1], acc.2.1 ++ [argInt "页面 %1".toList (i + 1)])
      else (acc.1, acc.2.1)
    pdfLoadLoop w maxWidth maxHeight count rest (i + 1)
      (loaded.1, loaded.2,
        acc.2.2 ++ [FPEffect.progressUpdated (50 + (50 * (i + 1)) / count) (i + 1) count])

/-- The outcome of one call of `processPDFFile`: the result, `m_tempFiles` afterwards,
the trace, the files afterwards, and the paths that the call appended to
`m_tempFiles`. -/
structure PDFRun where
  result : ProcessResult
  m_tempFiles : List QString
  trace : List FPEffect
  files : Files
  tracked : List QString

/-- The operation `FileProcessor::processPDFFile`, for the files `fs` that exist at the
call. -/
def processPDFFile (m_popplerPath : QString) (m_tempFiles : List QString) (w : PdfWorld)
    (fs : Files) (filePath : QString) (maxWidth maxHeight : Int) : PDFRun :=
  let result := ProcessResult.new
  let available := isPopplerAvailable m_popplerPath w
  if !available.1 then
    { result := { result with
        success := false
        errorMessage := "Poppler不可用。请确保Poppler已正确安装并配置路径".toList }
      m_tempFiles := m_tempFiles, trace := available.2, files := fs, tracked := [] }
  else
    let outputDir := w.tempDir ++ "/ocr_pdf_".toList ++ number w.now
    let t1 := available.2 ++
      [FPEffect.progressUpdated 5 0 0, FPEffect.mkpath outputDir, FPEffect.progressUpdated 10 0 0]
    let conv := convertPDFToImagesWithPoppler m_popplerPath m_tempFiles w.raster filePath outputDir
    let imageFiles := conv.1
    let fs1 := rasterOutputs w.raster outputDir fs
    let t2 := t1 ++ conv.2.2
    if imageFiles.isEmpty then
      { result := { result with success := false, errorMessage := "无法转换PDF文件".toList }
        m_tempFiles := conv.2.1
        trace := t2 ++ [FPEffect.removeRecursively outputDir]
        files := filesAfterFP fs1 [FPEffect.removeRecursively outputDir]
        tracked := imageFiles }
    else
      let loaded := pdfLoadLoop w maxWidth maxHeight imageFiles.length imageFiles 0 ([], [], [])
      let cleanup := FileProcessor.cleanupTempFiles conv.2.1 imageFiles
      let t3 := cleanup.2 ++ [FPEffect.removeRecursively outputDir]
      let success := !loaded.1.isEmpty
      { result :=
          { images := loaded.1
            success := success
            errorMessage := if !success then "无法从PDF文件中提取图像".toList else []
            pageCount := loaded.1.length
            pageNames := loaded.2.1 }
        m_tempFiles := cleanup.1
        trace := t2 ++ [FPEffect.progressUpdated 40 0 imageFiles.length] ++ loaded.2.2 ++ t3
        files := filesAfterFP fs1 t3
        tracked := imageFiles }

/-- The surroundings of the worked PDF conversion: the rasterizer of the worked example,
and pages that load as images of 400 by 300 pixels. -/
def examplePdfWorld : PdfWorld where
  availabilityProbe := { finished := true, exitCode := 0, standardOutput := [] }
  tempDir := "/tmp".toList
  now := 1700000000002
  raster := exampleRasterRun
  loadImage := fun _ => photo
  resample := blankResample

/-! ## Language code mapping: `MainWindow::s_languageCodeMap` -/

/-- The static table `MainWindow::s_languageCodeMap`, from display name to language
code, as the list of its entries.  No key occurs twice. -/
def s_languageCodeMap : List (QString × QString) :=
  [("中英混合".toList, "chi_sim+eng".toList),
    ("简体中文".toList, "chi_sim".toList),
    ("简体中文(竖排)".toList, "chi_sim_vert".toList),
    ("繁体中文".toList, "chi_tra".toList),
    ("繁体中文(竖排)".toList, "chi_tra_vert".toList),
    ("英语".toList, "eng".toList)]

/-- The static table `MainWindow::s_languageNameMap`, from language code to display
name.  No key occurs twice. -/
def s_languageNameMap : List (QString × QString) :=
  [("chi_sim+eng".toList, "中英混合".toList),
    ("chi_sim".toList, "简体中文".toList),
    ("chi_sim_vert".toList, "简体中文(竖排)".toList),
    ("chi_tra".toList, "繁体中文".toList),
    ("chi_tra_vert".toList, "繁体中文(竖排)".toList),
    ("eng".toList, "英语".toList)]

/-- The call `QMap::value(key, defaultValue)`. -/
def mapValue (m : List (QString × QString)) (key defaultValue : QString) : QString :=
  match m.lookup key with
  | some v => v
  | none => defaultValue

/-- The operation `MainWindow::getCurrentLanguageCode`, for the text `displayName` that
the language box shows. -/
def getCurrentLanguageCode (displayName : QString) : QString :=
  mapValue s_languageCodeMap displayName "chi_sim+eng".toList

/-- The operation `MainWindow::getLanguageDisplayName`. -/
def getLanguageDisplayName (languageCode : QString) : QString :=
  mapValue s_languageNameMap languageCode languageCode

/-! ## Engine settings: `setOCREngineMode`, `setPageSegmentationMode` -/

/-- The function `qBound(min, val, max)`, which is `qMax(min, qMin(max, val))`. -/
def qBound (lo val hi : Int) : Int := max lo (min hi val)

/-- The operation `TesseractOCREngine::setOCREngineMode`. -/
def setOCREngineMode (e : Engine) (mode : Int) : Engine :=
  { e with m_ocrEngineMode := (qBound 0 mode 13).toNat }

/-- The operation `TesseractOCREngine::setPageSegmentationMode`. -/
def setPageSegmentationMode (e : Engine) (mode : Int) : Engine :=
  { e with m_pageSegmentationMode := (qBound 0 mode 13).toNat }

/-- What the constructor of the engine consults: the application directory, the files
and directories that exist, the value that the base-class constructor gives to
`m_initialized`. -/
structure Installation where
  /-- value of `QApplication::applicationDirPath()` -/
  applicationDirPath : QString
  /-- the test `QFileInfo::exists(path)` -/
  executableExists : QString → Bool
  /-- the call `QFileInfo(path).absolutePath()` -/
  absolutePath : QString → QString
  /-- the test `QDir(path).exists()` -/
  dirExists : QString → Bool
  /-- the value of `m_initialized` after the constructor of `OCREngine` -/
  baseInitialized : Bool

/-- The constructor `TesseractOCREngine::TesseractOCREngine`. -/
def TesseractOCREngine.new (inst : Installation) : Engine :=
  let appDir := inst.applicationDirPath
  let possiblePaths := [appDir ++ "/tesseract/tesseract.exe".toList,
    appDir ++ "/../tesseract/tesseract.exe".toList,
    appDir ++ "/../../tesseract/tesseract.exe".toList,
    "./tesseract/tesseract.exe".toList,
    "tesseract/tesseract.exe".toList]
  let e : Engine :=
    { m_initialized := inst.baseInitialized
      m_lastError := []
      m_tesseractPath := "tesseract".toList
      m_tessDataPath := []
      m_ocrEngineMode := 3
      m_pageSegmentationMode := 3
      m_tempFiles := [] }
  match possiblePaths.find? inst.executableExists with
  | some path =>
    let bundledTessDataPath := inst.absolutePath path ++ "/tessdata".toList
    if path.isEmpty then e
    else if inst.dirExists bundledTessDataPath then
      { e with m_tesseractPath := path, m_tessDataPath := bundledTessDataPath }
    else { e with m_tesseractPath := path }
  | none => e

/-- One call of a mode setter. -/
inductive ModeCall where
  | setOCREngineMode (mode : Int)
  | setPageSegmentationMode (mode : Int)
deriving DecidableEq, Repr

/-- The engine after one call of a mode setter. -/
def ModeCall.run (e : Engine) : ModeCall → Engine
  | ModeCall.setOCREngineMode mode => ConvenientOCR.setOCREngineMode e mode
  | ModeCall.setPageSegmentationMode mode => ConvenientOCR.setPageSegmentationMode e mode

/-- The engine after a sequence of calls of the mode setters, in order. -/
def runModeCalls (e : Engine) (calls : List ModeCall) : Engine := calls.foldl ModeCall.run e

/-- The clamped value `min(max(mode, 0), 13)`. -/
def clampMode (mode : Int) : Nat := (min (max mode 0) 13).toNat

/-- The engine mode in force after a sequence of calls: the argument of the most recent
call of `setOCREngineMode`, clamped, and `initial` when there is no such call. -/
def engineModeInForce (initial : Nat) (calls : List ModeCall) : Nat :=
  match (calls.filterMap
    (fun c => match c with
      | ModeCall.setOCREngineMode mode => some mode
      | ModeCall.setPageSegmentationMode _ => none)).getLast? with
  | some mode => clampMode mode
  | none => initial

/-- The page-segmentation mode in force after a sequence of calls: the argument of the
most recent call of `setPageSegmentationMode`, clamped, and `initial` when there is no
such call. -/
def segmentationModeInForce (initial : Nat) (calls : List ModeCall) : Nat :=
  match (calls.filterMap
    (fun c => match c with
      | ModeCall.setOCREngineMode _ => none
      | ModeCall.setPageSegmentationMode mode => some mode)).getLast? with
  | some mode => clampMode mode
  | none => initial

/-- The argument list that the claim gives for the recognition tool. -/
def argumentsAsSpecified (inputImage outputBase languageCode : QString) (o p : Nat)
    (dataDir : QString) : List QString :=
  [inputImage, outputBase, "-l".toList, languageCode, "--oem".toList, number o,
    "--psm".toList, number p, "txt".toList, "tsv".toList] ++
    (if dataDir = [] then [] else ["--tessdata-dir".toList, dataDir])

/-- An installation without a bundled executable. -/
def plainInstallation : Installation where
  applicationDirPath := "/opt/ocr".toList
  executableExists := fun _ => false
  absolutePath := fun p => p
  dirExists := fun _ => false
  baseInitialized := false

/-! ## Further worked inputs -/

/-- A rasterizer run that exits cleanly and lists four page files, of which `page-2.png`
is empty and `page-4.png` is missing when it is examined. -/
def truncatedRasterRun : PopplerRun :=
  { exampleRasterRun with
    pageFiles := ["page-2.png".toList, "page-1.png".toList, "page-4.png".toList,
      "page-3.png".toList]
    pngFiles := ["page-2.png".toList, "page-1.png".toList, "page-4.png".toList,
      "page-3.png".toList]
    fileSize := fun p =>
      if p = "/tmp/out/page-2.png".toList then some 0
      else if p = "/tmp/out/page-4.png".toList then none
      else some 1 }

/-- An image of 1000 by 3 pixels. -/
def ribbon : QImage := { width := 1000, height := 3, pixels := [] }

/-- Whether an entry of an engine trace is an operation on the child process. -/
def OCREffect.isProcessCall : OCREffect → Bool
  | OCREffect.processStart _ _ => true
  | OCREffect.processTerminate => true
  | _ => false

/-- Whether an entry of a file-processor trace is an operation on the child process. -/
def FPEffect.isProcessCall : FPEffect → Bool
  | FPEffect.processStart _ _ => true
  | FPEffect.processTerminate => true
  | FPEffect.processKill => true
  | _ => false

/-- A recognition run whose process never exits by itself. -/
def hangingRun : TesseractRun :=
  { cleanRun [] with stillRunning := fun _ => true, outputText := none, outputTsv := none }

/-- A rasterizer run whose process never exits by itself, nor within the five seconds
after `terminate()`. -/
def hangingRasterRun : PopplerRun :=
  { exampleRasterRun with
    stillRunning := fun _ => true, exitsOnTerminate := false, exitNormal := false
    pageFiles := [], pngFiles := [] }

/-! ## Failing PDF conversions -/

/-- The rasterizer is not available: its probe does not exit cleanly. -/
def unavailablePdfWorld : PdfWorld :=
  { examplePdfWorld with
    availabilityProbe := { finished := true, exitCode := 127, standardOutput := [] } }

/-- The rasterizer is available but fails to start. -/
def notStartedPdfWorld : PdfWorld :=
  { examplePdfWorld with raster := { exampleRasterRun with started := false } }

/-- The rasterizer exits with code 1. -/
def badExitPdfWorld : PdfWorld :=
  { examplePdfWorld with raster := { exampleRasterRun with exitCode := 1 } }

/-- The rasterizer exits cleanly and leaves only files of size zero. -/
def emptyFilesPdfWorld : PdfWorld :=
  { examplePdfWorld with raster := { exampleRasterRun with fileSize := fun _ => some 0 } }

/-- The rasterizer leaves its three page files, none of which loads as an image. -/
def unreadablePdfWorld : PdfWorld :=
  { examplePdfWorld with loadImage := fun _ => QImage.null }

/-! ## The conversion entry point: `FileProcessor::processFile` -/

/-- The call `QFileInfo(path).baseName()`: the characters of the file name before its
first dot. -/
def baseName (filePath : QString) : QString :=
  (fileName filePath).takeWhile (fun c => c != '.')

/-- The `QImageReader` of a file. -/
structure ImageReader where
  /-- result of `canRead()` -/
  canRead : Bool
  /-- value of `errorString()` -/
  errorString : QString
  /-- result of `read()`, null when the file cannot be decoded -/
  read : QImage

/-- The surroundings of the file processor during one call of `processFile`. -/
structure FileWorld where
  /-- the lower-casing `QString::toLower` -/
  toLower : QString → QString
  /-- the `QImageReader` of the input file -/
  reader : ImageReader
  /-- the surroundings of a PDF conversion; its resampling filter is the one of every
  call of `QImage::scaled` -/
  pdf : PdfWorld

/-- The operation `FileProcessor::processImageFile`: the result and the trace. -/
def processImageFile (w : FileWorld) (filePath : QString) (maxWidth maxHeight : Int) :
    ProcessResult × List FPEffect :=
  let result := ProcessResult.new
  if !w.reader.canRead then
    ({ result with
        success := false
        errorMessage := "无法读取图像文件: ".toList ++ w.reader.errorString }, [])
  else
    let t1 := [FPEffect.progressUpdated 30 1 1]
    let image := w.reader.read
    if image.isNull then
      ({ result with success := false, errorMessage := "图像文件损坏或格式不正确".toList }, t1)
    else
      let image1 :=
        if (0 < maxWidth ∨ 0 < maxHeight) ∧
            (maxWidth < (image.width : Int) ∨ maxHeight < (image.height : Int)) then
          resizeImage w.pdf.resample image maxWidth maxHeight
        else image
      ({ result with
          success := true
          images := result.images ++ [image1]
          pageCount := 1
          pageNames := result.pageNames ++ [baseName filePath] },
        t1 ++ [FPEffect.progressUpdated 60 1 1, FPEffect.progressUpdated 90 1 1,
          FPEffect.progressUpdated 100 1 1])

/-- The `switch` of `processFile` on the file type, after the signal
`progressUpdated(10, 0, 1)`. -/
def processByType (m_popplerPath : QString) (m_tempFiles : List QString) (w : FileWorld)
    (fs : Files) (filePath : QString) (maxWidth maxHeight : Int) : FileType → PDFRun
  | FileType.DOCUMENT_PDF =>
    processPDFFile m_popplerPath m_tempFiles w.pdf fs filePath maxWidth maxHeight
  | FileType.UNKNOWN =>
    let errorMessage := "不支持的文件格式: ".toList ++ suffix filePath
    { result := { ProcessResult.new with success := false, errorMessage := errorMessage }
      m_tempFiles := m_tempFiles
      trace := [FPEffect.errorOccurred errorMessage]
      files := fs
      tracked := [] }
  | _ =>
    let r := processImageFile w filePath maxWidth maxHeight
    { result := r.1, m_tempFiles := m_tempFiles, trace := r.2, files := fs, tracked := [] }

/-- The operation `FileProcessor::processFile`, for the files `fs` that exist at the
call. -/
def processFile (m_popplerPath : QString) (m_tempFiles : List QString) (w : FileWorld)
    (fs : Files) (filePath : QString) (maxWidth maxHeight : Int) : PDFRun :=
  let result := ProcessResult.new
  if !fileExists fs filePath then
    let errorMessage := "文件不存在: ".toList ++ filePath
    { result := { result with success := false, errorMessage := errorMessage }
      m_tempFiles := m_tempFiles
      trace := [FPEffect.errorOccurred errorMessage]
      files := fs
      tracked := [] }
  else
    let fileType := getFileType w.toLower filePath
    let run := processByType m_popplerPath m_tempFiles w fs filePath maxWidth maxHeight fileType
    let t := [FPEffect.progressUpdated 10 0 1] ++ run.trace
    if run.result.success then { run with trace := t ++ [FPEffect.processingCompleted] }
    else { run with trace := t }

/-- The percentages of the `progressUpdated` signals of a trace, in emission order. -/
def progressValues : List FPEffect → List Nat
  | [] => []
  | FPEffect.progressUpdated percentage _ _ :: t => percentage :: progressValues t
  | _ :: t => progressValues t

/-- A list of percentages does not decrease and lies between `lo` and `hi`. -/
def SortedWithin (lo hi : Nat) (l : List Nat) : Prop :=
  l.Pairwise (fun a b => a ≤ b) ∧ ∀ v ∈ l, lo ≤ v ∧ v ≤ hi

/-- Whether an entry of a file-processor trace starts an external process. -/
def FPEffect.isProcessStart : FPEffect → Bool
  | FPEffect.processStart _ _ => true
  | _ => false

/-- The surroundings of the worked conversions: ASCII lower-casing, an image file that
reads as 400 by 300 pixels, and the worked PDF conversion. -/
def exampleFileWorld : FileWorld where
  toLower := asciiLower
  reader := { canRead := true, errorString := [], read := photo }
  pdf := examplePdfWorld

/-! ## Pages that contribute a block to the combined text -/

/-- Whether the page loop records for a page a text that gets a block in the combined
text: the recognition of the page succeeds, and the recognised text, trimmed, is neither
empty nor begins with the error marker. -/
def pageContributes {F : Type} (ops : FloatOps F) (run : TesseractRun) (image : QImage) :
    Bool :=
  pageSucceeds ops run image &&
    (!(trimmed (readOCRResultFromFile run.outputText)).isEmpty &&
      !startsWith (trimmed (readOCRResultFromFile run.outputText)) errorMarker)

/-- A world in which the recognition of every page succeeds with a text that begins with
the error marker. -/
def markerTextWorld : World :=
  { exampleWorld with page := fun _ => cleanRun "错误: 404\n".toList }

/-! ## Exact arithmetic with an arbitrary conversion of numerals -/

theorem validFiles_eq_filter (fileSize : QString → Option Nat) (outputDir : QString)
    (files : List QString) :
    validFiles fileSize outputDir files =
      (files.filter (fun f =>
        match fileSize (absoluteFilePath outputDir f) with
        | some size => decide (0 < size)
        | none => false)).map (absoluteFilePath outputDir) := by
  induction files with
  | nil => rfl
  | cons f fs ih =>
    unfold validFiles
    cases h : fileSize (absoluteFilePath outputDir f) with
    | none => simp [List.filter_cons, h, ih]
    | some size =>
      by_cases hs : 0 < size
      · simp [List.filter_cons, h, hs, ih]
      · simp [List.filter_cons, h, hs, ih]

theorem stdSort_perm {α : Type} (comp : α → α → Bool) (l : List α) :
    (stdSort comp l).Perm l :=
  List.perm_insertionSort _ l

theorem stdSort_pageNumber_pairwise (l : List QString) :
    (stdSort pageNumberComparator l).Pairwise (fun a b => pageNumber a ≤ pageNumber b) := by
  have total : IsTotal QString (fun a b => pageNumberComparator b a = false) :=
    ⟨fun a b => by
      simp only [pageNumberComparator, decide_eq_false_iff_not, not_lt]
      exact Nat.le_total _ _⟩
  have trans : IsTrans QString (fun a b => pageNumberComparator b a = false) :=
    ⟨fun a b c hab hbc => by
      simp only [pageNumberComparator, decide_eq_false_iff_not, not_lt] at *
      exact Nat.le_trans hab hbc⟩
  have h := List.sorted_insertionSort (fun a b => pageNumberComparator b a = false) l
  unfold stdSort
  refine List.Pairwise.imp ?_ h
  intro a b hab
  simpa [pageNumberComparator] using hab

theorem takeWhile_digits_append (ds rest : QString) (hd : ∀ c ∈ ds, c.isDigit = true)
    (hr : ∀ c, rest.head? = some c → c.isDigit = false) :
    (ds ++ rest).takeWhile Char.isDigit = ds ∧ (ds ++ rest).dropWhile Char.isDigit = rest := by
  induction ds with
  | nil =>
    cases rest with
    | nil => simp
    | cons c cs =>
      have := hr c rfl
      simp [List.takeWhile_cons, List.dropWhile_cons, this]
  | cons d ds ih =>
    have hd1 : d.isDigit = true := hd d (List.mem_cons_self _ _)
    have ih1 := ih (fun c hc => hd c (List.mem_cons_of_mem _ hc))
    simp [List.takeWhile_cons, List.dropWhile_cons, hd1, ih1.1, ih1.2]

theorem pageNumber_conventional (ds : QString) (hne : ds ≠ [])
    (hd : ∀ c ∈ ds, c.isDigit = true) (hfit : decimalValue ds ≤ INT_MAX) :
    pageNumber ("page-".toList ++ ds ++ ".png".toList) = decimalValue ds := by
  have htd := takeWhile_digits_append ds ".png".toList hd (by
    intro c hc
    have : c = '.' := by simpa using hc.symm
    subst this; decide)
  have hm : matchPageRegex ("page-".toList ++ ds ++ ".png".toList) = some ds := by
    have : "page-".toList ++ ds ++ ".png".toList = 'p' :: ("age-".toList ++ ds ++ ".png".toList) := rfl
    rw [this, matchPageRegex]
    have hat : matchPageRegexAt ('p' :: ("age-".toList ++ ds ++ ".png".toList)) = some ds := by
      unfold matchPageRegexAt
      have hp : "page-".toList.isPrefixOf ('p' :: ("age-".toList ++ ds ++ ".png".toList)) = true := by
        simp [List.isPrefixOf]
      have hdrop : ('p' :: ("age-".toList ++ ds ++ ".png".toList)).drop 5 = ds ++ ".png".toList := by
        simp
      simp only [hp, hdrop, htd.1, htd.2]
      simp [hne]
    rw [hat]
  unfold pageNumber
  rw [hm]
  simp only [toInt]
  have hall : ds.all Char.isDigit = true := by simpa [List.all_eq_true] using hd
  simp [hne, hall, hfit]

/-- C1. When the rasterizer has exited cleanly, the page sequence built by
`convertPDFToImagesWithPoppler` is the list of full paths of a permutation of the
listed files that exist with non-zero size, in non-decreasing order of the page number
the comparator reads off each name; and for a name `page-<digits>.png` whose number
fits an `int`, that page number is the decimal value of the digits (so the order is
numeric, not lexicographic). -/
theorem convertPDFToImagesWithPoppler_page_order (m_popplerPath : QString)
    (m_tempFiles : List QString) (w : PopplerRun) (pdfPath outputDir : QString)
    (hstarted : w.started = true) (hnormal : w.exitNormal = true) (hcode : w.exitCode = 0) :
    ∃ pages : List QString,
      (convertPDFToImagesWithPoppler m_popplerPath m_tempFiles w pdfPath outputDir).1 =
        pages.map (absoluteFilePath outputDir) ∧
      pages.Perm ((if w.pageFiles.isEmpty then w.pngFiles else w.pageFiles).filter (fun f =>
        match w.fileSize (absoluteFilePath outputDir f) with
        | some size => decide (0 < size)
        | none => false)) ∧
      pages.Pairwise (fun a b => pageNumber a ≤ pageNumber b) ∧
      ∀ ds : QString, ds ≠ [] → (∀ c ∈ ds, c.isDigit = true) → decimalValue ds ≤ INT_MAX →
        pageNumber ("page-".toList ++ ds ++ ".png".toList) = decimalValue ds := by
  refine ⟨(stdSort pageNumberComparator
      (if w.pageFiles.isEmpty then w.pngFiles else w.pageFiles)).filter (fun f =>
        match w.fileSize (absoluteFilePath outputDir f) with
        | some size => decide (0 < size)
        | none => false), ?_, ?_, ?_, ?_⟩
  · simp only [convertPDFToImagesWithPoppler, hstarted, hnormal, hcode, if_true]
    simp [validFiles_eq_filter]
  · exact (stdSort_perm _ _).filter _
  · exact (stdSort_pageNumber_pairwise _).filter _
  · exact fun ds hne hd hfit => pageNumber_conventional ds hne hd hfit

/-- Witness for C1: the files `page-3.png`, `page-1.png`, `page-10.png` come out in the
order `page-1`, `page-3`, `page-10`. -/
theorem convertPDFToImagesWithPoppler_page_order_witness :
    (convertPDFToImagesWithPoppler "pdftoppm".toList [] exampleRasterRun "in.pdf".toList
        "/tmp/out".toList).1 =
      ["/tmp/out/page-1.png".toList, "/tmp/out/page-3.png".toList,
        "/tmp/out/page-10.png".toList] ∧
    ∃ pages : List QString,
      (convertPDFToImagesWithPoppler "pdftoppm".toList [] exampleRasterRun "in.pdf".toList
        "/tmp/out".toList).1 = pages.map (absoluteFilePath "/tmp/out".toList) ∧
      pages.Perm ((if exampleRasterRun.pageFiles.isEmpty then exampleRasterRun.pngFiles
          else exampleRasterRun.pageFiles).filter (fun f =>
        match exampleRasterRun.fileSize (absoluteFilePath "/tmp/out".toList f) with
        | some size => decide (0 < size)
        | none => false)) ∧
      pages.Pairwise (fun a b => pageNumber a ≤ pageNumber b) ∧
      ∀ ds : QString, ds ≠ [] → (∀ c ∈ ds, c.isDigit = true) → decimalValue ds ≤ INT_MAX →
        pageNumber ("page-".toList ++ ds ++ ".png".toList) = decimalValue ds :=
  ⟨by decide,
    convertPDFToImagesWithPoppler_page_order "pdftoppm".toList [] exampleRasterRun
      "in.pdf".toList "/tmp/out".toList rfl rfl rfl⟩

/-! ## Properties of the confidence parser -/

theorem tsvRow_eq {F : Type} (ops : FloatOps F) (acc : F × Nat) (line : QString) :
    tsvRow ops acc line =
      match rowConfidence ops line with
      | some conf => (ops.add acc.1 conf, acc.2 + 1)
      | none => acc := by
  unfold tsvRow rowConfidence
  simp only []
  generalize split line '\t' = columns
  generalize ops.toFloat (columns.getD 10 []) = parsed
  generalize (trimmed (columns.getD 11 [])).isEmpty = blank
  by_cases h12 : 12 ≤ columns.length
  · have h11 : 11 ≤ columns.length := by omega
    have h11' : 11 < columns.length := by omega
    cases parsed with
    | none => simp only [h12, h11, if_true]
    | some conf =>
      cases hn : ops.nonNegative conf <;> cases blank <;>
        simp [h12, h11, h11', hn]
  · by_cases h11 : 11 ≤ columns.length
    · have h11' : ¬ 11 < columns.length := by omega
      cases parsed with
      | none => simp only [h12, h11, if_true, if_false]
      | some conf => simp [h12, h11, h11']
    · simp only [h12, h11, if_false]

theorem foldl_tsvRow {F : Type} (ops : FloatOps F) (rows : List QString) (acc : F × Nat) :
    rows.foldl (tsvRow ops) acc =
      ((rows.filterMap (rowConfidence ops)).foldl ops.add acc.1,
        acc.2 + (rows.filterMap (rowConfidence ops)).length) := by
  induction rows generalizing acc with
  | nil => simp
  | cons row rows ih =>
    rw [List.foldl_cons, ih, tsvRow_eq]
    cases h : rowConfidence ops row with
    | none => simp [List.filterMap_cons, h]
    | some conf =>
      simp only [List.filterMap_cons, h, List.foldl_cons, List.length_cons]
      congr 1
      omega

/-- C2, as amended.  For every table content, `parseConfidenceFromTSV` returns the sum
of the counted confidences over `100 x` the number of counted rows, where a row is
counted iff it comes after the header line, has at least 12 tab-separated columns, its
column 10 converts to a number that is not negative and its column 11 is not blank
(not empty once trimmed); it returns the fallback `0.8` when no row is counted and
when the file cannot be read. -/
theorem parseConfidenceFromTSV_eq_mean {F : Type} (ops : FloatOps F) (content : QString) :
    parseConfidenceFromTSV ops (some content) =
        meanConfidence ops (countedConfidences ops content) ∧
      meanConfidence ops ([] : List F) = ops.fallback ∧
      parseConfidenceFromTSV ops none = ops.fallback := by
  refine ⟨?_, rfl, rfl⟩
  unfold parseConfidenceFromTSV countedConfidences
  by_cases hl : (splitSkipEmpty content '\n').length ≤ 1
  · have hd : (splitSkipEmpty content '\n').drop 1 = [] := by
      rw [List.drop_eq_nil_iff]; exact hl
    simp [hl, hd, meanConfidence]
  · simp only [hl, if_false, foldl_tsvRow, Nat.zero_add]
    cases hc : ((splitSkipEmpty content '\n').drop 1).filterMap (rowConfidence ops) with
    | nil => simp [meanConfidence]
    | cons c cs => simp [meanConfidence]

/-- Counterexample to C2 as stated: a table whose only data row has 12 columns,
confidence 90 and the non-empty text `" "`.  The row is counted under the stated rule,
which gives 0.9, but the program does not count it and returns the fallback 0.8. -/
theorem parseConfidenceFromTSV_blank_text_not_counted :
    parseConfidenceFromTSV exactOps (some blankWordTsv) = 4 / 5 ∧
      confidenceAsSpecified exactOps blankWordTsv = 9 / 10 ∧
      parseConfidenceFromTSV exactOps (some blankWordTsv) ≠
        confidenceAsSpecified exactOps blankWordTsv := by
  decide!

/-- Two counted rows with confidences 90 and 70 give 0.80 (in exact arithmetic). -/
theorem parseConfidenceFromTSV_example :
    countedConfidences exactOps exampleTsv = [90, 70] ∧
      parseConfidenceFromTSV exactOps (some exampleTsv) = 4 / 5 := by
  decide!

/-! ## Properties of `QString::arg` -/

theorem markerAt_of_ne_percent (c : Char) (rest : QString) (h : c ≠ '%') :
    markerAt (c :: rest) = none := by
  simp [markerAt, h]

theorem argTokensAux_plain_append (pre rest : QString) (h : ∀ c ∈ pre, c ≠ '%') :
    argTokensAux 0 (pre ++ rest) = pre.map ArgToken.lit ++ argTokensAux 0 rest := by
  induction pre with
  | nil => rfl
  | cons c cs ih =>
    have hc : c ≠ '%' := h c (List.mem_cons_self _ _)
    have ih1 := ih (fun d hd => h d (List.mem_cons_of_mem _ hd))
    rw [List.cons_append, argTokensAux, markerAt_of_ne_percent c _ hc]
    simp [ih1]

theorem lowestMarker_plain_append (pre : QString) (ts : List ArgToken) :
    lowestMarker (pre.map ArgToken.lit ++ ts) = lowestMarker ts := by
  induction pre with
  | nil => rfl
  | cons c cs ih => simpa [lowestMarker] using ih

theorem renderTokens_plain_append (k : Nat) (a pre : QString) (ts : List ArgToken) :
    renderTokens k a (pre.map ArgToken.lit ++ ts) = pre ++ renderTokens k a ts := by
  induction pre with
  | nil => rfl
  | cons c cs ih => simpa [renderTokens] using ih

/-- A prefix without a percent sign is copied, and the rest is formatted on its own. -/
theorem arg_plain_append (pre rest a : QString) (h : ∀ c ∈ pre, c ≠ '%') :
    arg (pre ++ rest) a = pre ++ arg rest a := by
  unfold arg argTokens
  rw [argTokensAux_plain_append pre rest h, lowestMarker_plain_append]
  cases lowestMarker (argTokensAux 0 rest) with
  | none => rfl
  | some k => simp [renderTokens_plain_append]

theorem digitChar_ne_percent (d : Nat) (h : d < 10) : Nat.digitChar d ≠ '%' := by
  interval_cases d <;> decide

theorem toDigitsCore_ne_percent (fuel n : Nat) (acc : List Char)
    (h : ∀ c ∈ acc, c ≠ '%') : ∀ c ∈ Nat.toDigitsCore 10 fuel n acc, c ≠ '%' := by
  induction fuel generalizing n acc with
  | zero => simpa [Nat.toDigitsCore] using h
  | succ fuel ih =>
    unfold Nat.toDigitsCore
    have hacc : ∀ c ∈ Nat.digitChar (n % 10) :: acc, c ≠ '%' := by
      intro c hc
      rcases List.mem_cons.mp hc with rfl | hc
      · exact digitChar_ne_percent _ (Nat.mod_lt _ (by decide))
      · exact h c hc
    by_cases hz : n / 10 = 0
    · simpa [hz] using hacc
    · simp only [hz, if_false]
      exact ih _ _ hacc

/-- A rendered number holds no percent sign. -/
theorem number_ne_percent (n : Nat) : ∀ c ∈ number n, c ≠ '%' := by
  unfold number Nat.toDigits
  exact toDigitsCore_ne_percent _ _ _ (by simp)

/-- The label generated for a page without a name. -/
theorem argInt_pageLabel (k : Nat) :
    argInt "页面 %1".toList k = "页面 ".toList ++ number k := by
  have h : arg ("页面 ".toList ++ "%1".toList) (number k) =
      "页面 ".toList ++ arg "%1".toList (number k) :=
    arg_plain_append _ _ _ (by decide)
  have h2 : arg "%1".toList (number k) = number k := by
    simp [arg, argTokens, argTokensAux, markerAt, digitsAt, lowestMarker, renderTokens,
      digitValue]
  unfold argInt
  rw [h2] at h
  exact h

/-- The entry recorded for a failed recognition. -/
theorem arg_errorEntry (msg : QString) :
    arg "错误: %1".toList msg = "错误: ".toList ++ msg := by
  have h : arg ("错误: ".toList ++ "%1".toList) msg = "错误: ".toList ++ arg "%1".toList msg :=
    arg_plain_append _ _ _ (by decide)
  have h2 : arg "%1".toList msg = msg := by
    simp [arg, argTokens, argTokensAux, markerAt, digitsAt, lowestMarker, renderTokens,
      digitValue]
  rw [h2] at h
  exact h

/-- The entry recorded for a null image. -/
theorem argInt_nullEntry (k : Nat) :
    argInt "错误: 第%1页图像无效".toList k =
      "错误: 第".toList ++ number k ++ "页图像无效".toList := by
  have h : arg ("错误: 第".toList ++ "%1页图像无效".toList) (number k) =
      "错误: 第".toList ++ arg "%1页图像无效".toList (number k) :=
    arg_plain_append _ _ _ (by decide)
  have h2 : arg "%1页图像无效".toList (number k) = number k ++ "页图像无效".toList := by
    rfl
  unfold argInt
  rw [h2, ← List.append_assoc] at h
  exact h

/-- The message of a partly failed batch. -/
theorem argInt_partialMessage (k n : Nat) :
    argInt (argInt "部分页面处理失败: 成功 %1/%2 页".toList k) n =
      "部分页面处理失败: 成功 ".toList ++ number k ++ "/".toList ++ number n ++ " 页".toList := by
  have h1 : argInt "部分页面处理失败: 成功 %1/%2 页".toList k =
      "部分页面处理失败: 成功 ".toList ++ (number k ++ "/%2 页".toList) := by
    have h : arg ("部分页面处理失败: 成功 ".toList ++ "%1/%2 页".toList) (number k) =
        "部分页面处理失败: 成功 ".toList ++ arg "%1/%2 页".toList (number k) :=
      arg_plain_append _ _ _ (by decide)
    have h2 : arg "%1/%2 页".toList (number k) = number k ++ "/%2 页".toList := by
      rfl
    unfold argInt
    rw [h2] at h
    exact h
  have h3 : arg "/%2 页".toList (number n) = "/".toList ++ number n ++ " 页".toList := by
    rfl
  rw [h1]
  unfold argInt
  rw [arg_plain_append _ _ _ (by decide), arg_plain_append _ _ _ (number_ne_percent k), h3]
  simp [List.append_assoc]

/-- The block of a page in the combined text, for a page name without a percent
sign. -/
theorem arg_pageBlock (name text : QString) (h : ∀ c ∈ name, c ≠ '%') :
    arg (arg "=== %1 ===\n%2".toList name) text =
      "=== ".toList ++ name ++ " ===\n".toList ++ text := by
  have h1 : arg "=== %1 ===\n%2".toList name = "=== ".toList ++ (name ++ " ===\n%2".toList) := by
    have h : arg ("=== ".toList ++ "%1 ===\n%2".toList) name =
        "=== ".toList ++ arg "%1 ===\n%2".toList name :=
      arg_plain_append _ _ _ (by decide)
    have h2 : arg "%1 ===\n%2".toList name = name ++ " ===\n%2".toList := by
      rfl
    rw [h2] at h
    exact h
  have h3 : arg " ===\n%2".toList text = " ===\n".toList ++ text := by
    simp [arg, argTokens, argTokensAux, markerAt, digitsAt, lowestMarker, renderTokens,
      digitValue]
  rw [h1, arg_plain_append _ _ _ (by decide), arg_plain_append _ _ _ h, h3]
  simp [List.append_assoc]

/-! ## Properties of the single-page recognition -/

theorem tesseractWaitLoop_rounds (stillRunning : Nat → Bool) (i n i' n' fuel waits elapsed : Nat) :
    (tesseractWaitLoop stillRunning i n fuel waits elapsed).2 =
      (tesseractWaitLoop stillRunning i' n' fuel waits elapsed).2 := by
  induction fuel generalizing waits elapsed with
  | zero => rfl
  | succ fuel ih =>
    unfold tesseractWaitLoop
    by_cases h : (stillRunning waits && decide (elapsed < 30000)) = true
    · simp only [h, if_true]
      exact ih _ _
    · simp only [h]
      rfl

/-- The polling loop ends for one of its two reasons: the process is no longer running,
or the time is up.  So 60 rounds are enough fuel. -/
theorem tesseractWaitLoop_exit (stillRunning : Nat → Bool) (i n fuel waits elapsed : Nat)
    (hfuel : 30000 ≤ elapsed + 500 * fuel) :
    stillRunning (tesseractWaitLoop stillRunning i n fuel waits elapsed).2 = false ∨
      30000 ≤ elapsed + 500 * ((tesseractWaitLoop stillRunning i n fuel waits elapsed).2 - waits) := by
  induction fuel generalizing waits elapsed with
  | zero => right; simp at hfuel; omega
  | succ fuel ih =>
    unfold tesseractWaitLoop
    by_cases h : (stillRunning waits && decide (elapsed < 30000)) = true
    · simp only [h, if_true]
      have hmono : waits + 1 ≤
          (tesseractWaitLoop stillRunning i n fuel (waits + 1) (elapsed + 500)).2 := by
        clear ih hfuel h
        generalize waits + 1 = w1
        generalize elapsed + 500 = e1
        induction fuel generalizing w1 e1 with
        | zero => simp [tesseractWaitLoop]
        | succ fuel ih2 =>
          unfold tesseractWaitLoop
          split
          · exact Nat.le_trans (Nat.le_succ _) (ih2 _ _)
          · exact Nat.le_refl _
      rcases ih (waits + 1) (elapsed + 500) (by omega) with h1 | h1
      · left; exact h1
      · right; omega
    · simp only [h]
      simp only [Bool.and_eq_true, decide_eq_true_eq, not_and_or] at h
      rcases h with h | h
      · left; simpa using h
      · right; simp; omega

theorem single_result {F : Type} (ops : FloatOps F) (e : Engine) (w : World)
    (run : TesseractRun) (image : QImage) (language : QString) (i n : Nat)
    (h : e.m_initialized = true) :
    (performSinglePageOCRWithBatchProgress ops e w run image language i n).1 =
      recognitionOutcome ops run image := by
  unfold performSinglePageOCRWithBatchProgress recognitionOutcome timedOut
  simp only [h, if_true, Bool.not_true, Bool.false_eq_true, if_false]
  by_cases h1 : image.isNull = true
  · simp only [h1, if_true]
  · simp only [h1, if_false]
    cases hs : run.saveOk
    · simp [saveImageToTempFile, hs]
    · have hne : (w.tempDir ++ "/ocr_temp_".toList ++ number run.saveTime ++ ".png".toList).isEmpty
          = false := by
        simp [List.isEmpty_iff]
      simp only [saveImageToTempFile, hs, if_true, hne, Bool.false_eq_true, if_false,
        Bool.not_true]
      cases hst : run.started
      · simp
      · simp only [Bool.not_true, Bool.false_eq_true, if_false]
        rw [tesseractWaitLoop_rounds run.stillRunning i n 0 1]
        split_ifs <;> rfl

theorem single_engine_initialized {F : Type} (ops : FloatOps F) (e : Engine) (w : World)
    (run : TesseractRun) (image : QImage) (language : QString) (i n : Nat)
    (h : e.m_initialized = true) :
    (performSinglePageOCRWithBatchProgress ops e w run image language i n).2.1.m_initialized
      = true := by
  unfold performSinglePageOCRWithBatchProgress
  simp only [h, if_true, Bool.not_true, Bool.false_eq_true, if_false]
  by_cases h1 : image.isNull = true
  · simp only [h1, if_true]
    exact h
  · simp only [h1, if_false]
    cases hs : run.saveOk
    · simp only [saveImageToTempFile, hs, Bool.false_eq_true, if_false, List.isEmpty_nil,
        if_true]
      exact h
    · have hne : (w.tempDir ++ "/ocr_temp_".toList ++ number run.saveTime ++ ".png".toList).isEmpty
          = false := by
        simp [List.isEmpty_iff]
      simp only [saveImageToTempFile, hs, if_true, hne, Bool.false_eq_true, if_false,
        Bool.not_true]
      cases hst : run.started
      · simp only [Bool.not_false, if_true]
        exact h
      · simp only [Bool.not_true, Bool.false_eq_true, if_false]
        split_ifs <;> exact h

/-! ## Progress signals of one page -/

theorem batchSignals_append (s t : List OCREffect) :
    batchSignals (s ++ t) = batchSignals s ++ batchSignals t := by
  induction s with
  | nil => rfl
  | cons ev s ih => cases ev <;> simp [batchSignals, ih]

theorem batchSignals_fileRemove (paths : List QString) :
    batchSignals (paths.map OCREffect.fileRemove) = [] := by
  induction paths with
  | nil => rfl
  | cons p ps ih => simpa [batchSignals] using ih

theorem batchSignals_bundledSetup (e : Engine) (w : World) :
    batchSignals (bundledSetup e w) = [] := by
  unfold bundledSetup
  split <;> rfl

theorem batchSignals_waitLoop (stillRunning : Nat → Bool) (i n fuel waits elapsed : Nat) :
    batchSignals (tesseractWaitLoop stillRunning i n fuel waits elapsed).1 =
      (waitLocals stillRunning fuel waits elapsed).map (signalAt i n) := by
  induction fuel generalizing waits elapsed with
  | zero => rfl
  | succ fuel ih =>
    unfold tesseractWaitLoop waitLocals
    by_cases h : (stillRunning waits && decide (elapsed < 30000)) = true
    · simp only [h, if_true, batchSignals, List.map_cons, ih]
      rfl
    · simp only [h]
      rfl

theorem waitLocals_bounds (stillRunning : Nat → Bool) (fuel waits elapsed : Nat) :
    ∀ l ∈ waitLocals stillRunning fuel waits elapsed,
      20 + (55 * (elapsed + 500)) / 30000 ≤ l ∧ l ≤ 75 := by
  induction fuel generalizing waits elapsed with
  | zero => intro l hl; cases hl
  | succ fuel ih =>
    unfold waitLocals
    by_cases h : (stillRunning waits && decide (elapsed < 30000)) = true
    · simp only [h, if_true]
      simp only [Bool.and_eq_true, decide_eq_true_eq] at h
      intro l hl
      rcases List.mem_cons.mp hl with rfl | hl
      · constructor <;> omega
      · have := ih (waits + 1) (elapsed + 500) l hl
        constructor <;> omega
    · simp only [h]
      intro l hl
      cases hl

theorem waitLocals_sorted (stillRunning : Nat → Bool) (fuel waits elapsed : Nat) :
    (waitLocals stillRunning fuel waits elapsed).Pairwise (fun a b => a ≤ b) := by
  induction fuel generalizing waits elapsed with
  | zero => exact List.Pairwise.nil
  | succ fuel ih =>
    unfold waitLocals
    by_cases h : (stillRunning waits && decide (elapsed < 30000)) = true
    · simp only [h, if_true]
      refine List.Pairwise.cons ?_ (ih _ _)
      intro l hl
      have := waitLocals_bounds stillRunning fuel (waits + 1) (elapsed + 500) l hl
      omega
    · simp only [h]
      exact List.Pairwise.nil

/-- On an initialised engine, the progress signals of the single-page recognition of
page `i` are those of the local values `pageLocals`. -/
theorem single_signals {F : Type} (ops : FloatOps F) (e : Engine) (w : World)
    (run : TesseractRun) (image : QImage) (language : QString) (i n : Nat)
    (h : e.m_initialized = true) :
    batchSignals (performSinglePageOCRWithBatchProgress ops e w run image language i n).2.2 =
      (pageLocals run image).map (signalAt i n) := by
  unfold performSinglePageOCRWithBatchProgress pageLocals timedOut
  simp only [h, if_true, Bool.not_true, Bool.false_eq_true, if_false]
  by_cases h1 : image.isNull = true
  · simp only [h1, if_true, Bool.true_or]
    rfl
  · simp only [h1, if_false, Bool.false_or]
    cases hs : run.saveOk
    · simp only [saveImageToTempFile, hs, Bool.false_eq_true, if_false, List.isEmpty_nil,
        if_true, List.nil_append, Bool.not_false]
      rfl
    · have hne : (w.tempDir ++ "/ocr_temp_".toList ++ number run.saveTime ++ ".png".toList).isEmpty
          = false := by
        simp [List.isEmpty_iff]
      simp only [saveImageToTempFile, hs, if_true, hne, Bool.false_eq_true, if_false,
        Bool.not_true]
      cases hst : run.started
      · simp [cleanupTempFiles, batchSignals_append, batchSignals_bundledSetup,
          batchSignals_fileRemove, batchSignals, signalAt]
      · simp only [Bool.not_true, Bool.false_eq_true, if_false, cleanupTempFiles]
        rw [tesseractWaitLoop_rounds run.stillRunning 0 1 i n]
        split_ifs <;>
          simp_all [batchSignals_append, batchSignals_bundledSetup, batchSignals_fileRemove,
            batchSignals, batchSignals_waitLoop, signalAt]

/-! ## The page loop -/

/-- One round of the page loop on an initialised engine. -/
theorem batchPage_spec {F : Type} (ops : FloatOps F) (w : World) (language : QString)
    (n : Nat) (st : BatchLoop F) (i : Nat) (image : QImage)
    (h : st.engine.m_initialized = true) :
    (batchPage ops w language n st i image).engine.m_initialized = true ∧
      (batchPage ops w language n st i image).allTexts =
        st.allTexts ++ [entryText ops (w.page i) image i] ∧
      (batchPage ops w language n st i image).allConfidences =
        st.allConfidences ++ [entryConfidence ops (w.page i) image] ∧
      (batchPage ops w language n st i image).processedPages =
        st.processedPages + (if pageSucceeds ops (w.page i) image then 1 else 0) ∧
      batchSignals (batchPage ops w language n st i image).trace =
        batchSignals st.trace ++ (batchLocals (w.page i) image).map (signalAt i n) := by
  have hres := single_result ops st.engine w (w.page i) image language i n h
  have heng := single_engine_initialized ops st.engine w (w.page i) image language i n h
  have hsig := single_signals ops st.engine w (w.page i) image language i n h
  have hmul : (i + 1) * 100 = i * 100 + 100 := by omega
  unfold batchPage entryText entryConfidence pageSucceeds batchLocals
  by_cases h1 : image.isNull = true
  · refine ⟨?_, ?_, ?_, ?_, ?_⟩
    · simp only [h1, if_true]; exact h
    · simp [h1]
    · simp [h1]
    · simp [h1]
    · simp [h1, batchSignals_append, batchSignals, signalAt, hmul]
  · have h1' : image.isNull = false := by simpa using h1
    by_cases h2 : (recognitionOutcome ops (w.page i) image).success = true
    · refine ⟨?_, ?_, ?_, ?_, ?_⟩
      · simp only [h1', Bool.false_eq_true, if_false, hres, h2, if_true]; exact heng
      · simp [h1', hres, h2]
      · simp [h1', hres, h2]
      · simp [h1', hres, h2]
      · simp [h1', hres, h2, batchSignals_append, batchSignals, signalAt, hmul, hsig]
    · refine ⟨?_, ?_, ?_, ?_, ?_⟩
      · simp only [h1', Bool.false_eq_true, if_false, hres, h2]; exact heng
      · simp [h1', hres, h2]
      · simp [h1', hres, h2]
      · simp [h1', hres, h2]
      · simp [h1', hres, h2, batchSignals_append, batchSignals, signalAt, hmul, hsig]

/-- The page loop on an initialised engine, in closed form. -/
theorem batchLoop_spec {F : Type} (ops : FloatOps F) (w : World) (language : QString)
    (n : Nat) (images : List QImage) (i : Nat) (st : BatchLoop F)
    (h : st.engine.m_initialized = true) :
    (batchLoop ops w language n images i st).engine.m_initialized = true ∧
      (batchLoop ops w language n images i st).allTexts =
        st.allTexts ++ (images.enumFrom i).map (fun p => entryText ops (w.page p.1) p.2 p.1) ∧
      (batchLoop ops w language n images i st).allConfidences =
        st.allConfidences ++
          (images.enumFrom i).map (fun p => entryConfidence ops (w.page p.1) p.2) ∧
      (batchLoop ops w language n images i st).processedPages =
        st.processedPages +
          (images.enumFrom i).countP (fun p => pageSucceeds ops (w.page p.1) p.2) ∧
      batchSignals (batchLoop ops w language n images i st).trace =
        batchSignals st.trace ++
          ((images.enumFrom i).map
            (fun p => (batchLocals (w.page p.1) p.2).map (signalAt p.1 n))).flatten := by
  induction images generalizing i st with
  | nil => simp [batchLoop, h]
  | cons image images ih =>
    obtain ⟨h1, h2, h3, h4, h5⟩ := batchPage_spec ops w language n st i image h
    obtain ⟨g1, g2, g3, g4, g5⟩ := ih (i + 1) (batchPage ops w language n st i image) h1
    unfold batchLoop
    refine ⟨g1, ?_, ?_, ?_, ?_⟩
    · rw [g2, h2]; simp [List.enumFrom_cons]
    · rw [g3, h3]; simp [List.enumFrom_cons]
    · rw [g4, h4]
      simp only [List.enumFrom_cons, List.countP_cons]
      omega
    · rw [g5, h5]; simp [List.enumFrom_cons]

/-- The page loop counts at most one page per image, whatever the engine state. -/
theorem batchLoop_processed_le {F : Type} (ops : FloatOps F) (w : World) (language : QString)
    (n : Nat) (images : List QImage) (i : Nat) (st : BatchLoop F) :
    (batchLoop ops w language n images i st).processedPages ≤
      st.processedPages + images.length := by
  induction images generalizing i st with
  | nil => simp [batchLoop]
  | cons image images ih =>
    unfold batchLoop
    refine Nat.le_trans (ih _ _) ?_
    have : (batchPage ops w language n st i image).processedPages ≤ st.processedPages + 1 := by
      unfold batchPage
      by_cases h1 : image.isNull = true
      · simp [h1]
      · simp only [h1, if_false]
        by_cases h2 : (performSinglePageOCRWithBatchProgress ops st.engine w (w.page i) image
            language i n).1.success = true
        · simp [h2]
        · simp [h2]
    simp only [List.length_cons]
    omega

/-- The page loop over a list of images is the loop over its first part followed by
the loop over the rest. -/
theorem batchLoop_append {F : Type} (ops : FloatOps F) (w : World) (language : QString)
    (n : Nat) (first rest : List QImage) (i : Nat) (st : BatchLoop F) :
    batchLoop ops w language n (first ++ rest) i st =
      batchLoop ops w language n rest (i + first.length)
        (batchLoop ops w language n first i st) := by
  induction first generalizing i st with
  | nil => rfl
  | cons image first ih =>
    have hcons : (image :: first) ++ rest = image :: (first ++ rest) := rfl
    rw [hcons, batchLoop, batchLoop, ih, List.length_cons]
    congr 1
    omega

/-! ## The batch operation -/

/-- The page loop records one text and one confidence per image, whatever the engine
state. -/
theorem batchLoop_lengths {F : Type} (ops : FloatOps F) (w : World) (language : QString)
    (n : Nat) (images : List QImage) (i : Nat) (st : BatchLoop F) :
    (batchLoop ops w language n images i st).allTexts.length =
        st.allTexts.length + images.length ∧
      (batchLoop ops w language n images i st).allConfidences.length =
        st.allConfidences.length + images.length := by
  induction images generalizing i st with
  | nil => simp [batchLoop]
  | cons image images ih =>
    unfold batchLoop
    have hp : (batchPage ops w language n st i image).allTexts.length = st.allTexts.length + 1 ∧
        (batchPage ops w language n st i image).allConfidences.length =
          st.allConfidences.length + 1 := by
      unfold batchPage
      by_cases h1 : image.isNull = true
      · simp [h1]
      · simp only [h1, if_false]
        by_cases h2 : (performSinglePageOCRWithBatchProgress ops st.engine w (w.page i) image
            language i n).1.success = true
        · simp [h2]
        · simp [h2]
    obtain ⟨g1, g2⟩ := ih (i + 1) (batchPage ops w language n st i image)
    rw [g1, g2, hp.1, hp.2]
    simp only [List.length_cons]
    omega

theorem initializeEngine_ok (e : Engine) (w : World) (h : (initializeEngine e w).1 = true) :
    (initializeEngine e w).2.1.m_initialized = true := by
  unfold initializeEngine at h ⊢
  by_cases h0 : e.m_initialized = true
  · simp [h0]
  · simp only [h0, if_false] at h ⊢
    by_cases h1 : (!(checkTesseractInstallation e w).1) = true
    · simp [h1] at h
    · simp only [h1, if_false] at h ⊢
      by_cases h2 : (getTesseractVersion e w).1.isEmpty = true
      · simp [h2] at h
      · simp [h2]

/-- The loop that completes the page names, in closed form. -/
theorem padPageNames_eq (n fuel : Nat) (names : List QString) :
    padPageNames n fuel names =
      names ++ (List.range' names.length (min fuel (n - names.length))).map
        (fun k => "页面 ".toList ++ number (k + 1)) := by
  induction fuel generalizing names with
  | zero => simp [padPageNames]
  | succ fuel ih =>
    unfold padPageNames
    by_cases h : names.length < n
    · simp only [h, if_true]
      rw [ih, argInt_pageLabel]
      have hmin : min (fuel + 1) (n - names.length) =
          min fuel (n - (names.length + 1)) + 1 := by omega
      simp only [List.length_append, List.length_singleton, hmin, List.range'_succ,
        List.map_cons, List.append_assoc, List.singleton_append]
    · have hz : n - names.length = 0 := by omega
      simp [h, hz]

/-- The batch operation on an initialised engine and a non-empty list of images, in
terms of the page loop. -/
theorem performBatchOCR_run {F : Type} (ops : FloatOps F) (e : Engine) (w : World)
    (images : List QImage) (pageNames : List QString) (language : QString)
    (hinit : e.m_initialized = true) (hne : images ≠ []) :
    performBatchOCR ops e w images pageNames language =
      (let st := batchLoop ops w language images.length images 0
          { engine := e, allTexts := [], allConfidences := [], processedPages := 0, trace := [] }
       ({ texts := st.allTexts
          pageNames := padPageNames images.length images.length pageNames
          confidences := st.allConfidences
          combinedText :=
            join (combinedParts (padPageNames images.length images.length pageNames) st.allTexts)
              "\n\n".toList
          success := decide (0 < st.processedPages)
          errorMessage :=
            if st.processedPages = 0 then "所有页面处理失败".toList
            else if st.processedPages < images.length then
              argInt (argInt "部分页面处理失败: 成功 %1/%2 页".toList st.processedPages)
                images.length
            else []
          processedPages := st.processedPages
          totalPages := images.length },
        st.engine, st.trace ++ [OCREffect.batchOcrCompleted])) := by
  have hne' : images.isEmpty = false := by
    cases images with
    | nil => exact absurd rfl hne
    | cons a l => rfl
  unfold performBatchOCR
  simp only [hinit, if_true, Bool.not_true, Bool.false_eq_true, if_false, hne']

theorem getElem?_map_enumFrom {α β : Type} (f : Nat × α → β) (l : List α) (s i : Nat) :
    ((l.enumFrom s).map f)[i]? = l[i]?.map (fun a => f (s + i, a)) := by
  rw [List.getElem?_map, List.getElem?_enumFrom]
  cases l[i]? <;> rfl

/-- The number of processed pages of a batch on an initialised engine. -/
theorem processedPages_eq_count {F : Type} (ops : FloatOps F) (e : Engine) (w : World)
    (images : List QImage) (pageNames : List QString) (language : QString)
    (hinit : e.m_initialized = true) (hne : images ≠ []) :
    (performBatchOCR ops e w images pageNames language).1.processedPages =
      images.enum.countP (fun p => !p.2.isNull &&
        (performSinglePageOCRWithBatchProgress ops e w (w.page p.1) p.2 language p.1
          images.length).1.success) := by
  rw [performBatchOCR_run ops e w images pageNames language hinit hne]
  have h := (batchLoop_spec ops w language images.length images 0
    { engine := e, allTexts := [], allConfidences := [], processedPages := 0, trace := [] }
    hinit).2.2.2.1
  simp only [h, Nat.zero_add, List.enum]
  congr 1
  funext p
  rw [single_result ops e w (w.page p.1) p.2 language p.1 images.length hinit]
  rfl

/-- C3. Every result of `performBatchOCR` has `processedPages <= totalPages`; on an
initialised engine with at least one image, `totalPages` is the number of images and
`processedPages` is the number of pages whose image is not null and whose single-page
recognition succeeded. -/
theorem performBatchOCR_processed_pages {F : Type} (ops : FloatOps F) (e : Engine) (w : World)
    (images : List QImage) (pageNames : List QString) (language : QString) :
    (performBatchOCR ops e w images pageNames language).1.processedPages ≤
        (performBatchOCR ops e w images pageNames language).1.totalPages ∧
      (e.m_initialized = true → images ≠ [] →
        (performBatchOCR ops e w images pageNames language).1.totalPages = images.length ∧
        (performBatchOCR ops e w images pageNames language).1.processedPages =
          images.enum.countP (fun p => !p.2.isNull &&
            (performSinglePageOCRWithBatchProgress ops e w (w.page p.1) p.2 language p.1
              images.length).1.success)) := by
  refine ⟨?_, ?_⟩
  · unfold performBatchOCR
    simp only []
    generalize (if e.m_initialized = true then (true, e, []) else initializeEngine e w) = init
    by_cases h1 : init.1 = true
    · by_cases h2 : images.isEmpty = true
      · simp [h1, h2, BatchOCRResult.new]
      · have := batchLoop_processed_le ops w language images.length images 0
          { engine := init.2.1, allTexts := [], allConfidences := [], processedPages := 0,
            trace := init.2.2 }
        simpa [h1, h2] using this
    · simp [h1, BatchOCRResult.new]
  · intro hinit hne
    refine ⟨?_, processedPages_eq_count ops e w images pageNames language hinit hne⟩
    rw [performBatchOCR_run ops e w images pageNames language hinit hne]

/-- Witness for C3: three pages of which the second fails give `processedPages = 2`
and `totalPages = 3`. -/
theorem performBatchOCR_processed_pages_witness :
    (performBatchOCR exactOps exampleEngine exampleWorld threePages [] "eng".toList).1.processedPages
        = 2 ∧
      (performBatchOCR exactOps exampleEngine exampleWorld threePages [] "eng".toList).1.totalPages
        = 3 ∧
      (performBatchOCR exactOps exampleEngine exampleWorld threePages [] "eng".toList).1.processedPages
        ≤ (performBatchOCR exactOps exampleEngine exampleWorld threePages []
            "eng".toList).1.totalPages :=
  have h := performBatchOCR_processed_pages exactOps exampleEngine exampleWorld threePages []
    "eng".toList
  ⟨(h.2 rfl (by decide)).2.trans (by decide), (h.2 rfl (by decide)).1.trans (by decide), h.1⟩

/-- C4. For every result of `performBatchOCR`, the early returns included, `success` is
true if and only if `processedPages > 0`. -/
theorem performBatchOCR_success_iff {F : Type} (ops : FloatOps F) (e : Engine) (w : World)
    (images : List QImage) (pageNames : List QString) (language : QString) :
    (performBatchOCR ops e w images pageNames language).1.success = true ↔
      0 < (performBatchOCR ops e w images pageNames language).1.processedPages := by
  unfold performBatchOCR
  simp only []
  generalize (if e.m_initialized = true then (true, e, []) else initializeEngine e w) = init
  by_cases h1 : init.1 = true
  · by_cases h2 : images.isEmpty = true
    · simp [h1, h2, BatchOCRResult.new]
    · simp [h1, h2]
  · simp [h1, BatchOCRResult.new]

/-- C5. For a batch of `n >= 1` images on an initialised engine in which `k` pages
succeed: the error message is empty when `k = n`, is the all-pages-failed message when
`k = 0`, and is the partial-failure message with the text `k/n` when `0 < k < n`. -/
theorem performBatchOCR_errorMessage {F : Type} (ops : FloatOps F) (e : Engine) (w : World)
    (images : List QImage) (pageNames : List QString) (language : QString)
    (hinit : e.m_initialized = true) (hne : images ≠ []) (k : Nat)
    (hk : k = images.enum.countP (fun p => !p.2.isNull &&
      (performSinglePageOCRWithBatchProgress ops e w (w.page p.1) p.2 language p.1
        images.length).1.success)) :
    (k = images.length →
        (performBatchOCR ops e w images pageNames language).1.errorMessage = []) ∧
      (k = 0 →
        (performBatchOCR ops e w images pageNames language).1.errorMessage =
          "所有页面处理失败".toList) ∧
      (0 < k → k < images.length →
        (performBatchOCR ops e w images pageNames language).1.errorMessage =
          "部分页面处理失败: 成功 ".toList ++ number k ++ "/".toList ++ number images.length ++
            " 页".toList) := by
  have hcount := processedPages_eq_count ops e w images pageNames language hinit hne
  rw [← hk] at hcount
  have hpos : 0 < images.length := List.length_pos.mpr hne
  rw [performBatchOCR_run ops e w images pageNames language hinit hne] at hcount ⊢
  simp only at hcount ⊢
  rw [hcount]
  refine ⟨?_, ?_, ?_⟩
  · intro h
    have h0 : k ≠ 0 := by omega
    have h1 : ¬ k < images.length := by omega
    simp [h0, h1]
  · intro h
    simp [h]
  · intro h0 h1
    have h0' : k ≠ 0 := by omega
    simp only [h0', if_false, h1, if_true]
    exact argInt_partialMessage k images.length

/-- Witness for C5: three pages of which the second fails give the message with the
text `2/3`. -/
theorem performBatchOCR_errorMessage_witness :
    (performBatchOCR exactOps exampleEngine exampleWorld threePages [] "eng".toList).1.errorMessage
      = "部分页面处理失败: 成功 2/3 页".toList :=
  ((performBatchOCR_errorMessage exactOps exampleEngine exampleWorld threePages []
    "eng".toList rfl (by decide) 2 (by decide)).2.2 (by decide) (by decide)).trans (by decide)

theorem recognitionOutcome_success {F : Type} (ops : FloatOps F) (run : TesseractRun)
    (image : QImage) (h : (recognitionOutcome ops run image).success = true) :
    (recognitionOutcome ops run image).text = trimmed (readOCRResultFromFile run.outputText) ∧
      (recognitionOutcome ops run image).confidence = parseConfidenceFromTSV ops run.outputTsv := by
  unfold recognitionOutcome at h ⊢
  simp only [OCRResult.new] at h ⊢
  split_ifs at h ⊢
  exact ⟨rfl, rfl⟩

theorem entryText_startsWith_marker {F : Type} (ops : FloatOps F) (run : TesseractRun)
    (image : QImage) (i : Nat) (h : pageSucceeds ops run image = false) :
    startsWith (entryText ops run image i) errorMarker = true := by
  unfold entryText
  unfold pageSucceeds at h
  by_cases h1 : image.isNull = true
  · simp only [h1, if_true, argInt_nullEntry]
    rfl
  · have h1' : image.isNull = false := by simpa using h1
    have h2 : (recognitionOutcome ops run image).success = false := by simpa [h1'] using h
    simp only [h1', Bool.false_eq_true, if_false, h2, arg_errorEntry]
    rfl

/-- C8. For a batch of `n >= 1` images on an initialised engine, `texts` and
`confidences` have length `n`; entry `i` of each is the outcome of page `i` of the
input: the recognised (trimmed) text and the parsed confidence if the image is not null
and its recognition succeeded, otherwise a text that begins with the error marker and
the confidence `0.0`; and `pageNames[i]` is the caller's `i`-th name wherever the
caller supplied one. -/
theorem performBatchOCR_entries {F : Type} (ops : FloatOps F) (e : Engine) (w : World)
    (images : List QImage) (pageNames : List QString) (language : QString)
    (hinit : e.m_initialized = true) (hne : images ≠ []) :
    (performBatchOCR ops e w images pageNames language).1.texts.length = images.length ∧
      (performBatchOCR ops e w images pageNames language).1.confidences.length =
        images.length ∧
      (∀ (i : Nat) (image : QImage), images[i]? = some image →
        ((image.isNull = false ∧
            (performSinglePageOCRWithBatchProgress ops e w (w.page i) image language i
              images.length).1.success = true) →
          (performBatchOCR ops e w images pageNames language).1.texts[i]? =
              some (performSinglePageOCRWithBatchProgress ops e w (w.page i) image language i
                images.length).1.text ∧
            (performBatchOCR ops e w images pageNames language).1.confidences[i]? =
              some (performSinglePageOCRWithBatchProgress ops e w (w.page i) image language i
                images.length).1.confidence ∧
            (performSinglePageOCRWithBatchProgress ops e w (w.page i) image language i
                images.length).1.text =
              trimmed (readOCRResultFromFile (w.page i).outputText) ∧
            (performSinglePageOCRWithBatchProgress ops e w (w.page i) image language i
                images.length).1.confidence =
              parseConfidenceFromTSV ops (w.page i).outputTsv) ∧
        (¬ (image.isNull = false ∧
            (performSinglePageOCRWithBatchProgress ops e w (w.page i) image language i
              images.length).1.success = true) →
          ∃ entry : QString,
            (performBatchOCR ops e w images pageNames language).1.texts[i]? = some entry ∧
            startsWith entry errorMarker = true ∧
            (performBatchOCR ops e w images pageNames language).1.confidences[i]? =
              some ops.zero)) ∧
      (∀ (i : Nat) (name : QString), pageNames[i]? = some name →
        (performBatchOCR ops e w images pageNames language).1.pageNames[i]? = some name) := by
  obtain ⟨-, htexts, hconfs, -, -⟩ := batchLoop_spec ops w language images.length images 0
    { engine := e, allTexts := [], allConfidences := [], processedPages := 0, trace := [] }
    hinit
  rw [performBatchOCR_run ops e w images pageNames language hinit hne]
  simp only [htexts, hconfs, List.nil_append]
  refine ⟨by simp, by simp, ?_, ?_⟩
  · intro i image himg
    rw [single_result ops e w (w.page i) image language i images.length hinit,
      getElem?_map_enumFrom, getElem?_map_enumFrom, himg]
    simp only [Option.map_some', Nat.zero_add]
    refine ⟨?_, ?_⟩
    · rintro ⟨h1, h2⟩
      have hs := recognitionOutcome_success ops (w.page i) image h2
      refine ⟨?_, ?_, hs.1, hs.2⟩
      · simp [entryText, h1, h2]
      · simp [entryConfidence, pageSucceeds, h1, h2]
    · intro hfail
      have hp : pageSucceeds ops (w.page i) image = false := by
        unfold pageSucceeds
        by_cases h1 : image.isNull = true
        · simp [h1]
        · have h1' : image.isNull = false := by simpa using h1
          have h2 : (recognitionOutcome ops (w.page i) image).success = false := by
            by_contra hc
            exact hfail ⟨h1', by simpa using hc⟩
          simp [h2]
      refine ⟨_, rfl, entryText_startsWith_marker ops (w.page i) image i hp, ?_⟩
      simp [entryConfidence, hp]
  · intro i name hname
    rw [padPageNames_eq]
    have hi : i < pageNames.length := by
      by_contra hc
      rw [List.getElem?_eq_none (by omega)] at hname
      cases hname
    rw [List.getElem?_append_left hi, hname]

/-- Witness for C8: in the worked batch the three texts are the text of page 1, an
error entry for page 2 and the text of page 3, in this order. -/
theorem performBatchOCR_entries_witness :
    (performBatchOCR exactOps exampleEngine exampleWorld threePages ["first".toList]
        "eng".toList).1.texts.length = 3 ∧
      (performBatchOCR exactOps exampleEngine exampleWorld threePages ["first".toList]
        "eng".toList).1.texts =
        ["text".toList, "错误: Tesseract执行失败: read error".toList, "text".toList] ∧
      (performBatchOCR exactOps exampleEngine exampleWorld threePages ["first".toList]
        "eng".toList).1.pageNames[0]? = some "first".toList :=
  have h := performBatchOCR_entries exactOps exampleEngine exampleWorld threePages
    ["first".toList] "eng".toList rfl (by decide)
  ⟨h.1.trans (by decide), by decide, h.2.2.2 0 "first".toList rfl⟩

/-- C9. On an initialised engine, for every index `i` whose image is null: the batch
records for page `i` an entry that begins with the error marker and names page `i + 1`,
with confidence `0.0`; and the round of the page loop for that page, which takes the
loop from its state after the first `i` images to its state after the first `i + 1`,
leaves `processedPages` and the engine as they are and adds to the trace exactly one
entry, the page-complete signal with overall progress `((i + 1) * 100) / n`: no process
is started.  The rest of the run continues from that state. -/
theorem performBatchOCR_null_image {F : Type} (ops : FloatOps F) (e : Engine) (w : World)
    (images : List QImage) (pageNames : List QString) (language : QString)
    (hinit : e.m_initialized = true) (i : Nat) (image : QImage)
    (himage : images[i]? = some image) (hnull : image.isNull = true) :
    (performBatchOCR ops e w images pageNames language).1.texts[i]? =
        some ("错误: 第".toList ++ number (i + 1) ++ "页图像无效".toList) ∧
      startsWith ("错误: 第".toList ++ number (i + 1) ++ "页图像无效".toList) errorMarker = true ∧
      (performBatchOCR ops e w images pageNames language).1.confidences[i]? = some ops.zero ∧
      (batchLoop ops w language images.length (images.take (i + 1)) 0
          { engine := e, allTexts := [], allConfidences := [], processedPages := 0,
            trace := [] }).processedPages =
        (batchLoop ops w language images.length (images.take i) 0
          { engine := e, allTexts := [], allConfidences := [], processedPages := 0,
            trace := [] }).processedPages ∧
      (batchLoop ops w language images.length (images.take (i + 1)) 0
          { engine := e, allTexts := [], allConfidences := [], processedPages := 0,
            trace := [] }).engine =
        (batchLoop ops w language images.length (images.take i) 0
          { engine := e, allTexts := [], allConfidences := [], processedPages := 0,
            trace := [] }).engine ∧
      (batchLoop ops w language images.length (images.take (i + 1)) 0
          { engine := e, allTexts := [], allConfidences := [], processedPages := 0,
            trace := [] }).trace =
        (batchLoop ops w language images.length (images.take i) 0
          { engine := e, allTexts := [], allConfidences := [], processedPages := 0,
            trace := [] }).trace ++
          [OCREffect.batchProgressUpdated (((i + 1) * 100) / images.length) (i + 1)
            images.length 100] ∧
      (performBatchOCR ops e w images pageNames language).2.2 =
        (batchLoop ops w language images.length (images.drop (i + 1)) (i + 1)
          (batchLoop ops w language images.length (images.take (i + 1)) 0
            { engine := e, allTexts := [], allConfidences := [], processedPages := 0,
              trace := [] })).trace ++ [OCREffect.batchOcrCompleted] := by
  have hi : i < images.length := by
    by_contra hc
    rw [List.getElem?_eq_none (by omega)] at himage
    cases himage
  have hne : images ≠ [] := by
    intro hnil
    rw [hnil] at hi
    exact Nat.not_lt_zero _ hi
  have htake : images.take (i + 1) = images.take i ++ [image] := by
    rw [List.take_succ, himage]
    rfl
  obtain ⟨-, htexts, hconfs, -, -⟩ := batchLoop_spec ops w language images.length images 0
    { engine := e, allTexts := [], allConfidences := [], processedPages := 0, trace := [] }
    hinit
  have hstep : batchLoop ops w language images.length (images.take (i + 1)) 0
        { engine := e, allTexts := [], allConfidences := [], processedPages := 0, trace := [] } =
      batchPage ops w language images.length
        (batchLoop ops w language images.length (images.take i) 0
          { engine := e, allTexts := [], allConfidences := [], processedPages := 0,
            trace := [] }) i image := by
    rw [htake, batchLoop_append]
    have hlen : (images.take i).length = i := by
      rw [List.length_take]; omega
    simp only [hlen, Nat.zero_add, batchLoop]
  have hlen1 : (images.take (i + 1)).length = i + 1 := by
    rw [List.length_take]; omega
  refine ⟨?_, ?_, ?_, ?_, ?_, ?_, ?_⟩
  · rw [performBatchOCR_run ops e w images pageNames language hinit hne]
    simp only [htexts, List.nil_append]
    rw [getElem?_map_enumFrom, himage]
    simp only [Option.map_some', Nat.zero_add, entryText, hnull, if_true]
    rw [argInt_nullEntry]
  · rfl
  · rw [performBatchOCR_run ops e w images pageNames language hinit hne]
    simp only [hconfs, List.nil_append]
    rw [getElem?_map_enumFrom, himage]
    simp [entryConfidence, pageSucceeds, hnull]
  · rw [hstep]; simp [batchPage, hnull]
  · rw [hstep]; simp [batchPage, hnull]
  · rw [hstep]; simp [batchPage, hnull]
  · rw [performBatchOCR_run ops e w images pageNames language hinit hne]
    have hrun := batchLoop_append ops w language images.length (images.take (i + 1))
      (images.drop (i + 1)) 0
      { engine := e, allTexts := [], allConfidences := [], processedPages := 0, trace := [] }
    rw [List.take_append_drop, hlen1, Nat.zero_add] at hrun
    simp only [hrun]

/-- Witness for C9: a batch of two pages whose second image is null. -/
theorem performBatchOCR_null_image_witness :
    (performBatchOCR exactOps exampleEngine exampleWorld [exampleImage, nullImage] []
        "eng".toList).1.texts[1]? = some "错误: 第2页图像无效".toList ∧
      (performBatchOCR exactOps exampleEngine exampleWorld [exampleImage, nullImage] []
        "eng".toList).1.confidences[1]? = some 0 ∧
      (performBatchOCR exactOps exampleEngine exampleWorld [exampleImage, nullImage] []
        "eng".toList).1.processedPages = 1 ∧
      batchSignals (performBatchOCR exactOps exampleEngine exampleWorld
        [exampleImage, nullImage] [] "eng".toList).2.2 =
        [⟨0, 1, 2, 0⟩, ⟨5, 1, 2, 10⟩, ⟨10, 1, 2, 20⟩, ⟨40, 1, 2, 80⟩, ⟨50, 1, 2, 100⟩,
          ⟨50, 1, 2, 100⟩, ⟨100, 2, 2, 100⟩] :=
  have h := performBatchOCR_null_image exactOps exampleEngine exampleWorld
    [exampleImage, nullImage] [] "eng".toList rfl 1 nullImage rfl rfl
  ⟨h.1.trans (by decide), h.2.2.1, by decide, by decide⟩

/-- C10, as amended.  When the engine is initialised, or its initialisation succeeds,
for every image list of length `n >= 1` and every list of `m < n` page names, the
returned page names have length `n`, the first `m` are the caller's names unchanged,
and the entry at position `k` with `m <= k < n` is the generated label for page
`k + 1`. -/
theorem performBatchOCR_pageNames {F : Type} (ops : FloatOps F) (e : Engine) (w : World)
    (images : List QImage) (pageNames : List QString) (language : QString)
    (hinit : e.m_initialized = true ∨ (initializeEngine e w).1 = true)
    (hne : 1 ≤ images.length) (hshort : pageNames.length < images.length) :
    (performBatchOCR ops e w images pageNames language).1.pageNames.length = images.length ∧
      (∀ k : Nat, k < pageNames.length →
        (performBatchOCR ops e w images pageNames language).1.pageNames[k]? = pageNames[k]?) ∧
      (∀ k : Nat, pageNames.length ≤ k → k < images.length →
        (performBatchOCR ops e w images pageNames language).1.pageNames[k]? =
          some ("页面 ".toList ++ number (k + 1))) := by
  have hne' : images.isEmpty = false := by
    cases images with
    | nil => simp at hne
    | cons a l => rfl
  have hok : (if e.m_initialized = true then ((true, e, []) : Bool × Engine × List OCREffect)
      else initializeEngine e w).1 = true := by
    rcases hinit with h | h
    · simp [h]
    · by_cases h0 : e.m_initialized = true
      · simp [h0]
      · simp [h0, h]
  have hnames : (performBatchOCR ops e w images pageNames language).1.pageNames =
      padPageNames images.length images.length pageNames := by
    unfold performBatchOCR
    simp only []
    generalize (if e.m_initialized = true then ((true, e, []) : Bool × Engine × List OCREffect)
      else initializeEngine e w) = init at hok
    simp [hok, hne']
  rw [hnames, padPageNames_eq]
  have hmin : min images.length (images.length - pageNames.length) =
      images.length - pageNames.length := by omega
  rw [hmin]
  refine ⟨?_, ?_, ?_⟩
  · simp; omega
  · intro k hk
    rw [List.getElem?_append_left hk]
  · intro k hk1 hk2
    rw [List.getElem?_append_right hk1, List.getElem?_map,
      List.getElem?_range' _ _ (by omega : k - pageNames.length < images.length - pageNames.length)]
    simp only [Option.map_some', Nat.one_mul]
    congr 3
    omega

/-- Witness for C10: one caller name for three pages. -/
theorem performBatchOCR_pageNames_witness :
    (performBatchOCR exactOps exampleEngine exampleWorld threePages ["first".toList]
        "eng".toList).1.pageNames = ["first".toList, "页面 2".toList, "页面 3".toList] ∧
      (performBatchOCR exactOps exampleEngine exampleWorld threePages ["first".toList]
        "eng".toList).1.pageNames.length = 3 :=
  ⟨by decide,
    (performBatchOCR_pageNames exactOps exampleEngine exampleWorld threePages ["first".toList]
      "eng".toList (Or.inl rfl) (by decide) (by decide)).1⟩

/-- Counterexample to C10 as stated: on an engine whose initialisation fails (the
recognition tool cannot be run), a batch of one image and no page names returns an
empty list of page names, not a list of length 1. -/
theorem performBatchOCR_pageNames_uninitialised :
    (performBatchOCR exactOps freshEngine toolMissingWorld [exampleImage] []
        "eng".toList).1.pageNames = [] ∧
      (performBatchOCR exactOps freshEngine toolMissingWorld [exampleImage] []
        "eng".toList).1.pageNames.length ≠ [exampleImage].length := by
  decide

/-! ## The combined text -/

theorem combinedParts_take (pageNames texts : List QString)
    (hlen : texts.length ≤ pageNames.length)
    (hplain : ∀ name ∈ pageNames, ∀ c ∈ name, c ≠ '%') (k : Nat) (hk : k ≤ texts.length) :
    (List.range k).foldl (combineStep pageNames texts) [] =
      (((pageNames.zip texts).take k).filter
        (fun p => !p.2.isEmpty && !startsWith p.2 errorMarker)).map pageBlock := by
  induction k with
  | zero => rfl
  | succ k ih =>
    have hkt : k < texts.length := by omega
    have hkn : k < pageNames.length := by omega
    have hkz : k < (pageNames.zip texts).length := by
      rw [List.length_zip]; omega
    rw [List.range_succ, List.foldl_append, ih (by omega), List.take_succ,
      List.getElem?_eq_getElem hkz]
    simp only [List.foldl_cons, List.foldl_nil, Option.toList, List.filter_append,
      List.map_append, List.getElem_zip]
    unfold combineStep
    have ht : texts.getD k [] = texts[k] := by
      rw [List.getD_eq_getElem?_getD, List.getElem?_eq_getElem hkt]; rfl
    have hn : pageNames.getD k [] = pageNames[k] := by
      rw [List.getD_eq_getElem?_getD, List.getElem?_eq_getElem hkn]; rfl
    simp only [ht, hn]
    by_cases hc : (!texts[k].isEmpty && !startsWith texts[k] errorMarker) = true
    · rw [if_pos hc, arg_pageBlock _ _ (hplain _ (List.getElem_mem hkn))]
      simp [List.filter_cons, hc, pageBlock]
    · rw [if_neg hc]
      simp [List.filter_cons, hc]

theorem combinedParts_eq (pageNames texts : List QString)
    (hlen : texts.length ≤ pageNames.length)
    (hplain : ∀ name ∈ pageNames, ∀ c ∈ name, c ≠ '%') :
    join (combinedParts pageNames texts) "\n\n".toList = combinedBlocks pageNames texts := by
  unfold combinedParts combinedBlocks
  rw [combinedParts_take pageNames texts hlen hplain texts.length (Nat.le_refl _)]
  have hz : (pageNames.zip texts).length ≤ texts.length := by
    rw [List.length_zip]; omega
  rw [List.take_of_length_le hz]

theorem padPageNames_plain (n : Nat) (pageNames : List QString)
    (hplain : ∀ name ∈ pageNames, ∀ c ∈ name, c ≠ '%') :
    ∀ name ∈ padPageNames n n pageNames, ∀ c ∈ name, c ≠ '%' := by
  rw [padPageNames_eq]
  intro name hname c hc
  rcases List.mem_append.mp hname with h | h
  · exact hplain name h c hc
  · rcases List.mem_map.mp h with ⟨k, _, rfl⟩
    rcases List.mem_append.mp hc with h1 | h1
    · have hlabel : ∀ d ∈ "页面 ".toList, d ≠ '%' := by decide
      exact hlabel c h1
    · exact number_ne_percent _ c h1

/-- C6, as amended.  For every batch whose page names hold no percent sign,
`combinedText` is the sequence of page blocks `=== <pageName i> ===`, newline,
`<text i>`, in increasing page index, over exactly the pages whose text is not empty
and does not begin with the error marker, joined by a blank line. -/
theorem performBatchOCR_combinedText {F : Type} (ops : FloatOps F) (e : Engine) (w : World)
    (images : List QImage) (pageNames : List QString) (language : QString)
    (hplain : ∀ name ∈ pageNames, ∀ c ∈ name, c ≠ '%') :
    (performBatchOCR ops e w images pageNames language).1.combinedText =
      combinedBlocks (performBatchOCR ops e w images pageNames language).1.pageNames
        (performBatchOCR ops e w images pageNames language).1.texts := by
  unfold performBatchOCR
  simp only []
  generalize (if e.m_initialized = true then ((true, e, []) : Bool × Engine × List OCREffect)
    else initializeEngine e w) = init
  by_cases h1 : init.1 = true
  · by_cases h2 : images.isEmpty = true
    · simp only [h1, h2, Bool.not_true, Bool.false_eq_true, if_false, if_true,
        BatchOCRResult.new]
      rfl
    · simp only [h1, h2, Bool.not_true, Bool.false_eq_true, if_false]
      apply combinedParts_eq
      · have hl := (batchLoop_lengths ops w language images.length images 0
          { engine := init.2.1, allTexts := [], allConfidences := [], processedPages := 0,
            trace := init.2.2 }).1
        rw [hl, padPageNames_eq]
        simp only [List.length_nil, Nat.zero_add, List.length_append, List.length_map,
          List.length_range']
        omega
      · exact padPageNames_plain _ _ hplain
  · have h1' : init.1 = false := by simpa using h1
    simp only [h1', Bool.not_false, if_true, BatchOCRResult.new]
    rfl

/-- Witness for C6: in the worked batch the combined text holds the blocks of pages 1
and 3 only. -/
theorem performBatchOCR_combinedText_witness :
    (performBatchOCR exactOps exampleEngine exampleWorld threePages ["first".toList]
        "eng".toList).1.combinedText = "=== first ===\ntext\n\n=== 页面 3 ===\ntext".toList :=
  (performBatchOCR_combinedText exactOps exampleEngine exampleWorld threePages
    ["first".toList] "eng".toList (by decide)).trans (by decide)

/-- Counterexample to C6 as stated: a page whose recognition succeeds with a blank
output file has the empty text, which does not begin with the error marker, yet the
page contributes no block; the combined text is empty, not the header of the page. -/
theorem performBatchOCR_combinedText_blank_page :
    (performBatchOCR exactOps exampleEngine blankPageWorld [exampleImage] ["scan".toList]
        "eng".toList).1.texts = [[]] ∧
      (performBatchOCR exactOps exampleEngine blankPageWorld [exampleImage] ["scan".toList]
        "eng".toList).1.processedPages = 1 ∧
      (performBatchOCR exactOps exampleEngine blankPageWorld [exampleImage] ["scan".toList]
        "eng".toList).1.combinedText = [] ∧
      combinedTextAsSpecified
        (performBatchOCR exactOps exampleEngine blankPageWorld [exampleImage] ["scan".toList]
          "eng".toList).1.pageNames
        (performBatchOCR exactOps exampleEngine blankPageWorld [exampleImage] ["scan".toList]
          "eng".toList).1.texts = "=== scan ===\n".toList ∧
      (performBatchOCR exactOps exampleEngine blankPageWorld [exampleImage] ["scan".toList]
        "eng".toList).1.combinedText ≠
        combinedTextAsSpecified
          (performBatchOCR exactOps exampleEngine blankPageWorld [exampleImage]
            ["scan".toList] "eng".toList).1.pageNames
          (performBatchOCR exactOps exampleEngine blankPageWorld [exampleImage]
            ["scan".toList] "eng".toList).1.texts := by
  decide

/-- A page name with a place marker is not copied into its block: the second `arg`
call puts the page text in the place of the marker in the name. -/
theorem arg_pageBlock_marker_in_name :
    arg (arg "=== %1 ===\n%2".toList "scan%1".toList) "text".toList =
      "=== scantext ===\n%2".toList := by
  decide

/-! ## Overall progress of a batch -/

theorem pairwise_le_append (xs ys : List Nat) (m : Nat)
    (hx : xs.Pairwise (fun a b => a ≤ b)) (hy : ys.Pairwise (fun a b => a ≤ b))
    (hxm : ∀ x ∈ xs, x ≤ m) (hym : ∀ y ∈ ys, m ≤ y) :
    (xs ++ ys).Pairwise (fun a b => a ≤ b) := by
  rw [List.pairwise_append]
  exact ⟨hx, hy, fun a ha b hb => Nat.le_trans (hxm a ha) (hym b hb)⟩

theorem forall_mem_append_le (xs ys : List Nat) (m : Nat)
    (hx : ∀ x ∈ xs, x ≤ m) (hy : ∀ y ∈ ys, y ≤ m) : ∀ z ∈ xs ++ ys, z ≤ m := by
  intro z hz
  rcases List.mem_append.mp hz with h | h
  · exact hx z h
  · exact hy z h

theorem pageLocals_sorted (run : TesseractRun) (image : QImage) :
    (pageLocals run image).Pairwise (fun a b => a ≤ b) ∧
      ∀ l ∈ pageLocals run image, l ≤ 100 := by
  have hb := waitLocals_bounds run.stillRunning 60 0 0
  have hs := waitLocals_sorted run.stillRunning 60 0 0
  unfold pageLocals
  generalize waitLocals run.stillRunning 60 0 0 = ws at hb hs
  have hlo : ∀ l ∈ ws, 20 ≤ l := fun l hl => by
    have := hb l hl
    omega
  have hhi : ∀ l ∈ ws, l ≤ 75 := fun l hl => (hb l hl).2
  have hhi' : ∀ l ∈ ws, l ≤ 100 := fun l hl => Nat.le_trans (hhi l hl) (by decide)
  have hhead : ([10, 20] : List Nat).Pairwise (fun a b => a ≤ b) := by decide
  have hhead20 : ∀ x ∈ ([10, 20] : List Nat), x ≤ 20 := by decide
  have hhead100 : ∀ x ∈ ([10, 20] : List Nat), x ≤ 100 := by decide
  split_ifs
  · exact ⟨List.Pairwise.nil, fun l hl => by cases hl⟩
  · exact ⟨by decide, by decide⟩
  · exact ⟨pairwise_le_append [10, 20] ws 20 hhead hs hhead20 hlo,
      forall_mem_append_le [10, 20] ws 100 hhead100 hhi'⟩
  · have hs1 : (ws ++ [80]).Pairwise (fun a b => a ≤ b) :=
      pairwise_le_append ws [80] 75 hs (by decide) hhi (by decide)
    have hlo1 : ∀ l ∈ ws ++ [80], 20 ≤ l := by
      intro l hl
      rcases List.mem_append.mp hl with h | h
      · exact hlo l h
      · have h80 : ∀ x ∈ ([80] : List Nat), 20 ≤ x := by decide
        exact h80 l h
    exact ⟨pairwise_le_append [10, 20] (ws ++ [80]) 20 hhead hs1 hhead20 hlo1,
      forall_mem_append_le [10, 20] (ws ++ [80]) 100 hhead100
        (forall_mem_append_le ws [80] 100 hhi' (by decide))⟩
  · have hs1 : (ws ++ [80, 100]).Pairwise (fun a b => a ≤ b) :=
      pairwise_le_append ws [80, 100] 75 hs (by decide) hhi (by decide)
    have hlo1 : ∀ l ∈ ws ++ [80, 100], 20 ≤ l := by
      intro l hl
      rcases List.mem_append.mp hl with h | h
      · exact hlo l h
      · have h80 : ∀ x ∈ ([80, 100] : List Nat), 20 ≤ x := by decide
        exact h80 l h
    exact ⟨pairwise_le_append [10, 20] (ws ++ [80, 100]) 20 hhead hs1 hhead20 hlo1,
      forall_mem_append_le [10, 20] (ws ++ [80, 100]) 100 hhead100
        (forall_mem_append_le ws [80, 100] 100 hhi' (by decide))⟩

theorem batchLocals_props (run : TesseractRun) (image : QImage) :
    (batchLocals run image).Pairwise (fun a b => a ≤ b) ∧
      (∀ l ∈ batchLocals run image, l ≤ 100) ∧
      (batchLocals run image).getLast? = some 100 := by
  obtain ⟨hs, hb⟩ := pageLocals_sorted run image
  unfold batchLocals
  split_ifs
  · exact ⟨by decide, by decide, rfl⟩
  · have h1 : (pageLocals run image ++ [100]).Pairwise (fun a b => a ≤ b) :=
      pairwise_le_append _ [100] 100 hs (by decide) hb (by decide)
    refine ⟨?_, ?_, ?_⟩
    · exact pairwise_le_append [0] (pageLocals run image ++ [100]) 0 (by decide) h1
        (by decide) (fun y _ => Nat.zero_le y)
    · exact forall_mem_append_le [0] (pageLocals run image ++ [100]) 100 (by decide)
        (forall_mem_append_le _ [100] 100 hb (by decide))
    · rw [← List.cons_append, List.getLast?_append]
      rfl

/-- The signals of the page loop from page index `i` on: their overall progress never
decreases, is at least `(i * 100) / n`, ends at `((i + count) * 100) / n`, and every
signal has the form `(page index * 100 + local progress) / n`. -/
theorem batchSignals_from (w : World) (n : Nat) (images : List QImage) (i : Nat) :
    ((((images.enumFrom i).map
        (fun p => (batchLocals (w.page p.1) p.2).map (signalAt p.1 n))).flatten).map
        BatchProgress.progress).Pairwise (fun a b => a ≤ b) ∧
      (∀ x ∈ (((images.enumFrom i).map
        (fun p => (batchLocals (w.page p.1) p.2).map (signalAt p.1 n))).flatten).map
        BatchProgress.progress, (i * 100) / n ≤ x) ∧
      (images ≠ [] → ((((images.enumFrom i).map
        (fun p => (batchLocals (w.page p.1) p.2).map (signalAt p.1 n))).flatten).map
        BatchProgress.progress).getLast? = some (((i + images.length) * 100) / n)) ∧
      (∀ s ∈ ((images.enumFrom i).map
          (fun p => (batchLocals (w.page p.1) p.2).map (signalAt p.1 n))).flatten,
        i + 1 ≤ s.currentPage ∧ s.currentPage ≤ i + images.length ∧ s.totalPages = n ∧
          s.currentPageProgress ≤ 100 ∧
          s.progress = ((s.currentPage - 1) * 100 + s.currentPageProgress) / n) := by
  induction images generalizing i with
  | nil => simp
  | cons image images ih =>
    obtain ⟨hs, hb, hlast⟩ := batchLocals_props (w.page i) image
    obtain ⟨ih1, ih2, ih3, ih4⟩ := ih (i + 1)
    have hmul : (i + 1) * 100 = i * 100 + 100 := by omega
    have hpage : ∀ l ∈ batchLocals (w.page i) image,
        (i * 100) / n ≤ (i * 100 + l) / n ∧ (i * 100 + l) / n ≤ ((i + 1) * 100) / n := by
      intro l hl
      have := hb l hl
      exact ⟨Nat.div_le_div_right (by omega), Nat.div_le_div_right (by omega)⟩
    simp only [List.enumFrom_cons, List.map_cons, List.flatten_cons, List.map_append,
      List.map_map]
    have hfirst : List.map (BatchProgress.progress ∘ signalAt i n) (batchLocals (w.page i) image) =
        (batchLocals (w.page i) image).map (fun l => (i * 100 + l) / n) := rfl
    rw [hfirst]
    refine ⟨?_, ?_, ?_, ?_⟩
    · rw [List.pairwise_append]
      refine ⟨?_, ih1, ?_⟩
      · rw [List.pairwise_map]
        exact hs.imp (fun {a b} hab => Nat.div_le_div_right (by omega))
      · intro a ha b hb'
        rcases List.mem_map.mp ha with ⟨l, hl, rfl⟩
        exact Nat.le_trans (hpage l hl).2 (ih2 b hb')
    · intro x hx
      rcases List.mem_append.mp hx with hx | hx
      · rcases List.mem_map.mp hx with ⟨l, hl, rfl⟩
        exact (hpage l hl).1
      · exact Nat.le_trans (Nat.div_le_div_right (by omega)) (ih2 x hx)
    · intro _
      cases images with
      | nil =>
        simp only [List.enumFrom_nil, List.map_nil, List.flatten_nil, List.append_nil,
          List.length_singleton]
        rw [List.getLast?_map, hlast, hmul]
        rfl
      | cons image2 images =>
        have h3 := ih3 (by simp)
        have hlen : i + 1 + (image2 :: images).length =
            i + (image :: image2 :: images).length := by
          simp only [List.length_cons]
          omega
        rw [List.getLast?_append, h3, hlen]
        rfl
    · intro s hs'
      rcases List.mem_append.mp hs' with h | h
      · rcases List.mem_map.mp h with ⟨l, hl, rfl⟩
        have := hb l hl
        refine ⟨Nat.le_refl _, ?_, rfl, this, ?_⟩
        · simp only [signalAt, List.length_cons]
          omega
        · simp only [signalAt, Nat.add_sub_cancel]
      · obtain ⟨g1, g2, g3, g4, g5⟩ := ih4 s h
        simp only [List.length_cons]
        exact ⟨by omega, by omega, g3, g4, g5⟩

/-- C7. For every batch of `n >= 1` images on an initialised engine and every
behaviour of the external process and of the files, the overall progress values emitted
through `batchProgressUpdated` never decrease, the last one is exactly 100, and every
signal carries the value `((page - 1) * 100 + pageLocalProgress) / n` (integer
division) for its page number `1 <= page <= n` and a local progress of at most 100. -/
theorem performBatchOCR_progress {F : Type} (ops : FloatOps F) (e : Engine) (w : World)
    (images : List QImage) (pageNames : List QString) (language : QString)
    (hinit : e.m_initialized = true) (hne : images ≠ []) :
    (overallProgress (performBatchOCR ops e w images pageNames language).2.2).Pairwise
        (fun a b => a ≤ b) ∧
      (overallProgress (performBatchOCR ops e w images pageNames language).2.2).getLast? =
        some 100 ∧
      (∀ s ∈ batchSignals (performBatchOCR ops e w images pageNames language).2.2,
        1 ≤ s.currentPage ∧ s.currentPage ≤ images.length ∧ s.totalPages = images.length ∧
          s.currentPageProgress ≤ 100 ∧
          s.progress = ((s.currentPage - 1) * 100 + s.currentPageProgress) / images.length) := by
  have hpos : 0 < images.length := List.length_pos.mpr hne
  obtain ⟨-, -, -, -, hsig⟩ := batchLoop_spec ops w language images.length images 0
    { engine := e, allTexts := [], allConfidences := [], processedPages := 0, trace := [] }
    hinit
  obtain ⟨h1, -, h3, h4⟩ := batchSignals_from w images.length images 0
  have htrace : batchSignals (performBatchOCR ops e w images pageNames language).2.2 =
      ((images.enumFrom 0).map
        (fun p => (batchLocals (w.page p.1) p.2).map (signalAt p.1 images.length))).flatten := by
    rw [performBatchOCR_run ops e w images pageNames language hinit hne]
    simp only [batchSignals_append, hsig]
    simp [batchSignals]
  unfold overallProgress
  rw [htrace]
  refine ⟨h1, ?_, ?_⟩
  · rw [h3 hne, Nat.zero_add, Nat.mul_div_cancel_left _ hpos]
  · intro s hs
    obtain ⟨g1, g2, g3, g4, g5⟩ := h4 s hs
    exact ⟨by omega, by omega, g3, g4, g5⟩

/-- Witness for C7: the overall progress values of the worked batch, in which the
recognition of the second of three pages fails. -/
theorem performBatchOCR_progress_witness :
    overallProgress (performBatchOCR exactOps exampleEngine exampleWorld threePages []
        "eng".toList).2.2 =
      [0, 3, 6, 26, 33, 33, 33, 36, 40, 60, 66, 66, 70, 73, 93, 100, 100] ∧
    (overallProgress (performBatchOCR exactOps exampleEngine exampleWorld threePages []
        "eng".toList).2.2).getLast? = some 100 :=
  ⟨by decide,
    (performBatchOCR_progress exactOps exampleEngine exampleWorld threePages [] "eng".toList
      rfl (by decide)).2.1⟩

/-! ## The bounded loops run to their exit condition -/

theorem popplerWaitLoop_rounds_ge (stillRunning : Nat → Bool) (fuel waits elapsed : Nat) :
    waits ≤ (popplerWaitLoop stillRunning fuel waits elapsed).2 := by
  induction fuel generalizing waits elapsed with
  | zero => simp [popplerWaitLoop]
  | succ fuel ih =>
    unfold popplerWaitLoop
    split
    · exact Nat.le_trans (Nat.le_succ _) (ih _ _)
    · exact Nat.le_refl _

/-- The polling loop of the rasterizer ends for one of its two reasons: the process is
no longer running, or the time is up.  So 30 rounds are enough fuel. -/
theorem popplerWaitLoop_exit (stillRunning : Nat → Bool) (fuel waits elapsed : Nat)
    (hfuel : 60000 ≤ elapsed + 2000 * fuel) :
    stillRunning (popplerWaitLoop stillRunning fuel waits elapsed).2 = false ∨
      60000 ≤ elapsed + 2000 * ((popplerWaitLoop stillRunning fuel waits elapsed).2 - waits) := by
  induction fuel generalizing waits elapsed with
  | zero => right; simp at hfuel; omega
  | succ fuel ih =>
    unfold popplerWaitLoop
    by_cases h : (stillRunning waits && decide (elapsed < 60000)) = true
    · simp only [h, if_true]
      have hmono := popplerWaitLoop_rounds_ge stillRunning fuel (waits + 1) (elapsed + 2000)
      rcases ih (waits + 1) (elapsed + 2000) (by omega) with h1 | h1
      · left; exact h1
      · right; omega
    · simp only [h]
      simp only [Bool.and_eq_true, decide_eq_true_eq, not_and_or] at h
      rcases h with h | h
      · left; simpa using h
      · right; simp; omega

/-- The loop that completes the page names ends because there are no fewer names than
images: as many rounds as there are images are enough fuel. -/
theorem padPageNames_exit (n : Nat) (pageNames : List QString) :
    ¬ (padPageNames n n pageNames).length < n := by
  rw [padPageNames_eq]
  simp only [List.length_append, List.length_map, List.length_range']
  omega

/-! ## Properties of the format classifier -/

theorem takeWhile_append_stop {α : Type} (p : α → Bool) (l r : List α) (a : α)
    (hl : ∀ x ∈ l, p x = true) (ha : p a = false) :
    (l ++ a :: r).takeWhile p = l := by
  induction l with
  | nil => simp [List.takeWhile_cons, ha]
  | cons x xs ih =>
    have hx : p x = true := hl x (List.mem_cons_self _ _)
    simp [List.takeWhile_cons, hx, ih (fun y hy => hl y (List.mem_cons_of_mem _ hy))]

theorem afterLast_append (c : Char) (pre post : QString) (h : ∀ d ∈ post, d ≠ c) :
    afterLast c (pre ++ c :: post) = post := by
  unfold afterLast
  have hrev : (pre ++ c :: post).reverse = post.reverse ++ c :: pre.reverse := by simp
  rw [hrev, takeWhile_append_stop _ _ _ _ (by
    intro x hx
    have := h x (List.mem_reverse.mp hx)
    simpa using this) (by simp)]
  simp

/-- The suffix of `dir/base.ext` is `ext`. -/
theorem suffix_of_parts (dir base ext : QString) (hbase : ∀ d ∈ base, d ≠ '/')
    (hext : ∀ d ∈ ext, d ≠ '/' ∧ d ≠ '.') :
    suffix (dir ++ '/' :: (base ++ '.' :: ext)) = ext := by
  have hname : fileName (dir ++ '/' :: (base ++ '.' :: ext)) = base ++ '.' :: ext := by
    unfold fileName
    apply afterLast_append
    intro d hd
    rcases List.mem_append.mp hd with h | h
    · exact hbase d h
    · rcases List.mem_cons.mp h with rfl | h
      · decide
      · exact (hext d h).1
  unfold suffix
  rw [hname]
  have hdot : (base ++ '.' :: ext).contains '.' = true := by simp
  rw [if_pos hdot]
  exact afterLast_append '.' base ext (fun d hd => (hext d hd).2)

/-- C14. The file type is a function of the lower-cased extension alone: two paths whose
extensions are equal after lower-casing have the same type, and so do two paths
`dir/base.ext` that differ only in the directory and in the base name. -/
theorem getFileType_extension_only (toLower : QString → QString) :
    (∀ p q : QString, toLower (suffix p) = toLower (suffix q) →
        getFileType toLower p = getFileType toLower q) ∧
      (∀ dir1 dir2 base1 base2 ext : QString,
        (∀ d ∈ base1, d ≠ '/') → (∀ d ∈ base2, d ≠ '/') → (∀ d ∈ ext, d ≠ '/' ∧ d ≠ '.') →
        getFileType toLower (dir1 ++ '/' :: (base1 ++ '.' :: ext)) =
          getFileType toLower (dir2 ++ '/' :: (base2 ++ '.' :: ext))) := by
  have h1 : ∀ p q : QString, toLower (suffix p) = toLower (suffix q) →
      getFileType toLower p = getFileType toLower q := by
    intro p q h
    unfold getFileType
    rw [h]
  refine ⟨h1, ?_⟩
  intro dir1 dir2 base1 base2 ext hb1 hb2 hext
  apply h1
  rw [suffix_of_parts dir1 base1 ext hb1 hext, suffix_of_parts dir2 base2 ext hb2 hext]

/-- Witness for C14: `C:/scans/Page.PNG` and `notes/b.png` are both PNG images, and so
are `C:/scans/Page.png` and `D:/x/other.png`. -/
theorem getFileType_extension_only_witness :
    getFileType asciiLower "C:/scans/Page.PNG".toList = FileType.IMAGE_PNG ∧
      getFileType asciiLower "C:/scans/Page.PNG".toList =
        getFileType asciiLower "notes/b.png".toList ∧
      getFileType asciiLower ("C:/scans".toList ++ '/' :: ("Page".toList ++ '.' :: "png".toList)) =
        getFileType asciiLower ("D:/x".toList ++ '/' :: ("other".toList ++ '.' :: "png".toList)) :=
  ⟨by decide,
    (getFileType_extension_only asciiLower).1 "C:/scans/Page.PNG".toList "notes/b.png".toList
      (by decide),
    (getFileType_extension_only asciiLower).2 "C:/scans".toList "D:/x".toList "Page".toList
      "other".toList "png".toList (by decide) (by decide) (by decide)⟩

/-- C15. A path is supported iff its file type is not `UNKNOWN`, which is the case iff
its lower-cased extension is one of the entries of `getSupportedExtensions()`, and
these are png, jpg, jpeg, bmp, gif, tiff, tif, webp and pdf; every other extension, the
empty one included, gives `UNKNOWN`. -/
theorem isFileSupported_iff (toLower : QString → QString) (p : QString) :
    (isFileSupported toLower p = true ↔ getFileType toLower p ≠ FileType.UNKNOWN) ∧
      (getFileType toLower p ≠ FileType.UNKNOWN ↔
        toLower (suffix p) ∈ getSupportedExtensions) ∧
      getSupportedExtensions =
        ["png".toList, "jpg".toList, "jpeg".toList, "bmp".toList, "gif".toList, "tiff".toList,
          "tif".toList, "webp".toList, "pdf".toList] ∧
      (toLower (suffix p) ∉ getSupportedExtensions →
        getFileType toLower p = FileType.UNKNOWN) := by
  have hmem : getFileType toLower p ≠ FileType.UNKNOWN ↔
      toLower (suffix p) ∈ getSupportedExtensions := by
    unfold getFileType
    simp only [getSupportedExtensions, s_imageExtensions, s_documentExtensions,
      List.cons_append, List.nil_append, List.mem_cons, List.mem_singleton, List.not_mem_nil,
      or_false]
    generalize toLower (suffix p) = extension
    split_ifs with h1 h2 h3 h4 h5 h6 h7 h8
    all_goals first
      | (simp_all; done)
      | (rcases h6 with h | h <;> simp [h])
  refine ⟨?_, hmem, rfl, ?_⟩
  · simp [isFileSupported]
  · intro h
    by_contra hc
    exact h (hmem.mp hc)

/-- Witness for C15: a path without an extension is not supported. -/
theorem isFileSupported_iff_witness :
    getFileType asciiLower "C:/scans/README".toList = FileType.UNKNOWN :=
  (isFileSupported_iff asciiLower "C:/scans/README".toList).2.2.2 (by decide)

/-! ## Properties of the image normalizer -/

/-- A size scaled into `s` lies inside `s`. -/
theorem QSize.scaled_le (size s : QSize) :
    (size.scaled s).wd ≤ s.wd ∧ (size.scaled s).ht ≤ s.ht := by
  unfold QSize.scaled
  dsimp only
  split_ifs with h0 h1
  · exact ⟨Nat.le_refl _, Nat.le_refl _⟩
  · exact ⟨h1, Nat.le_refl _⟩
  · have hw : 0 < size.wd := by omega
    have hh : 0 < size.ht := by omega
    refine ⟨Nat.le_refl _, ?_⟩
    have h2 : s.wd + 1 ≤ s.ht * size.wd / size.ht := by omega
    have h3 : (s.wd + 1) * size.ht ≤ s.ht * size.wd := (Nat.le_div_iff_mul_le hh).mp h2
    have h4 : s.wd * size.ht < s.ht * size.wd := by
      have : s.wd * size.ht < (s.wd + 1) * size.ht :=
        Nat.mul_lt_mul_of_pos_right (Nat.lt_succ_self _) hh
      omega
    exact Nat.le_of_lt ((Nat.div_lt_iff_lt_mul hw).mpr h4)

theorem widthStep_le (t : QSize) (maxWidth : Int) :
    (widthStep t maxWidth).wd ≤ t.wd ∧ (widthStep t maxWidth).ht ≤ t.ht ∧
      (0 < maxWidth → ((widthStep t maxWidth).wd : Int) ≤ maxWidth) := by
  unfold widthStep
  split_ifs with h
  · have hs := QSize.scaled_le t (QSize.mk maxWidth.toNat t.ht)
    simp only at hs
    exact ⟨by omega, hs.2, fun _ => by omega⟩
  · exact ⟨Nat.le_refl _, Nat.le_refl _, fun hpos => by omega⟩

theorem heightStep_le (t : QSize) (maxHeight : Int) :
    (heightStep t maxHeight).wd ≤ t.wd ∧ (heightStep t maxHeight).ht ≤ t.ht ∧
      (0 < maxHeight → ((heightStep t maxHeight).ht : Int) ≤ maxHeight) := by
  unfold heightStep
  split_ifs with h
  · have hs := QSize.scaled_le t (QSize.mk t.wd maxHeight.toNat)
    simp only at hs
    exact ⟨hs.1, by omega, fun _ => by omega⟩
  · exact ⟨Nat.le_refl _, Nat.le_refl _, fun hpos => by omega⟩

/-- The size of an image scaled into `s` exceeds `s` on no side, but for the least side
length 1. -/
theorem QImage.scaled_size_le (resample : QImage → QSize → List Nat) (image : QImage)
    (s : QSize) :
    (image.scaled resample s).width ≤ max s.wd 1 ∧
      (image.scaled resample s).height ≤ max s.ht 1 := by
  have hs := QSize.scaled_le image.size s
  unfold QImage.scaled
  dsimp only
  split_ifs with h1 h2 h3
  · exact ⟨Nat.zero_le _, Nat.zero_le _⟩
  · exact ⟨Nat.zero_le _, Nat.zero_le _⟩
  · have hw : max (image.size.scaled s).wd 1 = image.width := congrArg QSize.wd h3
    have hh : max (image.size.scaled s).ht 1 = image.height := congrArg QSize.ht h3
    rw [← hw, ← hh]
    omega
  · show max (image.size.scaled s).wd 1 ≤ max s.wd 1 ∧
      max (image.size.scaled s).ht 1 ≤ max s.ht 1
    omega

theorem QImage.not_null_pos (image : QImage) (h : image.isNull = false) :
    1 ≤ image.width ∧ 1 ≤ image.height := by
  unfold QImage.isNull at h
  simp only [Bool.or_eq_false_iff, beq_eq_false_iff_ne, ne_eq] at h
  omega

/-- C11. `resizeImage` returns the input image unchanged whenever both limits are at
most 0, and whenever the image already fits both limits; in particular
`resizeImage(image, 0, 0)` is `image`. -/
theorem resizeImage_unchanged (resample : QImage → QSize → List Nat) (image : QImage)
    (maxWidth maxHeight : Int) :
    (maxWidth ≤ 0 ∧ maxHeight ≤ 0 → resizeImage resample image maxWidth maxHeight = image) ∧
      ((image.width : Int) ≤ maxWidth ∧ (image.height : Int) ≤ maxHeight →
        resizeImage resample image maxWidth maxHeight = image) ∧
      resizeImage resample image 0 0 = image := by
  have hlimits : ∀ a b : Int, a ≤ 0 ∧ b ≤ 0 → resizeImage resample image a b = image := by
    intro a b h
    unfold resizeImage
    by_cases h1 : image.isNull = true
    · simp [h1]
    · simp [h1, h]
  refine ⟨hlimits maxWidth maxHeight, ?_, hlimits 0 0 ⟨Int.le_refl _, Int.le_refl _⟩⟩
  intro hfit
  unfold resizeImage
  by_cases h1 : image.isNull = true
  · simp [h1]
  · simp only [h1, if_false]
    have hw : widthStep image.size maxWidth = image.size := by
      unfold widthStep
      have : ¬ (0 < maxWidth ∧ maxWidth < (image.size.wd : Int)) := by
        simp only [QImage.size]
        omega
      simp only [this, if_false]
    have hh : heightStep image.size maxHeight = image.size := by
      unfold heightStep
      have : ¬ (0 < maxHeight ∧ maxHeight < (image.size.ht : Int)) := by
        simp only [QImage.size]
        omega
      simp only [this, if_false]
    simp [hw, hh]

/-- Witness for C11: an image of 400 by 300 pixels is returned unchanged for the limits
(0, 0), (-1, 0) and (400, 300). -/
theorem resizeImage_unchanged_witness :
    resizeImage blankResample photo 0 0 = photo ∧
      resizeImage blankResample photo (-1) 0 = photo ∧
      resizeImage blankResample photo 400 300 = photo :=
  ⟨(resizeImage_unchanged blankResample photo 0 0).2.2,
    (resizeImage_unchanged blankResample photo (-1) 0).1 (by decide),
    (resizeImage_unchanged blankResample photo 400 300).2.1 (by decide)⟩

/-- The size of the result of `resizeImage` on an image that is not null: on each side
at most the side of the input, and at most the side of the target size but for the
least side length 1. -/
theorem resizeImage_size (resample : QImage → QSize → List Nat) (image : QImage)
    (maxWidth maxHeight : Int) (hnull : image.isNull = false) :
    ((resizeImage resample image maxWidth maxHeight).width ≤ image.width ∧
      (resizeImage resample image maxWidth maxHeight).height ≤ image.height) ∧
    (0 < maxWidth → ((resizeImage resample image maxWidth maxHeight).width : Int) ≤ maxWidth) ∧
    (0 < maxHeight →
      ((resizeImage resample image maxWidth maxHeight).height : Int) ≤ maxHeight) := by
  obtain ⟨hw1, hh1⟩ := QImage.not_null_pos image hnull
  obtain ⟨a1, a2, a3⟩ := widthStep_le image.size maxWidth
  obtain ⟨b1, b2, b3⟩ := heightStep_le (widthStep image.size maxWidth) maxHeight
  obtain ⟨c1, c2⟩ := QImage.scaled_size_le resample image
    (heightStep (widthStep image.size maxWidth) maxHeight)
  have hsw : image.size.wd = image.width := rfl
  have hsh : image.size.ht = image.height := rfl
  unfold resizeImage
  simp only [hnull, Bool.false_eq_true, if_false]
  by_cases h2 : maxWidth ≤ 0 ∧ maxHeight ≤ 0
  · simp only [h2, and_self, if_true]
    exact ⟨⟨Nat.le_refl _, Nat.le_refl _⟩, fun h => by omega, fun h => by omega⟩
  · simp only [h2, if_false]
    by_cases h3 : heightStep (widthStep image.size maxWidth) maxHeight = image.size
    · simp only [h3, if_true]
      rw [h3] at b1 b2 b3
      refine ⟨⟨Nat.le_refl _, Nat.le_refl _⟩, fun h => ?_, fun h => ?_⟩
      · have := a3 h
        omega
      · have := b3 h
        omega
    · simp only [h3, if_false]
      refine ⟨⟨by omega, by omega⟩, fun h => ?_, fun h => ?_⟩
      · have := a3 h
        omega
      · have := b3 h
        omega

/-- C12. For every image that is not null and every pair of limits, the image that
`resizeImage` produces is at most as wide and at most as high as the input. -/
theorem resizeImage_no_upscale (resample : QImage → QSize → List Nat) (image : QImage)
    (maxWidth maxHeight : Int) (hnull : image.isNull = false) :
    (resizeImage resample image maxWidth maxHeight).width ≤ image.width ∧
      (resizeImage resample image maxWidth maxHeight).height ≤ image.height :=
  (resizeImage_size resample image maxWidth maxHeight hnull).1

/-- Witness for C12: 400 by 300 pixels under the limits (100, 50) become 66 by 50. -/
theorem resizeImage_no_upscale_witness :
    (resizeImage blankResample photo 100 50).size = { wd := 66, ht := 50 } ∧
      (resizeImage blankResample photo 100 50).width ≤ photo.width ∧
      (resizeImage blankResample photo 100 50).height ≤ photo.height :=
  ⟨by decide, resizeImage_no_upscale blankResample photo 100 50 (by decide)⟩

/-- C13. For every image that is not null and every pair of limits, the image that
`resizeImage` produces is at most `maxWidth` wide whenever `maxWidth > 0` and at most
`maxHeight` high whenever `maxHeight > 0`; and the height step never makes the width
larger than the width step left it. -/
theorem resizeImage_within_limits (resample : QImage → QSize → List Nat) (image : QImage)
    (maxWidth maxHeight : Int) (hnull : image.isNull = false) :
    (0 < maxWidth → ((resizeImage resample image maxWidth maxHeight).width : Int) ≤ maxWidth) ∧
      (0 < maxHeight →
        ((resizeImage resample image maxWidth maxHeight).height : Int) ≤ maxHeight) ∧
      (heightStep (widthStep image.size maxWidth) maxHeight).wd ≤
        (widthStep image.size maxWidth).wd :=
  ⟨(resizeImage_size resample image maxWidth maxHeight hnull).2.1,
    (resizeImage_size resample image maxWidth maxHeight hnull).2.2,
    (heightStep_le (widthStep image.size maxWidth) maxHeight).1⟩

/-- Witness for C13: 400 by 300 pixels under the limits (100, 50): the width step
leaves 100 by 75, the height step 66 by 50. -/
theorem resizeImage_within_limits_witness :
    widthStep photo.size 100 = { wd := 100, ht := 75 } ∧
      heightStep (widthStep photo.size 100) 50 = { wd := 66, ht := 50 } ∧
      ((resizeImage blankResample photo 100 50).width : Int) ≤ 100 ∧
      ((resizeImage blankResample photo 100 50).height : Int) ≤ 50 :=
  ⟨by decide, by decide,
    (resizeImage_within_limits blankResample photo 100 50 (by decide)).1 (by decide),
    (resizeImage_within_limits blankResample photo 100 50 (by decide)).2.1 (by decide)⟩

/-! ## Properties of the files -/

theorem fileExists_iff (fs : Files) (path : QString) : fileExists fs path = true ↔ path ∈ fs := by
  unfold fileExists
  exact List.elem_iff

theorem mem_removeFile (fs : Files) (path q : QString) :
    q ∈ removeFile fs path ↔ q ∈ fs ∧ q ≠ path := by
  simp [removeFile]

/-- Deleting a file that does not exist changes nothing. -/
theorem removeFile_missing (fs : Files) (path : QString) (h : path ∉ fs) :
    removeFile fs path = fs := by
  unfold removeFile
  rw [List.filter_eq_self]
  intro q hq
  have : q ≠ path := fun hc => h (hc ▸ hq)
  simpa using this

theorem mem_filesAfter (fs : Files) (trace : List OCREffect) (q : QString) :
    q ∈ filesAfter fs trace ↔ q ∈ fs ∧ OCREffect.fileRemove q ∉ trace := by
  unfold filesAfter
  induction trace generalizing fs with
  | nil => simp
  | cons ev t ih =>
    rw [List.foldl_cons, ih]
    cases ev <;> simp [OCREffect.onFiles, mem_removeFile]
    case fileRemove p =>
      constructor
      · rintro ⟨⟨h1, h2⟩, h3⟩
        exact ⟨h1, fun hc => h2 hc, h3⟩
      · rintro ⟨h1, h2, h3⟩
        exact ⟨⟨h1, fun hc => h2 hc⟩, h3⟩

/-! ## Properties of `performOCR` -/

/-- The text that `trimmed` returns is empty exactly when every character is white
space. -/
theorem trimmed_eq_nil_iff (s : QString) :
    trimmed s = [] ↔ ∀ c ∈ s, isSpace c = true := by
  unfold trimmed
  rw [List.reverse_eq_nil_iff, List.dropWhile_eq_nil_iff]
  constructor
  · intro h
    have h1 : ∀ x ∈ s.dropWhile isSpace, isSpace x = true :=
      fun x hx => h x (List.mem_reverse.mpr hx)
    have h2 : (s.dropWhile isSpace).dropWhile isSpace = [] :=
      List.dropWhile_eq_nil_iff.mpr h1
    rw [List.dropWhile_idempotent] at h2
    exact List.dropWhile_eq_nil_iff.mp h2
  · intro h x hx
    have h2 : s.dropWhile isSpace = [] := List.dropWhile_eq_nil_iff.mpr h
    rw [h2] at hx
    cases hx

/-- A successful `performOCR` has read a non-empty output file and returns its content
trimmed. -/
theorem performOCR_success {F : Type} (ops : FloatOps F) (e : Engine) (w : World)
    (run : TesseractRun) (fs : Files) (image : QImage) (language : QString)
    (h : (performOCR ops e w run fs image language).result.success = true) :
    readOCRResultFromFile run.outputText ≠ [] ∧
      (performOCR ops e w run fs image language).result.text =
        trimmed (readOCRResultFromFile run.outputText) := by
  unfold performOCR at h ⊢
  dsimp only at h ⊢
  generalize (if e.m_initialized = true then ((true, e, []) : Bool × Engine × List OCREffect)
    else initializeEngine e w) = init at h ⊢
  by_cases h0 : init.1 = true
  · simp only [h0, Bool.not_true, Bool.false_eq_true, if_false] at h ⊢
    by_cases h1 : image.isNull = true
    · simp [h1, OCRResult.new] at h
    · simp only [h1, if_false] at h ⊢
      cases hs : run.saveOk
      · simp [saveImageToTempFile, hs, OCRResult.new] at h
      · have hne : (w.tempDir ++ "/ocr_temp_".toList ++ number run.saveTime ++
            ".png".toList).isEmpty = false := by
          simp [List.isEmpty_iff]
        simp only [saveImageToTempFile, hs, if_true, hne, Bool.false_eq_true, if_false]
          at h ⊢
        cases hst : run.started
        · simp [hst, OCRResult.new] at h
        · simp only [hst, Bool.not_true, Bool.false_eq_true, if_false] at h ⊢
          split_ifs at h ⊢
          all_goals first
            | (simp [OCRResult.new] at h; done)
            | (refine ⟨?_, rfl⟩
               intro hc
               simp_all)
  · have h0' : init.1 = false := by simpa using h0
    simp [h0', OCRResult.new] at h

/-- A successful batch single-page recognition has read a non-empty output file and
returns its content trimmed. -/
theorem single_success {F : Type} (ops : FloatOps F) (e : Engine) (w : World)
    (run : TesseractRun) (image : QImage) (language : QString) (i n : Nat)
    (h : (performSinglePageOCRWithBatchProgress ops e w run image language i n).1.success
      = true) :
    readOCRResultFromFile run.outputText ≠ [] ∧
      (performSinglePageOCRWithBatchProgress ops e w run image language i n).1.text =
        trimmed (readOCRResultFromFile run.outputText) := by
  unfold performSinglePageOCRWithBatchProgress at h ⊢
  dsimp only at h ⊢
  generalize (if e.m_initialized = true then ((true, e, []) : Bool × Engine × List OCREffect)
    else initializeEngine e w) = init at h ⊢
  by_cases h0 : init.1 = true
  · simp only [h0, Bool.not_true, Bool.false_eq_true, if_false] at h ⊢
    by_cases h1 : image.isNull = true
    · simp [h1, OCRResult.new] at h
    · simp only [h1, if_false] at h ⊢
      cases hs : run.saveOk
      · simp [saveImageToTempFile, hs, OCRResult.new] at h
      · have hne : (w.tempDir ++ "/ocr_temp_".toList ++ number run.saveTime ++
            ".png".toList).isEmpty = false := by
          simp [List.isEmpty_iff]
        simp only [saveImageToTempFile, hs, if_true, hne, Bool.false_eq_true, if_false]
          at h ⊢
        cases hst : run.started
        · simp [hst, OCRResult.new] at h
        · simp only [hst, Bool.not_true, Bool.false_eq_true, if_false] at h ⊢
          split_ifs at h ⊢
          all_goals first
            | (simp [OCRResult.new] at h; done)
            | (refine ⟨?_, rfl⟩
               intro hc
               simp_all)
  · have h0' : init.1 = false := by simpa using h0
    simp [h0', OCRResult.new] at h

/-- C17, as amended.  Whenever `performOCR` or the batch single-page variant returns
`success = true`, the content read from the plain-text output file is not empty, and the
text returned is that content trimmed: it is empty exactly when the content holds
nothing but white space. -/
theorem recognition_success_text {F : Type} (ops : FloatOps F) (e : Engine) (w : World)
    (run : TesseractRun) (fs : Files) (image : QImage) (language : QString) (i n : Nat) :
    ((performOCR ops e w run fs image language).result.success = true →
        readOCRResultFromFile run.outputText ≠ [] ∧
        (performOCR ops e w run fs image language).result.text =
          trimmed (readOCRResultFromFile run.outputText) ∧
        ((performOCR ops e w run fs image language).result.text = [] ↔
          ∀ c ∈ readOCRResultFromFile run.outputText, isSpace c = true)) ∧
      ((performSinglePageOCRWithBatchProgress ops e w run image language i n).1.success = true →
        readOCRResultFromFile run.outputText ≠ [] ∧
        (performSinglePageOCRWithBatchProgress ops e w run image language i n).1.text =
          trimmed (readOCRResultFromFile run.outputText) ∧
        ((performSinglePageOCRWithBatchProgress ops e w run image language i n).1.text = [] ↔
          ∀ c ∈ readOCRResultFromFile run.outputText, isSpace c = true)) := by
  refine ⟨fun h => ?_, fun h => ?_⟩
  · obtain ⟨h1, h2⟩ := performOCR_success ops e w run fs image language h
    refine ⟨h1, h2, ?_⟩
    rw [h2]
    exact trimmed_eq_nil_iff _
  · obtain ⟨h1, h2⟩ := single_success ops e w run image language i n h
    refine ⟨h1, h2, ?_⟩
    rw [h2]
    exact trimmed_eq_nil_iff _

/-- Witness for C17: a clean run that leaves the text `abc` and a line end. -/
theorem recognition_success_text_witness :
    (performOCR exactOps exampleEngine exampleWorld (cleanRun "abc\n".toList) []
        exampleImage "eng".toList).result.text = "abc".toList ∧
      (performSinglePageOCRWithBatchProgress exactOps exampleEngine exampleWorld
        (cleanRun "abc\n".toList) exampleImage "eng".toList 0 1).1.text = "abc".toList :=
  have h := recognition_success_text exactOps exampleEngine exampleWorld
    (cleanRun "abc\n".toList) [] exampleImage "eng".toList 0 1
  ⟨(h.1 (by decide)).2.1.trans (by decide), (h.2 (by decide)).2.1.trans (by decide)⟩

/-- Counterexample to C17 as stated: after a clean exit with an output file that holds
a single form feed, `performOCR` and the batch single-page variant both return
`success = true` with the empty text. -/
theorem recognition_success_empty_text :
    (performOCR exactOps exampleEngine exampleWorld blankPageRun [] exampleImage
        "eng".toList).result.success = true ∧
      (performOCR exactOps exampleEngine exampleWorld blankPageRun [] exampleImage
        "eng".toList).result.text = [] ∧
      (performSinglePageOCRWithBatchProgress exactOps exampleEngine exampleWorld blankPageRun
        exampleImage "eng".toList 0 1).1.success = true ∧
      (performSinglePageOCRWithBatchProgress exactOps exampleEngine exampleWorld blankPageRun
        exampleImage "eng".toList 0 1).1.text = [] := by
  decide

/-- C18, the failing run.  The recognition tool exits cleanly and leaves an empty text
file and a table: `performOCR` fails with the cannot-read message, the temporary image
is gone, but the text file and the table both still exist when the call returns. -/
theorem performOCR_leaves_output_files :
    (performOCR exactOps exampleEngine exampleWorld emptyOutputRun [] exampleImage
        "eng".toList).result.success = false ∧
      (performOCR exactOps exampleEngine exampleWorld emptyOutputRun [] exampleImage
        "eng".toList).result.errorMessage = "无法读取OCR结果文件".toList ∧
      fileExists (performOCR exactOps exampleEngine exampleWorld emptyOutputRun []
        exampleImage "eng".toList).files "/tmp/ocr_temp_1700000000000.png".toList = false ∧
      fileExists (performOCR exactOps exampleEngine exampleWorld emptyOutputRun []
        exampleImage "eng".toList).files "/tmp/ocr_result_1700000000001.txt".toList = true ∧
      fileExists (performOCR exactOps exampleEngine exampleWorld emptyOutputRun []
        exampleImage "eng".toList).files "/tmp/ocr_result_1700000000001.tsv".toList = true := by
  decide

/-- On the success path of `performOCR` none of the three files of the call exists
afterwards. -/
theorem performOCR_success_files {F : Type} (ops : FloatOps F) (e : Engine) (w : World)
    (run : TesseractRun) (fs : Files) (image : QImage) (language : QString)
    (h : (performOCR ops e w run fs image language).result.success = true) :
    (w.tempDir ++ "/ocr_temp_".toList ++ number run.saveTime ++ ".png".toList) ∉
        (performOCR ops e w run fs image language).files ∧
      (w.tempDir ++ "/ocr_result_".toList ++ number run.outputTime ++ ".txt".toList) ∉
        (performOCR ops e w run fs image language).files ∧
      (w.tempDir ++ "/ocr_result_".toList ++ number run.outputTime ++ ".tsv".toList) ∉
        (performOCR ops e w run fs image language).files := by
  unfold performOCR at h ⊢
  dsimp only at h ⊢
  generalize (if e.m_initialized = true then ((true, e, []) : Bool × Engine × List OCREffect)
    else initializeEngine e w) = init at h ⊢
  by_cases h0 : init.1 = true
  · simp only [h0, Bool.not_true, Bool.false_eq_true, if_false] at h ⊢
    by_cases h1 : image.isNull = true
    · simp [h1, OCRResult.new] at h
    · simp only [h1, if_false] at h ⊢
      cases hs : run.saveOk
      · simp [saveImageToTempFile, hs, OCRResult.new] at h
      · have hne : (w.tempDir ++ "/ocr_temp_".toList ++ number run.saveTime ++
            ".png".toList).isEmpty = false := by
          simp [List.isEmpty_iff]
        simp only [saveImageToTempFile, hs, if_true, hne, Bool.false_eq_true, if_false]
          at h ⊢
        cases hst : run.started
        · simp [hst, OCRResult.new] at h
        · simp only [hst, Bool.not_true, Bool.false_eq_true, if_false] at h ⊢
          split_ifs at h ⊢
          all_goals first
            | (simp [OCRResult.new] at h; done)
            | (simp only [mem_filesAfter]
               refine ⟨?_, ?_, ?_⟩ <;> simp)
  · have h0' : init.1 = false := by simpa using h0
    simp [h0', OCRResult.new] at h

/-- Every path that a call of `performOCR` appends to `m_tempFiles` is the path of a
file that does not exist when the call returns. -/
theorem performOCR_tracked_removed {F : Type} (ops : FloatOps F) (e : Engine) (w : World)
    (run : TesseractRun) (fs : Files) (image : QImage) (language : QString) :
    ∀ p ∈ (performOCR ops e w run fs image language).tracked,
      p ∉ (performOCR ops e w run fs image language).files := by
  unfold performOCR
  dsimp only
  generalize (if e.m_initialized = true then ((true, e, []) : Bool × Engine × List OCREffect)
    else initializeEngine e w) = init
  by_cases h0 : init.1 = true
  · simp only [h0, Bool.not_true, Bool.false_eq_true, if_false]
    by_cases h1 : image.isNull = true
    · simp [h1]
    · simp only [h1, if_false]
      cases hs : run.saveOk
      · simp [saveImageToTempFile, hs]
      · have hne : (w.tempDir ++ "/ocr_temp_".toList ++ number run.saveTime ++
            ".png".toList).isEmpty = false := by
          simp [List.isEmpty_iff]
        simp only [saveImageToTempFile, hs, if_true, hne, Bool.false_eq_true, if_false]
        cases hst : run.started
        · simp only [Bool.not_false, if_true, List.mem_singleton, forall_eq, mem_filesAfter,
            cleanupTempFiles]
          simp
        · simp only [Bool.not_true, Bool.false_eq_true, if_false]
          split_ifs
          all_goals
            simp only [List.mem_singleton, forall_eq, mem_filesAfter, cleanupTempFiles]
            simp
  · have h0' : init.1 = false := by simpa using h0
    simp [h0']

/-- The paths that `performOCR` reports as tracked are the ones that
`saveImageToTempFile` appends to `m_tempFiles`. -/
theorem performOCR_tracked {F : Type} (ops : FloatOps F) (e : Engine) (w : World)
    (run : TesseractRun) (fs : Files) (image : QImage) (language : QString)
    (hinit : e.m_initialized = true) (hnull : image.isNull = false) :
    (saveImageToTempFile e w run).2.1.m_tempFiles =
      e.m_tempFiles ++ (performOCR (F := F) ops e w run fs image language).tracked := by
  unfold performOCR
  dsimp only
  simp only [hinit, if_true, Bool.not_true, Bool.false_eq_true, if_false, hnull]
  cases hs : run.saveOk
  · simp [saveImageToTempFile, hs]
  · have hne : (w.tempDir ++ "/ocr_temp_".toList ++ number run.saveTime ++
        ".png".toList).isEmpty = false := by
      simp [List.isEmpty_iff]
    simp only [saveImageToTempFile, hs, if_true, hne, Bool.false_eq_true, if_false]
    cases hst : run.started
    · simp
    · simp only [Bool.not_true, Bool.false_eq_true, if_false]
      split_ifs <;> rfl

/-! ## Properties of `cleanupTempFiles` -/

/-- Deleting the files of a list one after the other leaves the files that are not in
the list. -/
theorem foldl_removeFile (paths : List QString) (fs : Files) :
    paths.foldl removeFile fs = fs.filter (fun p => !paths.contains p) := by
  induction paths generalizing fs with
  | nil => simp
  | cons a rest ih =>
    rw [List.foldl_cons, ih]
    unfold removeFile
    rw [List.filter_filter]
    congr 1
    funext p
    simp only [List.contains_cons, Bool.not_or, bne]
    exact Bool.and_comm _ _

theorem filesAfter_map_fileRemove (paths : List QString) (fs : Files) :
    filesAfter fs (paths.map OCREffect.fileRemove) = paths.foldl removeFile fs := by
  unfold filesAfter
  induction paths generalizing fs with
  | nil => rfl
  | cons a rest ih => simp only [List.map_cons, List.foldl_cons, OCREffect.onFiles, ih]

theorem filesAfterFP_map_fileRemove (paths : List QString) (fs : Files) :
    filesAfterFP fs (paths.map FPEffect.fileRemove) = paths.foldl removeFile fs := by
  unfold filesAfterFP
  induction paths generalizing fs with
  | nil => rfl
  | cons a rest ih => simp only [List.map_cons, List.foldl_cons, FPEffect.onFiles, ih]

theorem filesAfterFP_append (fs : Files) (s t : List FPEffect) :
    filesAfterFP fs (s ++ t) = filesAfterFP (filesAfterFP fs s) t := by
  unfold filesAfterFP
  exact List.foldl_append _ _ _ _

/-- A file that exists after the deletions of a trace existed before. -/
theorem mem_filesAfterFP (fs : Files) (trace : List FPEffect) (q : QString)
    (h : q ∈ filesAfterFP fs trace) : q ∈ fs := by
  unfold filesAfterFP at h
  induction trace generalizing fs with
  | nil => exact h
  | cons ev t ih =>
    rw [List.foldl_cons] at h
    have h1 := ih _ h
    cases ev <;> simp only [FPEffect.onFiles] at h1
    all_goals first
      | exact h1
      | exact ((mem_removeFile _ _ _).mp h1).1
      | exact (List.mem_filter.mp h1).1

/-- A filter that has been applied changes nothing when it is applied again. -/
theorem filter_not_contains_twice (paths : List QString) (fs : Files) :
    (fs.filter (fun p => !paths.contains p)).filter (fun p => !paths.contains p) =
      fs.filter (fun p => !paths.contains p) := by
  rw [List.filter_filter]
  congr 1
  funext p
  exact Bool.and_self _

/-- C19.  `cleanupTempFiles` deletes every tracked path and leaves the tracked set
empty, and a second run changes neither the files nor the tracked set.  For the engine:
the files afterwards are the files before that are not tracked, so no tracked path
exists, a tracked path that was already missing makes no difference, and the second run
has an empty trace.  For the file processor, whose operation also deletes the paths it
is given: the files afterwards are the files before that are neither given nor tracked,
and the second run with the same paths leaves the files and the empty tracked set as
they are. -/
theorem cleanupTempFiles_idempotent (e : Engine) (m_tempFiles filePaths : List QString)
    (fs : Files) :
    (filesAfter fs (cleanupTempFiles e).2 = fs.filter (fun p => !e.m_tempFiles.contains p) ∧
      (∀ p ∈ e.m_tempFiles, fileExists (filesAfter fs (cleanupTempFiles e).2) p = false) ∧
      ((∀ p ∈ e.m_tempFiles, fileExists fs p = false) →
        filesAfter fs (cleanupTempFiles e).2 = fs) ∧
      (cleanupTempFiles e).1.m_tempFiles = [] ∧
      cleanupTempFiles (cleanupTempFiles e).1 = ((cleanupTempFiles e).1, []) ∧
      filesAfter (filesAfter fs (cleanupTempFiles e).2)
          (cleanupTempFiles (cleanupTempFiles e).1).2 =
        filesAfter fs (cleanupTempFiles e).2) ∧
    (filesAfterFP fs (FileProcessor.cleanupTempFiles m_tempFiles filePaths).2 =
        fs.filter (fun p => !(filePaths ++ m_tempFiles).contains p) ∧
      (∀ p ∈ filePaths ++ m_tempFiles,
        fileExists (filesAfterFP fs (FileProcessor.cleanupTempFiles m_tempFiles filePaths).2) p =
          false) ∧
      ((∀ p ∈ filePaths ++ m_tempFiles, fileExists fs p = false) →
        filesAfterFP fs (FileProcessor.cleanupTempFiles m_tempFiles filePaths).2 = fs) ∧
      (FileProcessor.cleanupTempFiles m_tempFiles filePaths).1 = [] ∧
      (FileProcessor.cleanupTempFiles
          (FileProcessor.cleanupTempFiles m_tempFiles filePaths).1 filePaths).1 = [] ∧
      filesAfterFP (filesAfterFP fs (FileProcessor.cleanupTempFiles m_tempFiles filePaths).2)
          (FileProcessor.cleanupTempFiles
            (FileProcessor.cleanupTempFiles m_tempFiles filePaths).1 filePaths).2 =
        filesAfterFP fs (FileProcessor.cleanupTempFiles m_tempFiles filePaths).2) := by
  have hE : filesAfter fs (cleanupTempFiles e).2 =
      fs.filter (fun p => !e.m_tempFiles.contains p) := by
    simp only [cleanupTempFiles, filesAfter_map_fileRemove, foldl_removeFile]
  have hP : filesAfterFP fs (FileProcessor.cleanupTempFiles m_tempFiles filePaths).2 =
      fs.filter (fun p => !(filePaths ++ m_tempFiles).contains p) := by
    simp only [FileProcessor.cleanupTempFiles, ← List.map_append, filesAfterFP_map_fileRemove,
      foldl_removeFile]
  have hgone : ∀ (paths : List QString), ∀ p ∈ paths,
      fileExists (fs.filter (fun p => !paths.contains p)) p = false := by
    intro paths p hp
    cases hx : fileExists (fs.filter (fun p => !paths.contains p)) p
    · rfl
    · have := (List.mem_filter.mp ((fileExists_iff _ _).mp hx)).2
      simp [hp] at this
  have hsame : ∀ (paths : List QString), (∀ p ∈ paths, fileExists fs p = false) →
      fs.filter (fun p => !paths.contains p) = fs := by
    intro paths h
    rw [List.filter_eq_self]
    intro q hq
    cases hc : paths.contains q
    · rfl
    · have h1 := h q (List.elem_iff.mp hc)
      rw [(fileExists_iff fs q).mpr hq] at h1
      cases h1
  refine ⟨⟨hE, ?_, ?_, rfl, rfl, rfl⟩, ⟨hP, ?_, ?_, rfl, rfl, ?_⟩⟩
  · rw [hE]; exact hgone _
  · intro h; rw [hE]; exact hsame _ h
  · rw [hP]; exact hgone _
  · intro h; rw [hP]; exact hsame _ h
  · rw [hP]
    simp only [FileProcessor.cleanupTempFiles, List.map_nil, List.append_nil,
      filesAfterFP_map_fileRemove, foldl_removeFile]
    rw [List.filter_filter]
    rw [List.filter_congr]
    intro x _
    cases h1 : filePaths.contains x
    · simp [h1]
    · have h2 : x ∈ filePaths := List.elem_iff.mp h1
      simp [h2]

/-- A worked clean-up of the engine: of the two tracked paths one exists and one is
already missing; afterwards only the untracked file is left and nothing is tracked. -/
theorem cleanupTempFiles_idempotent_witness :
    filesAfter ["/tmp/a.png".toList, "/home/keep.txt".toList]
        (cleanupTempFiles
          { exampleEngine with m_tempFiles := ["/tmp/a.png".toList, "/tmp/gone.png".toList] }).2 =
      ["/home/keep.txt".toList] ∧
    (cleanupTempFiles
      { exampleEngine with m_tempFiles := ["/tmp/a.png".toList, "/tmp/gone.png".toList] }).1.m_tempFiles
      = [] :=
  ⟨((cleanupTempFiles_idempotent
      { exampleEngine with m_tempFiles := ["/tmp/a.png".toList, "/tmp/gone.png".toList] }
      [] [] ["/tmp/a.png".toList, "/home/keep.txt".toList]).1.1).trans (by decide),
    (cleanupTempFiles_idempotent
      { exampleEngine with m_tempFiles := ["/tmp/a.png".toList, "/tmp/gone.png".toList] }
      [] [] ["/tmp/a.png".toList, "/home/keep.txt".toList]).1.2.2.2.1⟩

/-! ## Properties of `processPDFFile` -/

/-- The paths that `convertPDFToImagesWithPoppler` appends to `m_tempFiles` are the
paths it returns. -/
theorem convertPDFToImagesWithPoppler_tracked (m_popplerPath : QString)
    (m_tempFiles : List QString) (w : PopplerRun) (pdfPath outputDir : QString) :
    (convertPDFToImagesWithPoppler m_popplerPath m_tempFiles w pdfPath outputDir).2.1 =
      m_tempFiles ++
        (convertPDFToImagesWithPoppler m_popplerPath m_tempFiles w pdfPath outputDir).1 := by
  unfold convertPDFToImagesWithPoppler
  dsimp only
  split_ifs <;> simp

/-- The paths that `processPDFFile` reports as tracked are the ones that the conversion
appends to `m_tempFiles`. -/
theorem processPDFFile_tracked (m_popplerPath : QString) (m_tempFiles : List QString)
    (w : PdfWorld) (fs : Files) (filePath : QString) (maxWidth maxHeight : Int)
    (h : (isPopplerAvailable m_popplerPath w).1 = true) :
    (convertPDFToImagesWithPoppler m_popplerPath m_tempFiles w.raster filePath
        (w.tempDir ++ "/ocr_pdf_".toList ++ number w.now)).2.1 =
      m_tempFiles ++
        (processPDFFile m_popplerPath m_tempFiles w fs filePath maxWidth maxHeight).tracked := by
  rw [convertPDFToImagesWithPoppler_tracked]
  unfold processPDFFile
  dsimp only
  rw [h]
  simp only [Bool.not_true, Bool.false_eq_true, if_false]
  split_ifs <;> rfl

/-- Every path that a call of `processPDFFile` appends to `m_tempFiles` is the path of a
file that does not exist when the call returns. -/
theorem processPDFFile_tracked_removed (m_popplerPath : QString) (m_tempFiles : List QString)
    (w : PdfWorld) (fs : Files) (filePath : QString) (maxWidth maxHeight : Int) :
    ∀ p ∈ (processPDFFile m_popplerPath m_tempFiles w fs filePath maxWidth maxHeight).tracked,
      p ∉ (processPDFFile m_popplerPath m_tempFiles w fs filePath maxWidth maxHeight).files := by
  unfold processPDFFile
  dsimp only
  generalize convertPDFToImagesWithPoppler m_popplerPath m_tempFiles w.raster filePath
    (w.tempDir ++ "/ocr_pdf_".toList ++ number w.now) = conv
  split_ifs with h1 h2
  all_goals intro p hp
  all_goals dsimp only at hp ⊢
  · cases hp
  · rw [List.isEmpty_iff.mp h2] at hp
    cases hp
  all_goals
    intro hc
    rw [filesAfterFP_append] at hc
    have h3 := mem_filesAfterFP _ _ _ hc
    simp only [FileProcessor.cleanupTempFiles, ← List.map_append, filesAfterFP_map_fileRemove,
      foldl_removeFile] at h3
    have h4 := (List.mem_filter.mp h3).2
    simp [hp] at h4

/-- C20.  For every run of `processPDFFile` and every run of `performOCR`, whatever the
outcome, no path that the run appended to the tracked list `m_tempFiles` is the path of a
file that exists when the run returns. -/
theorem tracked_paths_removed {F : Type} (ops : FloatOps F) (e : Engine) (w : World)
    (run : TesseractRun) (image : QImage) (language : QString) (m_popplerPath : QString)
    (m_tempFiles : List QString) (pw : PdfWorld) (filePath : QString)
    (maxWidth maxHeight : Int) (fs : Files) :
    (∀ p ∈ (processPDFFile m_popplerPath m_tempFiles pw fs filePath maxWidth maxHeight).tracked,
      fileExists
        (processPDFFile m_popplerPath m_tempFiles pw fs filePath maxWidth maxHeight).files p =
          false) ∧
    (∀ p ∈ (performOCR ops e w run fs image language).tracked,
      fileExists (performOCR ops e w run fs image language).files p = false) := by
  refine ⟨fun p hp => ?_, fun p hp => ?_⟩
  · cases hx : fileExists
        (processPDFFile m_popplerPath m_tempFiles pw fs filePath maxWidth maxHeight).files p
    · rfl
    · exact absurd ((fileExists_iff _ _).mp hx)
        (processPDFFile_tracked_removed m_popplerPath m_tempFiles pw fs filePath maxWidth
          maxHeight p hp)
  · cases hx : fileExists (performOCR ops e w run fs image language).files p
    · rfl
    · exact absurd ((fileExists_iff _ _).mp hx)
        (performOCR_tracked_removed ops e w run fs image language p hp)

/-- A worked conversion: the three page images of the worked rasterizer run are tracked,
and none of them exists when `processPDFFile` returns. -/
theorem tracked_paths_removed_witness :
    (processPDFFile "pdftoppm".toList [] examplePdfWorld ["/home/a.pdf".toList]
        "/home/a.pdf".toList 0 0).tracked =
      ["/tmp/ocr_pdf_1700000000002/page-1.png".toList,
        "/tmp/ocr_pdf_1700000000002/page-3.png".toList,
        "/tmp/ocr_pdf_1700000000002/page-10.png".toList] ∧
    ∀ p ∈ (processPDFFile "pdftoppm".toList [] examplePdfWorld ["/home/a.pdf".toList]
        "/home/a.pdf".toList 0 0).tracked,
      fileExists (processPDFFile "pdftoppm".toList [] examplePdfWorld ["/home/a.pdf".toList]
        "/home/a.pdf".toList 0 0).files p = false :=
  ⟨by decide,
    (tracked_paths_removed exactOps exampleEngine exampleWorld (cleanRun "page one".toList) exampleImage
      "eng".toList "pdftoppm".toList [] examplePdfWorld "/home/a.pdf".toList 0 0
      ["/home/a.pdf".toList]).1⟩

/-! ## Properties of the language tables -/

/-- A key that is not in the table gets the default value. -/
theorem mapValue_of_not_key (m : List (QString × QString)) (key defaultValue : QString)
    (h : ∀ p ∈ m, p.1 ≠ key) : mapValue m key defaultValue = defaultValue := by
  have hl : m.lookup key = none := by
    induction m with
    | nil => rfl
    | cons p m ih =>
      obtain ⟨a, b⟩ := p
      have hne : (key == a) = false := by
        have := h (a, b) (List.mem_cons_self _ _)
        simpa using fun hc : key = a => this hc.symm
      rw [List.lookup_cons, hne]
      exact ih (fun q hq => h q (List.mem_cons_of_mem _ hq))
  unfold mapValue
  rw [hl]

/-- C26. The table from display names to language codes and the table from language
codes to display names are mutually inverse: for every display name of the first,
the name of its code is the display name again, and for every code of the second, the
code of its name is the code again; so Simplified Chinese goes to `chi_sim` and back,
and Mixed Chinese/English to `chi_sim+eng` and back.  A display name that is not in the
table gets the default code `chi_sim+eng`. -/
theorem language_tables_inverse :
    (∀ p ∈ s_languageCodeMap, getLanguageDisplayName (getCurrentLanguageCode p.1) = p.1) ∧
      (∀ p ∈ s_languageNameMap, getCurrentLanguageCode (getLanguageDisplayName p.1) = p.1) ∧
      s_languageNameMap = s_languageCodeMap.map (fun p => (p.2, p.1)) ∧
      getCurrentLanguageCode "简体中文".toList = "chi_sim".toList ∧
      getLanguageDisplayName "chi_sim".toList = "简体中文".toList ∧
      getCurrentLanguageCode "中英混合".toList = "chi_sim+eng".toList ∧
      getLanguageDisplayName "chi_sim+eng".toList = "中英混合".toList ∧
      (∀ displayName : QString, (∀ p ∈ s_languageCodeMap, p.1 ≠ displayName) →
        getCurrentLanguageCode displayName = "chi_sim+eng".toList) := by
  refine ⟨by decide, by decide, by decide, by decide, by decide, by decide, by decide, ?_⟩
  intro displayName h
  exact mapValue_of_not_key _ _ _ h

/-! ## Properties of the engine settings -/

theorem qBound_eq_clampMode (mode : Int) : (qBound 0 mode 13).toNat = clampMode mode := by
  unfold qBound clampMode
  congr 1
  omega

theorem clampMode_le (mode : Int) : clampMode mode ≤ 13 := by
  unfold clampMode
  omega

theorem runModeCalls_append (e : Engine) (calls : List ModeCall) (c : ModeCall) :
    runModeCalls e (calls ++ [c]) = ModeCall.run (runModeCalls e calls) c := by
  unfold runModeCalls
  rw [List.foldl_append]
  rfl

/-- The mode setters change nothing but the two modes. -/
theorem runModeCalls_fields (e : Engine) (calls : List ModeCall) :
    (runModeCalls e calls).m_initialized = e.m_initialized ∧
      (runModeCalls e calls).m_tesseractPath = e.m_tesseractPath ∧
      (runModeCalls e calls).m_tessDataPath = e.m_tessDataPath ∧
      (runModeCalls e calls).m_tempFiles = e.m_tempFiles := by
  induction calls using List.reverseRecOn with
  | nil => exact ⟨rfl, rfl, rfl, rfl⟩
  | append_singleton calls c ih =>
    rw [runModeCalls_append]
    cases c <;> exact ih

/-- After a sequence of calls of the mode setters the two modes of the engine are the
modes in force. -/
theorem runModeCalls_modes (e : Engine) (calls : List ModeCall) :
    (runModeCalls e calls).m_ocrEngineMode = engineModeInForce e.m_ocrEngineMode calls ∧
      (runModeCalls e calls).m_pageSegmentationMode =
        segmentationModeInForce e.m_pageSegmentationMode calls := by
  induction calls using List.reverseRecOn with
  | nil => exact ⟨rfl, rfl⟩
  | append_singleton calls c ih =>
    rw [runModeCalls_append]
    unfold engineModeInForce segmentationModeInForce at ih ⊢
    cases c with
    | setOCREngineMode mode =>
      simp only [ModeCall.run, setOCREngineMode, qBound_eq_clampMode, List.filterMap_append,
        List.filterMap_cons, List.filterMap_nil, List.append_nil, List.getLast?_append,
        List.getLast?_singleton, Option.or]
      exact ⟨trivial, ih.2⟩
    | setPageSegmentationMode mode =>
      simp only [ModeCall.run, setPageSegmentationMode, qBound_eq_clampMode,
        List.filterMap_append, List.filterMap_cons, List.filterMap_nil, List.append_nil,
        List.getLast?_append, List.getLast?_singleton, Option.or]
      exact ⟨ih.1, trivial⟩

/-- The test of `m_initialized` before a call of `initialize()` changes nothing: the
operation starts with the same test. -/
theorem initializeEngine_guarded (e : Engine) (w : World) :
    (if e.m_initialized = true then ((true, e, []) : Bool × Engine × List OCREffect)
      else initializeEngine e w) = initializeEngine e w := by
  unfold initializeEngine
  by_cases h : e.m_initialized = true <;> simp [h]

/-- The operation `initialize()` leaves the settings and the tracked files as they
are. -/
theorem initializeEngine_fields (e : Engine) (w : World) :
    (initializeEngine e w).2.1.m_tesseractPath = e.m_tesseractPath ∧
      (initializeEngine e w).2.1.m_tessDataPath = e.m_tessDataPath ∧
      (initializeEngine e w).2.1.m_ocrEngineMode = e.m_ocrEngineMode ∧
      (initializeEngine e w).2.1.m_pageSegmentationMode = e.m_pageSegmentationMode ∧
      (initializeEngine e w).2.1.m_tempFiles = e.m_tempFiles := by
  unfold initializeEngine
  dsimp only
  split_ifs <;> exact ⟨rfl, rfl, rfl, rfl, rfl⟩

theorem ocrWaitLoop_no_start (stillRunning : Nat → Bool) (fuel waits elapsedTime : Nat) :
    (ocrWaitLoop stillRunning fuel waits elapsedTime).1.filter OCREffect.isProcessStart = [] := by
  induction fuel generalizing waits elapsedTime with
  | zero => rfl
  | succ fuel ih =>
    unfold ocrWaitLoop
    dsimp only
    split_ifs
    · simp only [List.filter_cons, OCREffect.isProcessStart, Bool.false_eq_true, if_false]
      exact ih _ _
    · rfl

theorem cleanupTempFiles_no_start (e : Engine) :
    (cleanupTempFiles e).2.filter OCREffect.isProcessStart = [] := by
  unfold cleanupTempFiles
  rw [List.filter_eq_nil_iff]
  intro ev hev
  rcases List.mem_map.mp hev with ⟨p, _, rfl⟩
  simp [OCREffect.isProcessStart]

theorem bundledSetupChecked_no_start (e : Engine) (w : World) :
    (bundledSetupChecked e w).filter OCREffect.isProcessStart = [] := by
  unfold bundledSetupChecked
  split_ifs <;> simp [OCREffect.isProcessStart]

/-- The process starts of a call of `performOCR` that gets as far as the recognition
tool: the ones of the initialisation, then the one of the tool, with the argument list
built from the engine's settings. -/
theorem performOCR_process_starts {F : Type} (ops : FloatOps F) (e : Engine) (w : World)
    (run : TesseractRun) (fs : Files) (image : QImage) (language : QString)
    (hinit : (initializeEngine e w).1 = true) (hnull : image.isNull = false)
    (hsave : run.saveOk = true) :
    (performOCR ops e w run fs image language).trace.filter OCREffect.isProcessStart =
      (initializeEngine e w).2.2.filter OCREffect.isProcessStart ++
        [OCREffect.processStart e.m_tesseractPath
          ([w.tempDir ++ "/ocr_temp_".toList ++ number run.saveTime ++ ".png".toList,
            w.tempDir ++ "/ocr_result_".toList ++ number run.outputTime, "-l".toList, language,
            "--oem".toList, number e.m_ocrEngineMode,
            "--psm".toList, number e.m_pageSegmentationMode, "txt".toList, "tsv".toList] ++
            (if e.m_tessDataPath = [] then [] else ["--tessdata-dir".toList, e.m_tessDataPath]))] := by
  obtain ⟨f1, f2, f3, f4, -⟩ := initializeEngine_fields e w
  unfold performOCR
  dsimp only
  rw [initializeEngine_guarded]
  generalize initializeEngine e w = init at hinit f1 f2 f3 f4
  have hne : (w.tempDir ++ "/ocr_temp_".toList ++ number run.saveTime ++
      ".png".toList).isEmpty = false := by
    simp [List.isEmpty_iff]
  have hdata : (if (!init.2.1.m_tessDataPath.isEmpty) = true then
        ["--tessdata-dir".toList, init.2.1.m_tessDataPath] else []) =
      (if e.m_tessDataPath = [] then [] else ["--tessdata-dir".toList, e.m_tessDataPath]) := by
    rw [f2]
    cases e.m_tessDataPath <;> simp
  simp only [hinit, Bool.not_true, Bool.false_eq_true, if_false, hnull, saveImageToTempFile,
    hsave, if_true, hne, f1, f3, f4, hdata]
  split_ifs
  all_goals
    simp only [List.filter_append, ocrWaitLoop_no_start, cleanupTempFiles_no_start,
      bundledSetupChecked_no_start, List.append_nil, List.nil_append]
    simp [OCREffect.isProcessStart, List.filter_cons]

/-- C22. For every sequence of calls of `setOCREngineMode` and `setPageSegmentationMode`
with arbitrary integers, a call of `performOCR` that gets as far as the recognition tool
starts it with exactly the arguments input image, output base, `-l`, language code,
`--oem`, `o`, `--psm`, `p`, `txt`, `tsv`, followed by `--tessdata-dir` and the data
directory iff that is not empty; `o` and `p` are the arguments of the most recent call
of the respective setter clamped by `min(max(mode, 0), 13)`, and the value the engine
had when there was no such call, which is 3 for an engine as constructed.  The only other
process starts of the call are those of the initialisation. -/
theorem performOCR_arguments {F : Type} (ops : FloatOps F) (inst : Installation)
    (e0 : Engine) (calls : List ModeCall) (w : World) (run : TesseractRun) (fs : Files)
    (image : QImage) (language : QString)
    (hinit : (initializeEngine (runModeCalls e0 calls) w).1 = true)
    (hnull : image.isNull = false) (hsave : run.saveOk = true) :
    (performOCR ops (runModeCalls e0 calls) w run fs image language).trace.filter
        OCREffect.isProcessStart =
      (initializeEngine (runModeCalls e0 calls) w).2.2.filter OCREffect.isProcessStart ++
        [OCREffect.processStart e0.m_tesseractPath
          (argumentsAsSpecified
            (w.tempDir ++ "/ocr_temp_".toList ++ number run.saveTime ++ ".png".toList)
            (w.tempDir ++ "/ocr_result_".toList ++ number run.outputTime) language
            (engineModeInForce e0.m_ocrEngineMode calls)
            (segmentationModeInForce e0.m_pageSegmentationMode calls) e0.m_tessDataPath)] ∧
      (TesseractOCREngine.new inst).m_ocrEngineMode = 3 ∧
      (TesseractOCREngine.new inst).m_pageSegmentationMode = 3 ∧
      engineModeInForce e0.m_ocrEngineMode [] = e0.m_ocrEngineMode ∧
      segmentationModeInForce e0.m_pageSegmentationMode [] = e0.m_pageSegmentationMode := by
  obtain ⟨-, g1, g2, -⟩ := runModeCalls_fields e0 calls
  obtain ⟨m1, m2⟩ := runModeCalls_modes e0 calls
  refine ⟨?_, ?_, ?_, rfl, rfl⟩
  · rw [performOCR_process_starts ops _ w run fs image language hinit hnull hsave, g1, g2, m1, m2]
    rfl
  · unfold TesseractOCREngine.new
    dsimp only
    split <;> (try split_ifs) <;> rfl
  · unfold TesseractOCREngine.new
    dsimp only
    split <;> (try split_ifs) <;> rfl

/-- Witness for C22: on the worked engine the calls `setOCREngineMode(99)`,
`setPageSegmentationMode(-4)`, `setOCREngineMode(7)` give `--oem 7 --psm 0`. -/
theorem performOCR_arguments_witness :
    (performOCR exactOps
        (runModeCalls exampleEngine [ModeCall.setOCREngineMode 99,
          ModeCall.setPageSegmentationMode (-4), ModeCall.setOCREngineMode 7])
        exampleWorld (cleanRun "abc\n".toList) [] exampleImage
        "eng".toList).trace.filter OCREffect.isProcessStart =
      [OCREffect.processStart "tesseract".toList
        ["/tmp/ocr_temp_1700000000000.png".toList, "/tmp/ocr_result_1700000000001".toList,
          "-l".toList, "eng".toList, "--oem".toList, "7".toList, "--psm".toList, "0".toList,
          "txt".toList, "tsv".toList]] :=
  (performOCR_arguments exactOps plainInstallation exampleEngine
    [ModeCall.setOCREngineMode 99, ModeCall.setPageSegmentationMode (-4),
      ModeCall.setOCREngineMode 7]
    exampleWorld (cleanRun "abc\n".toList) [] exampleImage "eng".toList
    (by decide) (by decide) (by decide)).1.trans (by decide)

/-! ## The validation loop of the rasterizer -/

/-- C25. When the rasterizer has exited cleanly, the paths that
`convertPDFToImagesWithPoppler` returns are the full paths of exactly the sorted
candidate files that exist with a size above zero: the files of size zero and the
missing files are dropped and the others keep their relative order.  Every returned
path is in `m_tempFiles` when the function returns, which holds the former entries
followed by the returned paths. -/
theorem convertPDFToImagesWithPoppler_valid_files (m_popplerPath : QString)
    (m_tempFiles : List QString) (w : PopplerRun) (pdfPath outputDir : QString)
    (hstarted : w.started = true) (hnormal : w.exitNormal = true) (hcode : w.exitCode = 0) :
    (convertPDFToImagesWithPoppler m_popplerPath m_tempFiles w pdfPath outputDir).1 =
        ((stdSort pageNumberComparator
          (if w.pageFiles.isEmpty then w.pngFiles else w.pageFiles)).filter (fun f =>
            match w.fileSize (absoluteFilePath outputDir f) with
            | some size => decide (0 < size)
            | none => false)).map (absoluteFilePath outputDir) ∧
      ((convertPDFToImagesWithPoppler m_popplerPath m_tempFiles w pdfPath outputDir).1).Sublist
        ((stdSort pageNumberComparator
          (if w.pageFiles.isEmpty then w.pngFiles else w.pageFiles)).map
            (absoluteFilePath outputDir)) ∧
      (convertPDFToImagesWithPoppler m_popplerPath m_tempFiles w pdfPath outputDir).2.1 =
        m_tempFiles ++
          (convertPDFToImagesWithPoppler m_popplerPath m_tempFiles w pdfPath outputDir).1 ∧
      ∀ p ∈ (convertPDFToImagesWithPoppler m_popplerPath m_tempFiles w pdfPath outputDir).1,
        p ∈ (convertPDFToImagesWithPoppler m_popplerPath m_tempFiles w pdfPath outputDir).2.1 := by
  have h1 : (convertPDFToImagesWithPoppler m_popplerPath m_tempFiles w pdfPath outputDir).1 =
      ((stdSort pageNumberComparator
        (if w.pageFiles.isEmpty then w.pngFiles else w.pageFiles)).filter (fun f =>
          match w.fileSize (absoluteFilePath outputDir f) with
          | some size => decide (0 < size)
          | none => false)).map (absoluteFilePath outputDir) := by
    simp only [convertPDFToImagesWithPoppler, hstarted, hnormal, hcode, if_true]
    simp [validFiles_eq_filter]
  have h3 := convertPDFToImagesWithPoppler_tracked m_popplerPath m_tempFiles w pdfPath outputDir
  refine ⟨h1, ?_, h3, ?_⟩
  · rw [h1]
    exact (List.filter_sublist _).map _
  · intro p hp
    rw [h3]
    exact List.mem_append_right _ hp

/-- Witness for C25: of `page-2.png` (empty), `page-1.png`, `page-4.png` (missing) and
`page-3.png` the pages 1 and 3 are returned, in this order, and tracked. -/
theorem convertPDFToImagesWithPoppler_valid_files_witness :
    (convertPDFToImagesWithPoppler "pdftoppm".toList ["/tmp/old.png".toList]
        truncatedRasterRun "in.pdf".toList "/tmp/out".toList).1 =
      ["/tmp/out/page-1.png".toList, "/tmp/out/page-3.png".toList] ∧
    (convertPDFToImagesWithPoppler "pdftoppm".toList ["/tmp/old.png".toList]
        truncatedRasterRun "in.pdf".toList "/tmp/out".toList).2.1 =
      ["/tmp/old.png".toList, "/tmp/out/page-1.png".toList, "/tmp/out/page-3.png".toList] :=
  have h := convertPDFToImagesWithPoppler_valid_files "pdftoppm".toList ["/tmp/old.png".toList]
    truncatedRasterRun "in.pdf".toList "/tmp/out".toList rfl rfl rfl
  ⟨h.1.trans (by decide), h.2.2.1.trans (by decide)⟩

/-! ## Degenerate target sizes -/

/-- C27, the failing input.  An image of 1000 by 3 pixels under the width limit 100:
the width step computes the target size 100 by 0, and `resizeImage` returns a null
image although the input is not null. -/
theorem resizeImage_null_result :
    ribbon.isNull = false ∧
      heightStep (widthStep ribbon.size 100) 0 = { wd := 100, ht := 0 } ∧
      (resizeImage blankResample ribbon 100 0).isNull = true := by
  decide

/-! ## Range of the confidence -/

/-- The confidence of a table is the score of its counted confidences. -/
theorem parseConfidenceFromTSV_mean {F : Type} (ops : FloatOps F) (content : QString) :
    parseConfidenceFromTSV ops (some content) =
      meanConfidence ops (countedConfidences ops content) := by
  unfold parseConfidenceFromTSV countedConfidences
  by_cases hl : (splitSkipEmpty content '\n').length ≤ 1
  · have hd : (splitSkipEmpty content '\n').drop 1 = [] := by
      rw [List.drop_eq_nil_iff]; exact hl
    simp [hl, hd, meanConfidence]
  · simp only [hl, if_false, foldl_tsvRow, Nat.zero_add]
    cases hc : ((splitSkipEmpty content '\n').drop 1).filterMap (rowConfidence ops) with
    | nil => simp [meanConfidence]
    | cons c cs => simp [meanConfidence]

/-- In exact arithmetic a counted confidence is not negative. -/
theorem rowConfidence_nonneg (line : QString) (c : ℚ)
    (h : rowConfidence exactOps line = some c) : 0 ≤ c := by
  unfold rowConfidence at h
  dsimp only at h
  split_ifs at h
  cases hp : exactOps.toFloat ((split line '\t').getD 10 []) with
  | none => rw [hp] at h; cases h
  | some conf =>
    rw [hp] at h
    dsimp only at h
    split_ifs at h with hc
    have h1 : exactOps.nonNegative conf = true := by
      cases hn : exactOps.nonNegative conf
      · rw [hn] at hc; simp at hc
      · rfl
    cases h
    exact of_decide_eq_true h1

theorem foldl_add_bounds (l : List ℚ) (acc : ℚ) (hl : ∀ c ∈ l, 0 ≤ c ∧ c ≤ 100) :
    acc ≤ l.foldl (fun a b => a + b) acc ∧
      l.foldl (fun a b => a + b) acc ≤ acc + (l.length : ℚ) * 100 := by
  induction l generalizing acc with
  | nil => simp
  | cons c l ih =>
    have hc := hl c (List.mem_cons_self _ _)
    obtain ⟨h1, h2⟩ := ih (acc + c) (fun d hd => hl d (List.mem_cons_of_mem _ hd))
    simp only [List.foldl_cons, List.length_cons, Nat.cast_add, Nat.cast_one]
    constructor
    · linarith [hc.1]
    · linarith [hc.2]

/-- In exact arithmetic, the confidence of a table whose counted confidences are all at
most 100 lies between 0 and 1. -/
theorem parseConfidenceFromTSV_exact_range (tsv : Option QString)
    (h : ∀ content, tsv = some content → ∀ c ∈ countedConfidences exactOps content, c ≤ 100) :
    0 ≤ parseConfidenceFromTSV exactOps tsv ∧ parseConfidenceFromTSV exactOps tsv ≤ 1 := by
  cases tsv with
  | none =>
    have : parseConfidenceFromTSV exactOps none = 4 / 5 := rfl
    rw [this]
    constructor <;> norm_num
  | some content =>
    rw [parseConfidenceFromTSV_mean]
    have hb : ∀ c ∈ countedConfidences exactOps content, 0 ≤ c ∧ c ≤ 100 := by
      intro c hc
      refine ⟨?_, h content rfl c hc⟩
      unfold countedConfidences at hc
      rcases List.mem_filterMap.mp hc with ⟨line, _, hline⟩
      exact rowConfidence_nonneg line c hline
    generalize countedConfidences exactOps content = counted at hb
    cases counted with
    | nil =>
      have : meanConfidence exactOps ([] : List ℚ) = 4 / 5 := rfl
      rw [this]
      constructor <;> norm_num
    | cons c cs =>
      have hm : meanConfidence exactOps (c :: cs) =
          (c :: cs).foldl (fun a b => a + b) 0 / (((c :: cs).length : ℚ) * 100) := rfl
      rw [hm]
      obtain ⟨h1, h2⟩ := foldl_add_bounds (c :: cs) 0 hb
      have hpos : (0 : ℚ) < ((c :: cs).length : ℚ) * 100 := by
        have : (0 : ℚ) < ((c :: cs).length : ℚ) := by
          simp only [List.length_cons, Nat.cast_add, Nat.cast_one]
          positivity
        positivity
      constructor
      · exact div_nonneg h1 (le_of_lt hpos)
      · rw [div_le_one hpos]
        linarith

/-- A rasterizer that fails to start or does not exit cleanly yields no image file. -/
theorem convertPDFToImagesWithPoppler_failed (m_popplerPath : QString)
    (m_tempFiles : List QString) (w : PopplerRun) (pdfPath outputDir : QString)
    (h : w.started = false ∨ w.exitNormal = false ∨ w.exitCode ≠ 0) :
    (convertPDFToImagesWithPoppler m_popplerPath m_tempFiles w pdfPath outputDir).1 = [] := by
  unfold convertPDFToImagesWithPoppler
  dsimp only
  cases hs : w.started
  · simp
  · have hb : (!w.exitNormal || w.exitCode != 0) = true := by
      rcases h with h | h | h
      · rw [hs] at h; cases h
      · simp [h]
      · simp [h]
    simp only [if_true, hb]

/-- C23, as amended.  The error message of a failed `processPDFFile` tells three
conditions apart: the rasterizer is not available; the conversion yields no image file,
which is the one message for a rasterizer that failed to start, one that did not exit
cleanly, and one that left no file of non-zero size; and image files were produced but
none of them loads as an image.  The three messages are pairwise different. -/
theorem processPDFFile_errorMessage (m_popplerPath : QString) (m_tempFiles : List QString)
    (w : PdfWorld) (fs : Files) (filePath : QString) (maxWidth maxHeight : Int) :
    ((isPopplerAvailable m_popplerPath w).1 = false →
        (processPDFFile m_popplerPath m_tempFiles w fs filePath maxWidth
          maxHeight).result.success = false ∧
        (processPDFFile m_popplerPath m_tempFiles w fs filePath maxWidth
          maxHeight).result.errorMessage =
          "Poppler不可用。请确保Poppler已正确安装并配置路径".toList) ∧
      ((isPopplerAvailable m_popplerPath w).1 = true →
        (w.raster.started = false ∨ w.raster.exitNormal = false ∨ w.raster.exitCode ≠ 0 ∨
          (convertPDFToImagesWithPoppler m_popplerPath m_tempFiles w.raster filePath
            (w.tempDir ++ "/ocr_pdf_".toList ++ number w.now)).1 = []) →
        (processPDFFile m_popplerPath m_tempFiles w fs filePath maxWidth
          maxHeight).result.success = false ∧
        (processPDFFile m_popplerPath m_tempFiles w fs filePath maxWidth
          maxHeight).result.errorMessage = "无法转换PDF文件".toList) ∧
      ((isPopplerAvailable m_popplerPath w).1 = true →
        (convertPDFToImagesWithPoppler m_popplerPath m_tempFiles w.raster filePath
          (w.tempDir ++ "/ocr_pdf_".toList ++ number w.now)).1 ≠ [] →
        ((processPDFFile m_popplerPath m_tempFiles w fs filePath maxWidth
            maxHeight).result.success = false →
          (processPDFFile m_popplerPath m_tempFiles w fs filePath maxWidth
            maxHeight).result.images = [] ∧
          (processPDFFile m_popplerPath m_tempFiles w fs filePath maxWidth
            maxHeight).result.errorMessage = "无法从PDF文件中提取图像".toList) ∧
        ((processPDFFile m_popplerPath m_tempFiles w fs filePath maxWidth
            maxHeight).result.success = true →
          (processPDFFile m_popplerPath m_tempFiles w fs filePath maxWidth
            maxHeight).result.errorMessage = [])) ∧
      "Poppler不可用。请确保Poppler已正确安装并配置路径".toList ≠ "无法转换PDF文件".toList ∧
      "Poppler不可用。请确保Poppler已正确安装并配置路径".toList ≠
        "无法从PDF文件中提取图像".toList ∧
      "无法转换PDF文件".toList ≠ "无法从PDF文件中提取图像".toList := by
  refine ⟨?_, ?_, ?_, by decide, by decide, by decide⟩
  · intro ha
    unfold processPDFFile
    simp [ha, ProcessResult.new]
  · intro ha hc
    have hnil : (convertPDFToImagesWithPoppler m_popplerPath m_tempFiles w.raster filePath
        (w.tempDir ++ "/ocr_pdf_".toList ++ number w.now)).1 = [] := by
      rcases hc with h | h | h | h
      · exact convertPDFToImagesWithPoppler_failed _ _ _ _ _ (Or.inl h)
      · exact convertPDFToImagesWithPoppler_failed _ _ _ _ _ (Or.inr (Or.inl h))
      · exact convertPDFToImagesWithPoppler_failed _ _ _ _ _ (Or.inr (Or.inr h))
      · exact h
    unfold processPDFFile
    dsimp only
    rw [ha, hnil]
    simp [ProcessResult.new]
  · intro ha hc
    have hne : (convertPDFToImagesWithPoppler m_popplerPath m_tempFiles w.raster filePath
        (w.tempDir ++ "/ocr_pdf_".toList ++ number w.now)).1.isEmpty = false := by
      cases hx : (convertPDFToImagesWithPoppler m_popplerPath m_tempFiles w.raster filePath
        (w.tempDir ++ "/ocr_pdf_".toList ++ number w.now)).1 with
      | nil => exact absurd hx hc
      | cons a l => rfl
    unfold processPDFFile
    dsimp only
    rw [ha, hne]
    simp only [Bool.not_true, Bool.false_eq_true, if_false]
    generalize (pdfLoadLoop w maxWidth maxHeight _ _ 0 ([], [], [])).1 = images
    cases images with
    | nil => simp
    | cons a l => simp

/-- Counterexample to C23 as stated: a rasterizer that fails to start, one that exits
with code 1 and one that leaves only empty files are three different failure
conditions with one and the same error message. -/
theorem processPDFFile_same_message :
    (processPDFFile "pdftoppm".toList [] notStartedPdfWorld ["/home/a.pdf".toList]
        "/home/a.pdf".toList 0 0).result.errorMessage = "无法转换PDF文件".toList ∧
      (processPDFFile "pdftoppm".toList [] badExitPdfWorld ["/home/a.pdf".toList]
        "/home/a.pdf".toList 0 0).result.errorMessage = "无法转换PDF文件".toList ∧
      (processPDFFile "pdftoppm".toList [] emptyFilesPdfWorld ["/home/a.pdf".toList]
        "/home/a.pdf".toList 0 0).result.errorMessage = "无法转换PDF文件".toList ∧
      notStartedPdfWorld.raster.started = false ∧
      (badExitPdfWorld.raster.started = true ∧ badExitPdfWorld.raster.exitCode = 1) ∧
      (emptyFilesPdfWorld.raster.started = true ∧ emptyFilesPdfWorld.raster.exitCode = 0 ∧
        emptyFilesPdfWorld.raster.exitNormal = true) := by
  decide

/-! ## Timeouts -/

theorem ocrWaitLoop_rounds_ge (stillRunning : Nat → Bool) (fuel waits elapsed : Nat) :
    waits ≤ (ocrWaitLoop stillRunning fuel waits elapsed).2 := by
  induction fuel generalizing waits elapsed with
  | zero => simp [ocrWaitLoop]
  | succ fuel ih =>
    unfold ocrWaitLoop
    split
    · exact Nat.le_trans (Nat.le_succ _) (ih _ _)
    · exact Nat.le_refl _

/-- The polling loop of `performOCR` ends for one of its two reasons: the process is no
longer running, or the time is up.  So 60 rounds are enough fuel. -/
theorem ocrWaitLoop_exit (stillRunning : Nat → Bool) (fuel waits elapsed : Nat)
    (hfuel : 30000 ≤ elapsed + 500 * fuel) :
    stillRunning (ocrWaitLoop stillRunning fuel waits elapsed).2 = false ∨
      30000 ≤ elapsed + 500 * ((ocrWaitLoop stillRunning fuel waits elapsed).2 - waits) := by
  induction fuel generalizing waits elapsed with
  | zero => right; simp at hfuel; omega
  | succ fuel ih =>
    unfold ocrWaitLoop
    by_cases h : (stillRunning waits && decide (elapsed < 30000)) = true
    · simp only [h, if_true]
      have hmono := ocrWaitLoop_rounds_ge stillRunning fuel (waits + 1) (elapsed + 500)
      rcases ih (waits + 1) (elapsed + 500) (by omega) with h1 | h1
      · left; exact h1
      · right; omega
    · simp only [h]
      simp only [Bool.and_eq_true, decide_eq_true_eq, not_and_or] at h
      rcases h with h | h
      · left; simpa using h
      · right; simp; omega

theorem popplerWaitLoop_no_call (stillRunning : Nat → Bool) (fuel waits elapsedTime : Nat) :
    (popplerWaitLoop stillRunning fuel waits elapsedTime).1.filter FPEffect.isProcessCall = [] := by
  induction fuel generalizing waits elapsedTime with
  | zero => rfl
  | succ fuel ih =>
    unfold popplerWaitLoop
    dsimp only
    split_ifs
    · simp only [List.filter_cons, FPEffect.isProcessCall, Bool.false_eq_true, if_false]
      exact ih _ _
    · rfl

theorem ocrWaitLoop_no_call (stillRunning : Nat → Bool) (fuel waits elapsedTime : Nat) :
    (ocrWaitLoop stillRunning fuel waits elapsedTime).1.filter OCREffect.isProcessCall = [] := by
  induction fuel generalizing waits elapsedTime with
  | zero => rfl
  | succ fuel ih =>
    unfold ocrWaitLoop
    dsimp only
    split_ifs
    · simp only [List.filter_cons, OCREffect.isProcessCall, Bool.false_eq_true, if_false]
      exact ih _ _
    · rfl

theorem cleanupTempFiles_no_call (e : Engine) :
    (cleanupTempFiles e).2.filter OCREffect.isProcessCall = [] := by
  unfold cleanupTempFiles
  rw [List.filter_eq_nil_iff]
  intro ev hev
  rcases List.mem_map.mp hev with ⟨p, _, rfl⟩
  simp [OCREffect.isProcessCall]

theorem bundledSetupChecked_no_call (e : Engine) (w : World) :
    (bundledSetupChecked e w).filter OCREffect.isProcessCall = [] := by
  unfold bundledSetupChecked
  split_ifs <;> simp [OCREffect.isProcessCall]

/-- The rasterizer on a timeout: when the process is still running at the end of the
polling loop, `terminate()` is called, and `kill()` follows iff the process has not
exited within the five seconds of grace.  These and the start are all the operations on
the process. -/
theorem convertPDFToImagesWithPoppler_process_calls (m_popplerPath : QString)
    (m_tempFiles : List QString) (w : PopplerRun) (pdfPath outputDir : QString)
    (hstarted : w.started = true) :
    (convertPDFToImagesWithPoppler m_popplerPath m_tempFiles w pdfPath outputDir).2.2.filter
        FPEffect.isProcessCall =
      [FPEffect.processStart m_popplerPath
        ["-png".toList, "-r".toList, "200".toList, "-aa".toList, "yes".toList,
          "-aaVector".toList, "yes".toList, pdfPath, outputDir ++ "/page".toList]] ++
        (if w.stillRunning (popplerWaitLoop w.stillRunning 30 0 0).2 = true then
          [FPEffect.processTerminate] ++
            (if w.exitsOnTerminate = true then [] else [FPEffect.processKill])
        else []) := by
  unfold convertPDFToImagesWithPoppler
  dsimp only
  simp only [hstarted, if_true]
  split_ifs
  all_goals
    simp only [List.filter_append, popplerWaitLoop_no_call, List.append_nil]
    simp [FPEffect.isProcessCall, List.filter_cons]

/-- The recognition engine on a timeout: when the process is still running at the end of
the polling loop of `performOCR`, the call fails with the timeout message, and its
operations on the process are its process starts followed by `terminate()`, whether or
not the process exits afterwards. -/
theorem performOCR_timeout_calls {F : Type} (ops : FloatOps F) (e : Engine) (w : World)
    (run : TesseractRun) (fs : Files) (image : QImage) (language : QString)
    (hinit : e.m_initialized = true) (hnull : image.isNull = false)
    (hsave : run.saveOk = true) (hstarted : run.started = true)
    (hrunning : run.stillRunning (ocrWaitLoop run.stillRunning 60 0 0).2 = true) :
    (performOCR ops e w run fs image language).result.success = false ∧
      (performOCR ops e w run fs image language).result.errorMessage =
        "Tesseract处理超时".toList ∧
      (performOCR ops e w run fs image language).trace.filter OCREffect.isProcessCall =
        (performOCR ops e w run fs image language).trace.filter OCREffect.isProcessStart ++
          [OCREffect.processTerminate] := by
  have hne : (w.tempDir ++ "/ocr_temp_".toList ++ number run.saveTime ++
      ".png".toList).isEmpty = false := by
    simp [List.isEmpty_iff]
  unfold performOCR
  simp only [hinit, if_true, Bool.not_true, Bool.false_eq_true, if_false, hnull,
    saveImageToTempFile, hsave, hne, hstarted, hrunning]
  refine ⟨trivial, trivial, ?_⟩
  simp only [List.filter_append, ocrWaitLoop_no_call, cleanupTempFiles_no_call,
    bundledSetupChecked_no_call, ocrWaitLoop_no_start, cleanupTempFiles_no_start,
    bundledSetupChecked_no_start, List.append_nil, List.nil_append]
  simp [OCREffect.isProcessCall, OCREffect.isProcessStart, List.filter_cons]

/-- C24, the failing run.  A recognition process that never exits by itself: after the
sixty polling rounds `performOCR` and the batch single-page variant call `terminate()`
and return the timeout error; their operations on the process are the start and
`terminate()` and no more.  The rasterizer on a process of the same kind, which has not
exited five seconds after `terminate()`, goes on to call `kill()`. -/
theorem recognition_timeout_no_kill :
    (performOCR exactOps exampleEngine exampleWorld hangingRun [] exampleImage
        "eng".toList).result.errorMessage = "Tesseract处理超时".toList ∧
      (performOCR exactOps exampleEngine exampleWorld hangingRun [] exampleImage
        "eng".toList).trace.filter OCREffect.isProcessCall =
        [OCREffect.processStart "tesseract".toList
          ["/tmp/ocr_temp_1700000000000.png".toList, "/tmp/ocr_result_1700000000001".toList,
            "-l".toList, "eng".toList, "--oem".toList, "3".toList, "--psm".toList, "3".toList,
            "txt".toList, "tsv".toList],
          OCREffect.processTerminate] ∧
      (performSinglePageOCRWithBatchProgress exactOps exampleEngine exampleWorld hangingRun
        exampleImage "eng".toList 0 1).1.errorMessage = "Tesseract处理超时".toList ∧
      (performSinglePageOCRWithBatchProgress exactOps exampleEngine exampleWorld hangingRun
        exampleImage "eng".toList 0 1).2.2.filter OCREffect.isProcessCall =
        [OCREffect.processStart "tesseract".toList
          ["/tmp/ocr_temp_1700000000000.png".toList, "/tmp/ocr_result_1700000000001".toList,
            "-l".toList, "eng".toList, "--oem".toList, "3".toList, "--psm".toList, "3".toList,
            "txt".toList, "tsv".toList],
          OCREffect.processTerminate] ∧
      (convertPDFToImagesWithPoppler "pdftoppm".toList [] hangingRasterRun "in.pdf".toList
        "/tmp/out".toList).2.2.filter FPEffect.isProcessCall =
        [FPEffect.processStart "pdftoppm".toList
          ["-png".toList, "-r".toList, "200".toList, "-aa".toList, "yes".toList,
            "-aaVector".toList, "yes".toList, "in.pdf".toList, "/tmp/out/page".toList],
          FPEffect.processTerminate, FPEffect.processKill] := by
  decide

/-! ## Properties of `processFile` -/

/-- The loading loop of `processPDFFile` appends one page name with every image. -/
theorem pdfLoadLoop_lengths (w : PdfWorld) (maxWidth maxHeight : Int) (count : Nat)
    (files : List QString) (i : Nat) (acc : List QImage × List QString × List FPEffect)
    (h : acc.2.1.length = acc.1.length) :
    (pdfLoadLoop w maxWidth maxHeight count files i acc).2.1.length =
      (pdfLoadLoop w maxWidth maxHeight count files i acc).1.length := by
  induction files generalizing i acc with
  | nil => exact h
  | cons file files ih =>
    unfold pdfLoadLoop
    apply ih
    dsimp only
    split_ifs <;> simp [h]

/-- A successful `processPDFFile` returns at least one image, and as many page names as
images, counted by `pageCount`. -/
theorem processPDFFile_success (m_popplerPath : QString) (m_tempFiles : List QString)
    (w : PdfWorld) (fs : Files) (filePath : QString) (maxWidth maxHeight : Int)
    (h : (processPDFFile m_popplerPath m_tempFiles w fs filePath maxWidth
      maxHeight).result.success = true) :
    (processPDFFile m_popplerPath m_tempFiles w fs filePath maxWidth
        maxHeight).result.images ≠ [] ∧
      (processPDFFile m_popplerPath m_tempFiles w fs filePath maxWidth
        maxHeight).result.pageCount =
        (processPDFFile m_popplerPath m_tempFiles w fs filePath maxWidth
          maxHeight).result.images.length ∧
      (processPDFFile m_popplerPath m_tempFiles w fs filePath maxWidth
        maxHeight).result.pageNames.length =
        (processPDFFile m_popplerPath m_tempFiles w fs filePath maxWidth
          maxHeight).result.images.length := by
  unfold processPDFFile at h ⊢
  dsimp only at h ⊢
  generalize convertPDFToImagesWithPoppler m_popplerPath m_tempFiles w.raster filePath
    (w.tempDir ++ "/ocr_pdf_".toList ++ number w.now) = conv at h ⊢
  have hl := pdfLoadLoop_lengths w maxWidth maxHeight conv.1.length conv.1 0 ([], [], []) rfl
  generalize pdfLoadLoop w maxWidth maxHeight conv.1.length conv.1 0 ([], [], []) = loaded
    at h hl ⊢
  split_ifs at h ⊢
  all_goals first
    | (simp [ProcessResult.new] at h; done)
    | (refine ⟨?_, rfl, hl⟩
       intro hc
       simp_all)

/-- A successful `processImageFile` returns one image and one page name. -/
theorem processImageFile_success (w : FileWorld) (filePath : QString)
    (maxWidth maxHeight : Int)
    (h : (processImageFile w filePath maxWidth maxHeight).1.success = true) :
    (processImageFile w filePath maxWidth maxHeight).1.images.length = 1 ∧
      (processImageFile w filePath maxWidth maxHeight).1.pageCount = 1 ∧
      (processImageFile w filePath maxWidth maxHeight).1.pageNames.length = 1 := by
  unfold processImageFile at h ⊢
  dsimp only at h ⊢
  split_ifs at h ⊢
  all_goals first
    | (simp [ProcessResult.new] at h; done)
    | exact ⟨rfl, rfl, rfl⟩

/-- The result of `processFile` is the result of the branch taken for the file type. -/
theorem processFile_result_eq (m_popplerPath : QString) (m_tempFiles : List QString)
    (w : FileWorld) (fs : Files) (filePath : QString) (maxWidth maxHeight : Int)
    (h : fileExists fs filePath = true) :
    (processFile m_popplerPath m_tempFiles w fs filePath maxWidth maxHeight).result =
      (processByType m_popplerPath m_tempFiles w fs filePath maxWidth maxHeight
        (getFileType w.toLower filePath)).result := by
  unfold processFile
  simp only [h, Bool.not_true, Bool.false_eq_true, if_false]
  split_ifs <;> rfl

/-- C30. For every result of `processFile`: `success = true` implies that the image list
is not empty and that `pageCount`, the number of images and the number of page names
agree, and for a file that is not a PDF they are exactly 1; for a file that does not
exist and for a file of an unsupported type, `success = false`, the image list is empty,
`pageCount = 0`, the error message is not empty and no external process is started. -/
theorem processFile_result (m_popplerPath : QString) (m_tempFiles : List QString)
    (w : FileWorld) (fs : Files) (filePath : QString) (maxWidth maxHeight : Int) :
    ((processFile m_popplerPath m_tempFiles w fs filePath maxWidth
          maxHeight).result.success = true →
        (processFile m_popplerPath m_tempFiles w fs filePath maxWidth
          maxHeight).result.images ≠ [] ∧
        (processFile m_popplerPath m_tempFiles w fs filePath maxWidth
          maxHeight).result.pageCount =
          (processFile m_popplerPath m_tempFiles w fs filePath maxWidth
            maxHeight).result.images.length ∧
        (processFile m_popplerPath m_tempFiles w fs filePath maxWidth
          maxHeight).result.pageNames.length =
          (processFile m_popplerPath m_tempFiles w fs filePath maxWidth
            maxHeight).result.images.length ∧
        (getFileType w.toLower filePath ≠ FileType.DOCUMENT_PDF →
          (processFile m_popplerPath m_tempFiles w fs filePath maxWidth
            maxHeight).result.pageCount = 1)) ∧
      (fileExists fs filePath = false ∨ getFileType w.toLower filePath = FileType.UNKNOWN →
        (processFile m_popplerPath m_tempFiles w fs filePath maxWidth
          maxHeight).result.success = false ∧
        (processFile m_popplerPath m_tempFiles w fs filePath maxWidth
          maxHeight).result.images = [] ∧
        (processFile m_popplerPath m_tempFiles w fs filePath maxWidth
          maxHeight).result.pageCount = 0 ∧
        (processFile m_popplerPath m_tempFiles w fs filePath maxWidth
          maxHeight).result.errorMessage ≠ [] ∧
        (processFile m_popplerPath m_tempFiles w fs filePath maxWidth
          maxHeight).trace.filter FPEffect.isProcessStart = []) := by
  constructor
  · intro hs
    cases hex : fileExists fs filePath
    · exfalso
      unfold processFile at hs
      simp [hex, ProcessResult.new] at hs
    · rw [processFile_result_eq _ _ _ _ _ _ _ hex] at hs ⊢
      cases ht : getFileType w.toLower filePath
      case DOCUMENT_PDF =>
        rw [ht] at hs
        obtain ⟨h1, h2, h3⟩ := processPDFFile_success m_popplerPath m_tempFiles w.pdf fs filePath
          maxWidth maxHeight hs
        exact ⟨h1, h2, h3, fun hc => absurd rfl hc⟩
      case UNKNOWN =>
        rw [ht] at hs
        simp [processByType, ProcessResult.new] at hs
      all_goals
        rw [ht] at hs
        obtain ⟨h1, h2, h3⟩ := processImageFile_success w filePath maxWidth maxHeight hs
        refine ⟨?_, ?_, ?_, fun _ => h2⟩
        · intro hc
          have : (processImageFile w filePath maxWidth maxHeight).1.images.length = 0 := by
            simpa [processByType] using congrArg List.length hc
          omega
        · exact h2.trans h1.symm
        · exact h3.trans h1.symm
  · intro h
    cases hex : fileExists fs filePath
    · unfold processFile
      simp [hex, ProcessResult.new, FPEffect.isProcessStart]
    · rcases h with h | h
      · rw [hex] at h; cases h
      · unfold processFile
        simp [hex, h, processByType, ProcessResult.new, FPEffect.isProcessStart]

/-- Worked results of `processFile`: a PDF of three pages, an image file, a file of an
unsupported type and a missing file. -/
theorem processFile_result_witness :
    (processFile "pdftoppm".toList [] exampleFileWorld
        ["/home/a.pdf".toList, "/home/b.PNG".toList, "/home/c.txt".toList]
        "/home/a.pdf".toList 0 0).result.pageCount = 3 ∧
      (processFile "pdftoppm".toList [] exampleFileWorld
        ["/home/a.pdf".toList, "/home/b.PNG".toList, "/home/c.txt".toList]
        "/home/b.PNG".toList 0 0).result.pageCount = 1 ∧
      (processFile "pdftoppm".toList [] exampleFileWorld
        ["/home/a.pdf".toList, "/home/b.PNG".toList, "/home/c.txt".toList]
        "/home/c.txt".toList 0 0).result.errorMessage = "不支持的文件格式: txt".toList ∧
      (processFile "pdftoppm".toList [] exampleFileWorld
        ["/home/a.pdf".toList, "/home/b.PNG".toList, "/home/c.txt".toList]
        "/home/d.png".toList 0 0).result.pageCount = 0 :=
  ⟨by decide,
    ((processFile_result "pdftoppm".toList [] exampleFileWorld
      ["/home/a.pdf".toList, "/home/b.PNG".toList, "/home/c.txt".toList]
      "/home/b.PNG".toList 0 0).1 (by decide)).2.2.2 (by decide),
    by decide,
    ((processFile_result "pdftoppm".toList [] exampleFileWorld
      ["/home/a.pdf".toList, "/home/b.PNG".toList, "/home/c.txt".toList]
      "/home/d.png".toList 0 0).2 (Or.inl (by decide))).2.2.1⟩

/-! ## Progress of `processFile` -/

theorem SortedWithin.nil (lo hi : Nat) : SortedWithin lo hi [] :=
  ⟨List.Pairwise.nil, fun _ hv => absurd hv (List.not_mem_nil _)⟩

theorem SortedWithin.cons {lo hi mid : Nat} {l : List Nat} (a : Nat) (h1 : lo ≤ a)
    (h2 : a ≤ mid) (h3 : a ≤ hi) (hl : SortedWithin mid hi l) : SortedWithin lo hi (a :: l) := by
  refine ⟨List.Pairwise.cons (fun v hv => Nat.le_trans h2 (hl.2 v hv).1) hl.1, ?_⟩
  intro v hv
  rcases List.mem_cons.mp hv with rfl | hv
  · exact ⟨h1, h3⟩
  · exact ⟨Nat.le_trans h1 (Nat.le_trans h2 (hl.2 v hv).1), (hl.2 v hv).2⟩

theorem SortedWithin.append {lo hi mid : Nat} {l1 l2 : List Nat} (h1 : SortedWithin lo mid l1)
    (h2 : SortedWithin mid hi l2) (hlo : lo ≤ mid) (hhi : mid ≤ hi) :
    SortedWithin lo hi (l1 ++ l2) := by
  refine ⟨pairwise_le_append l1 l2 mid h1.1 h2.1 (fun v hv => (h1.2 v hv).2)
    (fun v hv => (h2.2 v hv).1), ?_⟩
  intro v hv
  rcases List.mem_append.mp hv with hv | hv
  · exact ⟨(h1.2 v hv).1, Nat.le_trans (h1.2 v hv).2 hhi⟩
  · exact ⟨Nat.le_trans hlo (h2.2 v hv).1, (h2.2 v hv).2⟩

theorem SortedWithin.mono {lo hi lo1 hi1 : Nat} {l : List Nat} (h : SortedWithin lo hi l)
    (hlo : lo1 ≤ lo) (hhi : hi ≤ hi1) : SortedWithin lo1 hi1 l :=
  ⟨h.1, fun v hv => ⟨Nat.le_trans hlo (h.2 v hv).1, Nat.le_trans (h.2 v hv).2 hhi⟩⟩

theorem SortedWithin.singleton (lo hi a : Nat) (h1 : lo ≤ a) (h2 : a ≤ hi) :
    SortedWithin lo hi [a] :=
  SortedWithin.cons a h1 h2 h2 (SortedWithin.nil hi hi)

theorem progressValues_append (s t : List FPEffect) :
    progressValues (s ++ t) = progressValues s ++ progressValues t := by
  induction s with
  | nil => rfl
  | cons ev s ih => cases ev <;> simp [progressValues, ih]

theorem progressValues_cons (ev : FPEffect) (t : List FPEffect) :
    progressValues (ev :: t) =
      (match ev with
        | FPEffect.progressUpdated percentage _ _ => [percentage]
        | _ => []) ++ progressValues t := by
  cases ev <;> rfl

theorem progressValues_nil : progressValues [] = [] := rfl

theorem progressValues_fileRemove (paths : List QString) :
    progressValues (paths.map FPEffect.fileRemove) = [] := by
  induction paths with
  | nil => rfl
  | cons p paths ih => simpa [progressValues] using ih

/-- The percentages that the polling loop of the rasterizer reports lie between 20 and
35 and do not decrease. -/
theorem popplerWaitLoop_progress (stillRunning : Nat → Bool) (fuel waits elapsed : Nat) :
    SortedWithin (20 + (15 * (elapsed + 2000)) / 60000) 35
      (progressValues (popplerWaitLoop stillRunning fuel waits elapsed).1) := by
  induction fuel generalizing waits elapsed with
  | zero => exact SortedWithin.nil _ _
  | succ fuel ih =>
    unfold popplerWaitLoop
    by_cases h : (stillRunning waits && decide (elapsed < 60000)) = true
    · simp only [h, if_true, progressValues]
      simp only [Bool.and_eq_true, decide_eq_true_eq] at h
      exact SortedWithin.cons _ (Nat.le_refl _) (by omega) (by omega)
        (ih (waits + 1) (elapsed + 2000))
    · simp only [h]
      exact SortedWithin.nil _ _

/-- The percentages that `convertPDFToImagesWithPoppler` reports lie between 15 and 35
and do not decrease. -/
theorem convertPDFToImagesWithPoppler_progress (m_popplerPath : QString)
    (m_tempFiles : List QString) (w : PopplerRun) (pdfPath outputDir : QString) :
    SortedWithin 15 35 (progressValues
      (convertPDFToImagesWithPoppler m_popplerPath m_tempFiles w pdfPath outputDir).2.2) := by
  have hw : SortedWithin 20 35 (progressValues (popplerWaitLoop w.stillRunning 30 0 0).1) :=
    (popplerWaitLoop_progress w.stillRunning 30 0 0).mono (by omega) (Nat.le_refl _)
  have h35 : SortedWithin 35 35 [35] := SortedWithin.singleton 35 35 35 (by omega) (by omega)
  unfold convertPDFToImagesWithPoppler
  dsimp only
  generalize (popplerWaitLoop w.stillRunning 30 0 0).1 = loop at hw
  split_ifs
  all_goals
    simp only [progressValues_append, progressValues_cons, progressValues_nil, List.append_nil,
      List.singleton_append, List.cons_append, List.nil_append]
  all_goals first
    | exact SortedWithin.cons 15 (by omega) (by omega) (by omega)
        (SortedWithin.cons 20 (Nat.le_refl 20) (Nat.le_refl 20) (by omega) hw)
    | exact SortedWithin.cons 15 (by omega) (by omega) (by omega)
        (SortedWithin.cons 20 (Nat.le_refl 20) (Nat.le_refl 20) (by omega)
          (hw.append h35 (by omega) (Nat.le_refl 35)))
    | exact SortedWithin.singleton 15 35 15 (by omega) (by omega)

/-- The percentages that the loading loop of `processPDFFile` reports lie between 50 and
100 and do not decrease, when the loop runs over the last files of `count`. -/
theorem pdfLoadLoop_progress (w : PdfWorld) (maxWidth maxHeight : Int) (count : Nat)
    (files : List QString) (i : Nat) (acc : List QImage × List QString × List FPEffect)
    (hcount : i + files.length ≤ count) :
    ∃ vs : List Nat,
      progressValues (pdfLoadLoop w maxWidth maxHeight count files i acc).2.2 =
        progressValues acc.2.2 ++ vs ∧
      SortedWithin (50 + (50 * (i + 1)) / count) 100 vs := by
  induction files generalizing i acc with
  | nil => exact ⟨[], by simp [pdfLoadLoop], SortedWithin.nil _ _⟩
  | cons file files ih =>
    have hlen : i + 1 + files.length ≤ count := by
      simp only [List.length_cons] at hcount
      omega
    unfold pdfLoadLoop
    obtain ⟨vs, h1, h2⟩ := ih (i + 1)
      ((if (!(w.loadImage file).isNull) = true then
          (acc.1 ++ [if (0 < maxWidth ∨ 0 < maxHeight) ∧
              (maxWidth < ((w.loadImage file).width : Int) ∨
                maxHeight < ((w.loadImage file).height : Int)) then
              resizeImage w.resample (w.loadImage file) maxWidth maxHeight
            else w.loadImage file], acc.2.1 ++ [argInt "页面 %1".toList (i + 1)])
        else (acc.1, acc.2.1)).1,
        (if (!(w.loadImage file).isNull) = true then
          (acc.1 ++ [if (0 < maxWidth ∨ 0 < maxHeight) ∧
              (maxWidth < ((w.loadImage file).width : Int) ∨
                maxHeight < ((w.loadImage file).height : Int)) then
              resizeImage w.resample (w.loadImage file) maxWidth maxHeight
            else w.loadImage file], acc.2.1 ++ [argInt "页面 %1".toList (i + 1)])
        else (acc.1, acc.2.1)).2,
        acc.2.2 ++ [FPEffect.progressUpdated (50 + (50 * (i + 1)) / count) (i + 1) count]) hlen
    refine ⟨(50 + (50 * (i + 1)) / count) :: vs, ?_, ?_⟩
    · dsimp only at h1 ⊢
      rw [h1, progressValues_append, progressValues_cons, progressValues_nil]
      simp
    · have hpos : 0 < count := by omega
      have hle : (50 * (i + 1)) / count ≤ 50 := by
        apply Nat.div_le_of_le_mul
        nlinarith
      have hmono : (50 * (i + 1)) / count ≤ (50 * (i + 1 + 1)) / count :=
        Nat.div_le_div_right (by omega)
      exact SortedWithin.cons _ (Nat.le_refl _) (by omega) (by omega) h2

/-- The percentages that `processPDFFile` reports lie between 5 and 100 and do not
decrease. -/
theorem processPDFFile_progress (m_popplerPath : QString) (m_tempFiles : List QString)
    (w : PdfWorld) (fs : Files) (filePath : QString) (maxWidth maxHeight : Int) :
    SortedWithin 5 100 (progressValues
      (processPDFFile m_popplerPath m_tempFiles w fs filePath maxWidth maxHeight).trace) := by
  have hconv := convertPDFToImagesWithPoppler_progress m_popplerPath m_tempFiles w.raster
    filePath (w.tempDir ++ "/ocr_pdf_".toList ++ number w.now)
  unfold processPDFFile
  dsimp only
  generalize convertPDFToImagesWithPoppler m_popplerPath m_tempFiles w.raster filePath
    (w.tempDir ++ "/ocr_pdf_".toList ++ number w.now) = conv at hconv
  obtain ⟨vs, h1, h2⟩ := pdfLoadLoop_progress w maxWidth maxHeight conv.1.length conv.1 0
    ([], [], []) (by omega)
  have h2' : SortedWithin 50 100 vs := h2.mono (Nat.le_add_right 50 _) (Nat.le_refl _)
  have hhead : ∀ l : List Nat, SortedWithin 15 100 l → SortedWithin 5 100 (5 :: 10 :: l) :=
    fun l hl => SortedWithin.cons 5 (Nat.le_refl 5) (by omega) (by omega)
      (SortedWithin.cons 10 (Nat.le_refl 10) (by omega) (by omega) hl)
  split_ifs
  · exact SortedWithin.nil _ _
  · simp only [isPopplerAvailable, progressValues_append, progressValues_cons,
      progressValues_nil, List.append_nil, List.nil_append, List.cons_append]
    exact hhead _ (hconv.mono (Nat.le_refl _) (by omega))
  all_goals
    simp only [isPopplerAvailable, FileProcessor.cleanupTempFiles, progressValues_append,
      progressValues_cons, progressValues_nil, progressValues_fileRemove, h1, List.append_nil,
      List.nil_append, List.cons_append, List.append_assoc, List.singleton_append]
    refine hhead _ (hconv.append ?_ (by omega) (by omega))
    exact SortedWithin.cons 40 (by omega) (by omega : 40 ≤ 50) (by omega) h2'

/-- The percentages that `processImageFile` reports lie between 30 and 100 and do not
decrease. -/
theorem processImageFile_progress (w : FileWorld) (filePath : QString)
    (maxWidth maxHeight : Int) :
    SortedWithin 30 100 (progressValues (processImageFile w filePath maxWidth maxHeight).2) := by
  unfold processImageFile
  dsimp only
  split_ifs
  all_goals first
    | exact SortedWithin.nil _ _
    | exact SortedWithin.singleton 30 100 30 (by omega) (by omega)
    | exact SortedWithin.cons 30 (Nat.le_refl 30) (by omega : 30 ≤ 60) (by omega)
        (SortedWithin.cons 60 (Nat.le_refl 60) (by omega : 60 ≤ 90) (by omega)
          (SortedWithin.cons 90 (Nat.le_refl 90) (by omega : 90 ≤ 100) (by omega)
            (SortedWithin.singleton 100 100 100 (by omega) (by omega))))

/-- The percentages of `processFile` after the first signal. -/
theorem processFile_progress_eq (m_popplerPath : QString) (m_tempFiles : List QString)
    (w : FileWorld) (fs : Files) (filePath : QString) (maxWidth maxHeight : Int) :
    progressValues (processFile m_popplerPath m_tempFiles w fs filePath maxWidth maxHeight).trace =
      if fileExists fs filePath = true then
        10 :: progressValues (processByType m_popplerPath m_tempFiles w fs filePath maxWidth
          maxHeight (getFileType w.toLower filePath)).trace
      else [] := by
  unfold processFile
  dsimp only
  cases hex : fileExists fs filePath
  · rfl
  · simp only [Bool.not_true, Bool.false_eq_true, if_false, if_true]
    split_ifs
    · simp only [progressValues_append, progressValues_cons, progressValues_nil,
        List.append_nil, List.nil_append, List.cons_append]
    · simp only [progressValues_append, progressValues_cons, progressValues_nil,
        List.append_nil, List.nil_append, List.cons_append]

/-- What holds of the percentages of `processFile`: every one is at most 100; from the
second signal on they do not decrease; and for a file that is not a PDF the whole
sequence does not decrease. -/
theorem processFile_progress (m_popplerPath : QString) (m_tempFiles : List QString)
    (w : FileWorld) (fs : Files) (filePath : QString) (maxWidth maxHeight : Int) :
    (∀ v ∈ progressValues
        (processFile m_popplerPath m_tempFiles w fs filePath maxWidth maxHeight).trace, v ≤ 100) ∧
      ((progressValues
        (processFile m_popplerPath m_tempFiles w fs filePath maxWidth maxHeight).trace).drop
          1).Pairwise (fun a b => a ≤ b) ∧
      (getFileType w.toLower filePath ≠ FileType.DOCUMENT_PDF →
        (progressValues
          (processFile m_popplerPath m_tempFiles w fs filePath maxWidth maxHeight).trace).Pairwise
            (fun a b => a ≤ b)) := by
  rw [processFile_progress_eq]
  cases hex : fileExists fs filePath
  · simp
  · simp only [if_true, List.drop_succ_cons, List.drop_zero]
    have hby : SortedWithin 5 100 (progressValues (processByType m_popplerPath m_tempFiles w fs
        filePath maxWidth maxHeight (getFileType w.toLower filePath)).trace) ∧
        (getFileType w.toLower filePath ≠ FileType.DOCUMENT_PDF →
          SortedWithin 30 100 (progressValues (processByType m_popplerPath m_tempFiles w fs
            filePath maxWidth maxHeight (getFileType w.toLower filePath)).trace)) := by
      cases getFileType w.toLower filePath
      case DOCUMENT_PDF =>
        exact ⟨processPDFFile_progress _ _ _ _ _ _ _, fun hc => absurd rfl hc⟩
      case UNKNOWN =>
        exact ⟨SortedWithin.nil _ _, fun _ => SortedWithin.nil _ _⟩
      all_goals
        exact ⟨(processImageFile_progress w filePath maxWidth maxHeight).mono (by omega)
          (Nat.le_refl _), fun _ => processImageFile_progress w filePath maxWidth maxHeight⟩
    refine ⟨?_, hby.1.1, ?_⟩
    · intro v hv
      rcases List.mem_cons.mp hv with rfl | hv
      · omega
      · exact (hby.1.2 v hv).2
    · intro hne
      exact (SortedWithin.cons 10 (Nat.le_refl 10) (by omega : 10 ≤ 30) (by omega)
        (hby.2 hne)).1

/-- C29, the failing input.  For a PDF of three pages that converts without any error
the percentages of one `processFile` call are 10, 5, 10, 15, 20, 35, 40, 66, 83, 100:
the second signal, the first of `processPDFFile`, falls back from 10 to 5. -/
theorem processFile_progress_falls_back :
    progressValues (processFile "pdftoppm".toList [] exampleFileWorld ["/home/a.pdf".toList]
        "/home/a.pdf".toList 0 0).trace = [10, 5, 10, 15, 20, 35, 40, 66, 83, 100] ∧
      ¬ (progressValues (processFile "pdftoppm".toList [] exampleFileWorld
        ["/home/a.pdf".toList] "/home/a.pdf".toList 0 0).trace).Pairwise (fun a b => a ≤ b) ∧
      (processFile "pdftoppm".toList [] exampleFileWorld ["/home/a.pdf".toList]
        "/home/a.pdf".toList 0 0).result.success = true := by
  decide

/-! ## Blocks of the combined text -/

/-- The number of parts of the combined text is the number of texts that are not empty
and do not begin with the error marker. -/
theorem combinedParts_length (pageNames texts : List QString) (k : Nat)
    (hk : k ≤ texts.length) :
    ((List.range k).foldl (combineStep pageNames texts) []).length =
      (texts.take k).countP (fun t => !t.isEmpty && !startsWith t errorMarker) := by
  induction k with
  | zero => rfl
  | succ k ih =>
    have hkt : k < texts.length := by omega
    rw [List.range_succ, List.foldl_append, List.take_succ, List.getElem?_eq_getElem hkt,
      List.countP_append, ← ih (by omega)]
    simp only [List.foldl_cons, List.foldl_nil, Option.toList]
    unfold combineStep
    have ht : texts.getD k [] = texts[k] := by
      rw [List.getD_eq_getElem?_getD, List.getElem?_eq_getElem hkt]; rfl
    simp only [ht]
    by_cases hc : (!texts[k].isEmpty && !startsWith texts[k] errorMarker) = true
    · rw [if_pos hc]
      simp [hc]
    · rw [if_neg hc]
      simp [hc]

theorem countP_eq_iff_of_imp {α : Type} (p q : α → Bool) (l : List α)
    (h : ∀ x, p x = true → q x = true) :
    l.countP p ≤ l.countP q ∧
      (l.countP p = l.countP q ↔ ∀ x ∈ l, q x = true → p x = true) := by
  induction l with
  | nil => simp
  | cons a l ih =>
    obtain ⟨h1, h2⟩ := ih
    simp only [List.countP_cons, List.mem_cons, forall_eq_or_imp]
    cases hp : p a <;> cases hq : q a
    · simp only [Bool.false_eq_true, if_false, Nat.add_zero, false_implies, true_and]
      exact ⟨h1, h2⟩
    · simp only [Bool.false_eq_true, if_false, if_true, Nat.add_zero, true_implies, false_and,
        iff_false]
      exact ⟨by omega, by omega⟩
    · have := h a hp
      rw [hq] at this
      cases this
    · simp only [if_true, true_implies, true_and]
      exact ⟨by omega, by rw [← h2]; omega⟩

/-- The text recorded for a page gets a block exactly when the page contributes. -/
theorem entryText_contributes {F : Type} (ops : FloatOps F) (run : TesseractRun)
    (image : QImage) (i : Nat) :
    (!(entryText ops run image i).isEmpty && !startsWith (entryText ops run image i) errorMarker) =
      pageContributes ops run image := by
  unfold pageContributes
  cases hp : pageSucceeds ops run image
  · rw [entryText_startsWith_marker ops run image i hp]
    simp
  · have hp' := hp
    unfold pageSucceeds at hp'
    simp only [Bool.and_eq_true, Bool.not_eq_true'] at hp'
    have ht : entryText ops run image i = trimmed (readOCRResultFromFile run.outputText) := by
      unfold entryText
      simp only [hp'.1, Bool.false_eq_true, if_false, hp'.2, if_true]
      exact (recognitionOutcome_success ops run image hp'.2).1
    rw [ht]
    simp

/-- The parts of the combined text, in closed form: one part for every index whose text
is not empty and does not begin with the error marker, in increasing order of the
index. -/
theorem combinedParts_closed (pageNames texts : List QString) (k : Nat) :
    (List.range k).foldl (combineStep pageNames texts) [] =
      ((List.range k).filter (fun i =>
          !(texts.getD i []).isEmpty && !startsWith (texts.getD i []) errorMarker)).map
        (fun i => arg (arg "=== %1 ===\n%2".toList (pageNames.getD i [])) (texts.getD i [])) := by
  induction k with
  | zero => rfl
  | succ k ih =>
    rw [List.range_succ, List.foldl_append, ih, List.filter_append, List.map_append]
    simp only [List.foldl_cons, List.foldl_nil]
    unfold combineStep
    by_cases hc : (!(texts.getD k []).isEmpty && !startsWith (texts.getD k []) errorMarker) = true
    · simp only [hc, if_true, List.filter_cons, List.filter_nil, List.map_cons, List.map_nil]
    · simp only [hc, if_false, List.filter_cons, List.filter_nil, List.map_nil, List.append_nil]
      simp

/-- A list indexed by its positions: filtering and mapping over the positions is
filtering and mapping over the enumerated list. -/
theorem range_filter_map_enum {α β : Type} (l : List α) (g : Nat → Bool) (h : Nat → β) :
    ((List.range l.length).filter g).map h =
      (l.enum.filter (fun p => g p.1)).map (fun p => h p.1) := by
  rw [← List.enum_map_fst l, List.filter_map, List.map_map]
  rfl

/-- The text recorded at the position of a page. -/
theorem entryTexts_getD {F : Type} (ops : FloatOps F) (w : World) (images : List QImage)
    (p : Nat × QImage) (hp : p ∈ images.enum) :
    ((images.enumFrom 0).map (fun q => entryText ops (w.page q.1) q.2 q.1)).getD p.1 [] =
      entryText ops (w.page p.1) p.2 p.1 := by
  obtain ⟨i, image⟩ := p
  have hi : images[i]? = some image := by
    have := List.mk_mem_enum_iff_getElem?.mp hp
    exact this
  rw [List.getD_eq_getElem?_getD, getElem?_map_enumFrom, hi]
  simp

/-- The text recorded for a page whose recognition succeeded is the recognised text,
trimmed. -/
theorem entryText_of_succeeds {F : Type} (ops : FloatOps F) (run : TesseractRun)
    (image : QImage) (i : Nat) (hp : pageSucceeds ops run image = true) :
    entryText ops run image i = trimmed (readOCRResultFromFile run.outputText) := by
  unfold pageSucceeds at hp
  simp only [Bool.and_eq_true, Bool.not_eq_true'] at hp
  unfold entryText
  simp only [hp.1, Bool.false_eq_true, if_false, hp.2, if_true]
  exact (recognitionOutcome_success ops run image hp.2).1

/-- C28, as amended.  For every batch of at least one image on an initialised engine,
the combined text is the parts of `combinedParts` joined by a blank line, and these are,
in page order, one block for every page that contributes: a page whose recognition
succeeded and whose recognised text, trimmed, is neither empty nor begins with the error
marker.  So the number of blocks is at most `processedPages`, the number of pages whose
recognition succeeded, and equals it exactly when every such page contributes. -/
theorem performBatchOCR_blocks {F : Type} (ops : FloatOps F) (e : Engine) (w : World)
    (images : List QImage) (pageNames : List QString) (language : QString)
    (hinit : e.m_initialized = true) (hne : images ≠ []) :
    (performBatchOCR ops e w images pageNames language).1.combinedText =
        join (combinedParts (performBatchOCR ops e w images pageNames language).1.pageNames
          (performBatchOCR ops e w images pageNames language).1.texts) "\n\n".toList ∧
      combinedParts (performBatchOCR ops e w images pageNames language).1.pageNames
          (performBatchOCR ops e w images pageNames language).1.texts =
        (images.enum.filter (fun p => pageContributes ops (w.page p.1) p.2)).map (fun p =>
          arg (arg "=== %1 ===\n%2".toList
              ((performBatchOCR ops e w images pageNames language).1.pageNames.getD p.1 []))
            (trimmed (readOCRResultFromFile (w.page p.1).outputText))) ∧
      (combinedParts (performBatchOCR ops e w images pageNames language).1.pageNames
          (performBatchOCR ops e w images pageNames language).1.texts).length =
        images.enum.countP (fun p => pageContributes ops (w.page p.1) p.2) ∧
      (performBatchOCR ops e w images pageNames language).1.processedPages =
        images.enum.countP (fun p => pageSucceeds ops (w.page p.1) p.2) ∧
      (combinedParts (performBatchOCR ops e w images pageNames language).1.pageNames
          (performBatchOCR ops e w images pageNames language).1.texts).length ≤
        (performBatchOCR ops e w images pageNames language).1.processedPages ∧
      ((combinedParts (performBatchOCR ops e w images pageNames language).1.pageNames
          (performBatchOCR ops e w images pageNames language).1.texts).length =
          (performBatchOCR ops e w images pageNames language).1.processedPages ↔
        ∀ p ∈ images.enum, pageSucceeds ops (w.page p.1) p.2 = true →
          pageContributes ops (w.page p.1) p.2 = true) := by
  obtain ⟨-, htexts, -, hproc, -⟩ := batchLoop_spec ops w language images.length images 0
    { engine := e, allTexts := [], allConfidences := [], processedPages := 0, trace := [] }
    hinit
  rw [performBatchOCR_run ops e w images pageNames language hinit hne]
  simp only [htexts, hproc, List.nil_append, Nat.zero_add]
  have hparts : combinedParts (padPageNames images.length images.length pageNames)
      ((images.enumFrom 0).map (fun p => entryText ops (w.page p.1) p.2 p.1)) =
      (images.enum.filter (fun p => pageContributes ops (w.page p.1) p.2)).map (fun p =>
        arg (arg "=== %1 ===\n%2".toList
            ((padPageNames images.length images.length pageNames).getD p.1 []))
          (trimmed (readOCRResultFromFile (w.page p.1).outputText))) := by
    unfold combinedParts
    rw [combinedParts_closed]
    have hl : ((images.enumFrom 0).map
        (fun p => entryText ops (w.page p.1) p.2 p.1)).length = images.length := by simp
    rw [hl, range_filter_map_enum images]
    have hfilter : images.enum.filter (fun p =>
          !(((images.enumFrom 0).map (fun q => entryText ops (w.page q.1) q.2 q.1)).getD p.1
              []).isEmpty &&
            !startsWith (((images.enumFrom 0).map
              (fun q => entryText ops (w.page q.1) q.2 q.1)).getD p.1 []) errorMarker) =
        images.enum.filter (fun p => pageContributes ops (w.page p.1) p.2) := by
      apply List.filter_congr
      intro p hp
      rw [entryTexts_getD ops w images p hp]
      exact entryText_contributes ops (w.page p.1) p.2 p.1
    rw [hfilter]
    apply List.map_congr_left
    intro p hp
    obtain ⟨hmem, hc⟩ := List.mem_filter.mp hp
    have hs : pageSucceeds ops (w.page p.1) p.2 = true := by
      unfold pageContributes at hc
      simp only [Bool.and_eq_true] at hc
      exact hc.1
    rw [entryTexts_getD ops w images p hmem, entryText_of_succeeds ops _ _ _ hs]
  have hlen : (combinedParts (padPageNames images.length images.length pageNames)
      ((images.enumFrom 0).map (fun p => entryText ops (w.page p.1) p.2 p.1))).length =
      images.enum.countP (fun p => pageContributes ops (w.page p.1) p.2) := by
    rw [hparts, List.length_map, List.countP_eq_length_filter]
  have hcmp := countP_eq_iff_of_imp (fun p : Nat × QImage => pageContributes ops (w.page p.1) p.2)
    (fun p : Nat × QImage => pageSucceeds ops (w.page p.1) p.2) images.enum
    (fun p hp => by
      unfold pageContributes at hp
      simp only [Bool.and_eq_true] at hp
      exact hp.1)
  refine ⟨?_, hparts, hlen, ?_, ?_, ?_⟩
  · trivial
  · rfl
  · rw [hlen]; exact hcmp.1
  · rw [hlen]; exact hcmp.2

/-- Witness for C28: in the worked batch of three pages, of which the second fails, the
combined text has two blocks and two pages are processed. -/
theorem performBatchOCR_blocks_witness :
    combinedParts
        (performBatchOCR exactOps exampleEngine exampleWorld threePages ["first".toList]
          "eng".toList).1.pageNames
        (performBatchOCR exactOps exampleEngine exampleWorld threePages ["first".toList]
          "eng".toList).1.texts =
      ["=== first ===\ntext".toList, "=== 页面 3 ===\ntext".toList] ∧
      (performBatchOCR exactOps exampleEngine exampleWorld threePages ["first".toList]
        "eng".toList).1.processedPages = 2 :=
  have h := performBatchOCR_blocks exactOps exampleEngine exampleWorld threePages
    ["first".toList] "eng".toList rfl (by decide)
  ⟨h.2.1.trans (by decide), h.2.2.2.1.trans (by decide)⟩

/-- Counterexample to C28 as stated: three pages whose recognition succeeds with a blank
output are all processed, yet the combined text has no block; and a page whose
recognised text begins with the error marker is processed and has no block either. -/
theorem performBatchOCR_blocks_fewer :
    (performBatchOCR exactOps exampleEngine blankPageWorld threePages [] "eng".toList).1.processedPages
        = 3 ∧
      (performBatchOCR exactOps exampleEngine blankPageWorld threePages []
        "eng".toList).1.combinedText = [] ∧
      (combinedParts
        (performBatchOCR exactOps exampleEngine blankPageWorld threePages []
          "eng".toList).1.pageNames
        (performBatchOCR exactOps exampleEngine blankPageWorld threePages []
          "eng".toList).1.texts).length = 0 ∧
      (performBatchOCR exactOps exampleEngine markerTextWorld [exampleImage] []
        "eng".toList).1.processedPages = 1 ∧
      (performBatchOCR exactOps exampleEngine markerTextWorld [exampleImage] []
        "eng".toList).1.texts = ["错误: 404".toList] ∧
      (performBatchOCR exactOps exampleEngine markerTextWorld [exampleImage] []
        "eng".toList).1.combinedText = [] := by
  decide

/-- The null image of the degenerate target size reaches the caller: `processFile` on an
image file of 1000 by 3 pixels with the width limit 100 reports success with one image,
which is null. -/
theorem processFile_null_image :
    (processFile "pdftoppm".toList []
        { exampleFileWorld with reader := { canRead := true, errorString := [], read := ribbon } }
        ["/home/b.png".toList] "/home/b.png".toList 100 0).result.success = true ∧
      (processFile "pdftoppm".toList []
        { exampleFileWorld with reader := { canRead := true, errorString := [], read := ribbon } }
        ["/home/b.png".toList] "/home/b.png".toList 100 0).result.images.map QImage.isNull =
        [true] := by
  decide

end ConvenientOCR
